import Mathlib

/-!
Pharos payment verifier: a shallow embedding of `src/server/mcp/pharos-verifier.js`
and `src/server/mcp/config.js`.

The JavaScript functions `toBaseUnits`, `verifySolanaUsdcTransfer` and
`getNetworkConfigFromRequest` are translated into Lean functions, and the
properties that the specification states about them are proved.

Modelling conventions.

* A JavaScript string is a list of characters (`Str`).  `jsLength` is the
  `.length` of the string, counted in UTF-16 code units.
* `BigInt` values are `Int`.  Resource limits (maximal string length, memory)
  are not modelled.
* Number values are `JsNum`: `NaN` or an integer.
* A thrown exception is the `error` branch of `Except JsError _`; only the
  `message` of an exception is ever read by the source.
* Parts of the JavaScript runtime that the source calls but that are too large
  to embed (`String.prototype.toLowerCase`, the text of the `SyntaxError` raised
  by `BigInt`) are fields of `Runtime`; every theorem holds for every runtime.
* `MCP_CONFIG.payments` is a parameter (`Payments`) of the functions that read it;
  `MCP_CONFIG_payments` is the value that `config.js` computes from the
  environment (`Env`), with `Number` on strings as a parameter.
* A property read `NETWORK_CONFIGS[key]` on the object literal finds the entries of
  the table and the properties inherited from `Object.prototype` (`TableLookup`).
* `jsonRpc` is the injected RPC capability: the outcome of each call is given by
  an `Rpc` value, and the calls and delays performed are recorded as a list of
  `Event`s.
* `Request`, `Tx` and `Receipt` give the fields of a request, of a transaction and
  of a receipt the types of the data model of the specification (strings, or a
  number for `decimals`); each field may be absent, and a string may hold any
  text.  `verifySolanaUsdcTransfer` is the verifier on these.
* `RawRequest`, `RawTx` and `RawReceipt` drop that typing: a field on which the
  source calls a method or a conversion holds any JSON value or `undefined`
  (`JsValue`), and the hash may be `null`.  `verifyRaw` is the verifier on these;
  it can end in an exception, and `verifyRaw_toRaw` shows that on typed values
  it is `verifySolanaUsdcTransfer`.
-/

namespace Pharos

/-! ## Strings -/

/-- JavaScript string. -/
abbrev Str := List Char

/-- The value thrown by `throw new Error(message)` and by the built-ins. -/
structure JsError where
  message : Str
deriving DecidableEq

/-- Number values: `NaN` and the integer-valued numbers.  Fractional and infinite
numbers are outside the model. -/
inductive JsNum where
  | nan
  | int (i : Int)
deriving DecidableEq

/-- Parts of the JavaScript runtime used by the source and kept abstract. -/
structure Runtime where
  /-- The method `String.prototype.toLowerCase`. -/
  toLowerCase : Str → Str
  /-- The `message` of the `SyntaxError` with which `BigInt(s)` rejects `s`. -/
  bigIntSyntaxError : Str → Str
  /-- Lower-casing maps the empty string, and only the empty string, to the empty
  string. -/
  toLowerCase_eq_nil : ∀ s, toLowerCase s = [] ↔ s = []

/-- ECMAScript `WhiteSpace` and `LineTerminator` code points: what `trim` removes
and what `BigInt` skips around an integer literal. -/
def isJsWhiteSpace (c : Char) : Bool :=
  let n := c.toNat
  n = 0x09 || n = 0x0A || n = 0x0B || n = 0x0C || n = 0x0D || n = 0x20 || n = 0xA0 ||
  n = 0x1680 || (0x2000 ≤ n && n ≤ 0x200A) || n = 0x2028 || n = 0x2029 || n = 0x202F ||
  n = 0x205F || n = 0x3000 || n = 0xFEFF

/-- The property `s.length`: the number of UTF-16 code units. -/
def jsLength : Str → Nat
  | [] => 0
  | c :: cs => (if c.toNat < 0x10000 then 1 else 2) + jsLength cs

/-- The method call `s.trim()`. -/
def jsTrim (s : Str) : Str :=
  ((s.dropWhile isJsWhiteSpace).reverse.dropWhile isJsWhiteSpace).reverse

/-- The method call `s.split('.')`: the segments between all the dots; never empty. -/
def splitDot : Str → List Str
  | [] => [[]]
  | c :: cs =>
    if c = '.' then [] :: splitDot cs
    else
      match splitDot cs with
      | [] => [[c]]
      | seg :: rest => (c :: seg) :: rest

/-- The abstract operation `ToLength(n)` as used by `padEnd`. -/
def toLength : JsNum → Nat
  | .nan => 0
  | .int i => i.toNat

/-- The method call `s.padEnd(target, '0')`. -/
def padEndZero (s : Str) (target : JsNum) : Str :=
  s ++ List.replicate (toLength target - jsLength s) '0'

/-- The method call `s.replace(/^0+/, '')`. -/
def stripLeadingZeros (s : Str) : Str :=
  s.dropWhile (fun c => c == '0')

/-- The expression `a || b` on strings: the empty string is falsy. -/
def strOr (a b : Str) : Str :=
  if a.isEmpty then b else a

/-- The expression `a || b` where `a` may be `undefined`. -/
def optOr (a : Option Str) (b : Str) : Str :=
  match a with
  | some s => strOr s b
  | none => b

/-- Truthiness of a string that may be `undefined`. -/
def isTruthy (a : Option Str) : Bool :=
  match a with
  | some s => !s.isEmpty
  | none => false

/-- The expression `a || b` on numbers: `NaN` and `0` are falsy. -/
def numOr (a b : JsNum) : JsNum :=
  match a with
  | .int i => if i = 0 then b else a
  | .nan => b

/-- Decimal rendering of a natural number. -/
def natToStr (n : Nat) : Str :=
  Nat.toDigits 10 n

/-- The method `BigInt.prototype.toString()`, also the rendering of an integer-valued number
in a template literal. -/
def intToStr : Int → Str
  | .ofNat n => natToStr n
  | .negSucc n => '-' :: natToStr (n + 1)

/-- Rendering of a number in a template literal. -/
def numToStr : JsNum → Str
  | .nan => "NaN".toList
  | .int i => intToStr i

/-! ## `BigInt(string)` -/

/-- Value of a digit character in a radix up to 16, if it is one. -/
def digitValue (radix : Nat) (c : Char) : Option Nat :=
  let n := c.toNat
  let v : Option Nat :=
    if 48 ≤ n ∧ n ≤ 57 then some (n - 48)
    else if 97 ≤ n ∧ n ≤ 102 then some (n - 87)
    else if 65 ≤ n ∧ n ≤ 70 then some (n - 55)
    else none
  match v with
  | some d => if d < radix then some d else none
  | none => none

/-- Reads the remaining digits of a literal, most significant first. -/
def parseDigitsFrom (radix : Nat) (acc : Nat) : Str → Option Nat
  | [] => some acc
  | c :: cs =>
    match digitValue radix c with
    | some d => parseDigitsFrom radix (acc * radix + d) cs
    | none => none

/-- A non-empty digit sequence in the given radix. -/
def parseDigits (radix : Nat) (s : Str) : Option Nat :=
  match s with
  | [] => none
  | _ => parseDigitsFrom radix 0 s

/-- The grammar `StrIntegerLiteral` of `StringToBigInt`: an optionally signed
decimal literal, or an unsigned literal with prefix `0x`, `0o` or `0b`. -/
def parseIntegerLiteral (s : Str) : Option Int :=
  match s with
  | '0' :: 'x' :: ds => (parseDigits 16 ds).map Int.ofNat
  | '0' :: 'X' :: ds => (parseDigits 16 ds).map Int.ofNat
  | '0' :: 'o' :: ds => (parseDigits 8 ds).map Int.ofNat
  | '0' :: 'O' :: ds => (parseDigits 8 ds).map Int.ofNat
  | '0' :: 'b' :: ds => (parseDigits 2 ds).map Int.ofNat
  | '0' :: 'B' :: ds => (parseDigits 2 ds).map Int.ofNat
  | '+' :: ds => (parseDigits 10 ds).map Int.ofNat
  | '-' :: ds => (parseDigits 10 ds).map (fun n => - Int.ofNat n)
  | ds => (parseDigits 10 ds).map Int.ofNat

/-- The call `BigInt(s)` for a string `s`: surrounding white space is skipped, the empty
text is `0n`, anything that is not an integer literal raises a `SyntaxError`. -/
def jsBigInt (rt : Runtime) (s : Str) : Except JsError Int :=
  let t := jsTrim s
  if t.isEmpty then .ok 0
  else
    match parseIntegerLiteral t with
    | some n => .ok n
    | none => .error ⟨rt.bigIntSyntaxError s⟩

/-! ## Configuration (`MCP_CONFIG.payments` of `config.js`) -/

/-- The object `MCP_CONFIG.payments`. -/
structure Payments where
  network : Str
  tokenType : Str
  recipient : Str
  paymentUrl : Option Str
  explorerBaseUrl : Str
  rpcUrl : Str
  decimals : JsNum
  expiresInSeconds : JsNum

/-! ## `toBaseUnits` -/

/-- The `amount` argument.  The source inspects it only through
`amount === undefined`, `amount === null` and `String(amount)`; `text s` is an
amount whose `String(amount)` is `s` (the string `s` itself, or a number that
prints as `s`). -/
inductive Amount where
  | undefined
  | null
  | text (s : Str)
deriving DecidableEq

/-- The constant `decs` of `toBaseUnits`:
`Number.isFinite(decimals) ? decimals : MCP_CONFIG.payments.decimals || 18`,
where `none` is a `decimals` that is not a number (`undefined`). -/
def resolveDecs (cfg : Payments) (decimals : Option JsNum) : JsNum :=
  match decimals with
  | some (.int i) => .int i
  | _ => numOr cfg.decimals (.int 18)

/-- The comparison `fracPart.length > decs`. -/
def lengthExceeds (len : Nat) (decs : JsNum) : Bool :=
  match decs with
  | .nan => false
  | .int i => decide (i < (len : Int))

/-- The function `toBaseUnits(amount, decimals)`. -/
def toBaseUnits (rt : Runtime) (cfg : Payments) (amount : Amount)
    (decimals : Option JsNum) : Except JsError Int :=
  match amount with
  | .undefined => .error ⟨"amount is required".toList⟩
  | .null => .error ⟨"amount is required".toList⟩
  | .text raw =>
    let decs := resolveDecs cfg decimals
    let str := jsTrim raw
    if str.isEmpty then .error ⟨"amount is empty".toList⟩
    else
      let parts := splitDot str
      let intPartRaw := parts.headD []
      let fracPartRaw := (parts.drop 1).headD []
      let intPart := strOr intPartRaw "0".toList
      let fracPart := fracPartRaw
      if lengthExceeds (jsLength fracPart) decs then
        .error ⟨"Too many decimal places: got ".toList ++ natToStr (jsLength fracPart)
                  ++ ", max ".toList ++ numToStr decs⟩
      else
        let fracPadded := padEndZero fracPart decs
        let combined := intPart ++ fracPadded
        let cleaned := strOr (stripLeadingZeros combined) "0".toList
        jsBigInt rt cleaned

/-! ## The RPC capability and the data it returns -/

/-- The transaction object returned by `eth_getTransactionByHash`; a field that
is absent or `null` is `none`.  `from_` and `to_` are the properties `from` and
`to`. -/
structure Tx where
  from_ : Option Str
  to_ : Option Str
  value : Option Str
deriving DecidableEq

/-- The receipt object returned by `eth_getTransactionReceipt`. -/
structure Receipt where
  status : Option Str
deriving DecidableEq

/-- What one `await jsonRpc(...)` does: it returns `body.result` (`none` is a
`null` result) or it throws. -/
inductive Outcome (α : Type) where
  | result (r : Option α)
  | raised (err : JsError)

/-- The injected RPC capability as seen by one verification call:
`getTransactionByHash n` is the outcome of the polling attempt number `n`
(counted from 0), `getTransactionReceipt` the outcome of the receipt call. -/
structure Rpc where
  getTransactionByHash : Nat → Outcome Tx
  getTransactionReceipt : Outcome Receipt

/-- The observable actions of a verification call. -/
inductive Event where
  /-- The call `jsonRpc(rpcUrl, method, [txHash])`. -/
  | call (rpcUrl method txHash : Str)
  /-- The delay `setTimeout(resolve, ms)`. -/
  | delay (ms : Nat)
deriving DecidableEq

/-! ## `verifySolanaUsdcTransfer` -/

/-- The fields of `networkConfig` that the verifier reads. -/
structure NetworkConfig where
  rpcUrl : Option Str
  explorerBaseUrl : Option Str
  network : Option Str
deriving DecidableEq

/-- The argument object of `verifySolanaUsdcTransfer` with fields of the types of
the data model; `none` is `undefined` (for every field but `signature` the source
treats `null` alike).  `RawRequest` is the argument object without that typing. -/
structure Request where
  signature : Option Str
  amount : Amount
  recipient : Option Str
  decimals : Option JsNum
  expectedWallet : Option Str
  networkConfig : Option NetworkConfig

/-- The object returned by `verifySolanaUsdcTransfer`; `none` is a property that
the object literal does not have. -/
structure Verdict where
  ok : Bool
  code : Str
  message : Str
  explorerUrl : Str
  details : Option (List (Str × Str))
  payer : Option Str
  amountRaw : Option Str
  network : Option Str
deriving DecidableEq

/-- An object literal `{ ok: false, code, message, explorerUrl }`. -/
def Verdict.failure (code message explorerUrl : Str) : Verdict :=
  { ok := false, code := code, message := message, explorerUrl := explorerUrl,
    details := none, payer := none, amountRaw := none, network := none }

/-- The constant `DEFAULT_RPC`. -/
def DEFAULT_RPC (cfg : Payments) : Str :=
  strOr cfg.rpcUrl
    "https://api.zan.top/node/v1/pharos/testnet/35905838255149eaa94c610c79294f0f".toList

/-- The constant `rpcUrl` of `verifySolanaUsdcTransfer`. -/
def resolveRpcUrl (cfg : Payments) (req : Request) : Str :=
  optOr (req.networkConfig.bind fun nc => nc.rpcUrl) (strOr cfg.rpcUrl (DEFAULT_RPC cfg))

/-- The constant `explorerBaseUrl` of `verifySolanaUsdcTransfer`. -/
def resolveExplorerBaseUrl (cfg : Payments) (req : Request) : Str :=
  optOr (req.networkConfig.bind fun nc => nc.explorerBaseUrl)
    (strOr cfg.explorerBaseUrl "https://pharos-testnet.socialscan.io/tx".toList)

/-- The rendering of `txHash` inside a template literal, where `none` is
`undefined`.  A hash that is `null`, which is rendered as `null`, is a value of
`MaybeStr` and is rendered by `MaybeStr.template`. -/
def templateOf (txHash : Option Str) : Str :=
  match txHash with
  | some s => s
  | none => "undefined".toList

/-- The constant `explorerUrl`. -/
def resolveExplorerUrl (cfg : Payments) (req : Request) : Str :=
  resolveExplorerBaseUrl cfg req ++ "/".toList ++ templateOf req.signature

/-- The constant `expectedRecipient` when `recipient` is a string or `undefined`,
on which the method call cannot fail.  The call on a recipient of any type, with
the `TypeError` that it throws before the `try`, is in `verifyRaw`. -/
def resolveExpectedRecipient (rt : Runtime) (cfg : Payments) (req : Request) : Str :=
  rt.toLowerCase (optOr req.recipient (strOr cfg.recipient []))

/-- The constant `decs`: `decimals || MCP_CONFIG.payments.decimals || 18`. -/
def requestDecs (cfg : Payments) (req : Request) : JsNum :=
  match req.decimals with
  | some d => numOr d (numOr cfg.decimals (.int 18))
  | none => numOr cfg.decimals (.int 18)

/-- The call `jsonRpc(rpcUrl, 'eth_getTransactionByHash', [txHash])`. -/
def fetchEvent (rpcUrl txHash : Str) : Event :=
  .call rpcUrl "eth_getTransactionByHash".toList txHash

/-- The call `jsonRpc(rpcUrl, 'eth_getTransactionReceipt', [txHash])`. -/
def receiptEvent (rpcUrl txHash : Str) : Event :=
  .call rpcUrl "eth_getTransactionReceipt".toList txHash

/-- The polling loop `for (let attempt = 0; attempt < maxAttempts; attempt++)`,
with `remaining = maxAttempts - attempt` iterations still to run.  Returns the
final value of `tx` and the calls and delays performed. -/
def pollTransaction (rpc : Rpc) (rpcUrl txHash : Str) (maxAttempts : Nat) :
    Nat → Option Tx × List Event
  | 0 => (none, [])
  | remaining + 1 =>
    let attempt := maxAttempts - (remaining + 1)
    match rpc.getTransactionByHash attempt with
    | .result (some tx) => (some tx, [fetchEvent rpcUrl txHash])
    | _ =>
      let waits := if attempt < maxAttempts - 1 then [Event.delay 2000] else []
      let rest := pollTransaction rpc rpcUrl txHash maxAttempts remaining
      (rest.1, fetchEvent rpcUrl txHash :: (waits ++ rest.2))

/-- The `try` block after the polling loop has found `tx`: from
`const receipt = await jsonRpc(...)` to the final `return`.  An `error` is an
exception that escapes to the outer `catch`. -/
def afterPolling (rt : Runtime) (cfg : Payments) (rpc : Rpc) (req : Request)
    (expectedRecipient explorerUrl : Str) (decs : JsNum) (tx : Tx) :
    Except JsError Verdict :=
  match rpc.getTransactionReceipt with
  | .raised err => .error err
  | .result none =>
    .ok (Verdict.failure "receipt_not_found".toList
          "Transaction receipt not found on chain".toList explorerUrl)
  | .result (some receipt) =>
    if receipt.status ≠ some "0x1".toList then
      .ok (Verdict.failure "tx_failed".toList
            "Transaction status is not successful".toList explorerUrl)
    else
      let from_ := rt.toLowerCase (optOr tx.from_ [])
      let to_ := rt.toLowerCase (optOr tx.to_ [])
      if to_ ≠ expectedRecipient then
        .ok { Verdict.failure "wrong_recipient".toList
                "Payment was sent to a different address".toList explorerUrl with
              details := some [("expectedRecipient".toList, expectedRecipient),
                               ("actualRecipient".toList, to_)] }
      else
        let expectedPayer := rt.toLowerCase (optOr req.expectedWallet [])
        if isTruthy req.expectedWallet && from_ ≠ expectedPayer then
          .ok { Verdict.failure "wallet_mismatch".toList
                  "Payment was sent from a different wallet than expected".toList
                  explorerUrl with
                details := some [("expectedWallet".toList, expectedPayer),
                                 ("actualWallet".toList, from_)] }
        else
          let valueHex := optOr tx.value "0x0".toList
          match jsBigInt rt valueHex with
          | .error err => .error err
          | .ok chainAmount =>
            match toBaseUnits rt cfg req.amount (some decs) with
            | .error err =>
              .ok (Verdict.failure "amount_encode_error".toList
                    ("Failed to encode expected amount: ".toList ++ err.message) explorerUrl)
            | .ok expectedAmount =>
              if chainAmount < expectedAmount then
                .ok { Verdict.failure "amount_too_low".toList
                        "On-chain amount is below invoice requirement".toList explorerUrl with
                      details := some [("expected".toList, intToStr expectedAmount),
                                       ("actual".toList, intToStr chainAmount)] }
              else
                .ok { ok := true
                      code := "ok".toList
                      message := "Payment verified on Pharos testnet".toList
                      explorerUrl := explorerUrl
                      details := none
                      payer := some from_
                      amountRaw := some (intToStr chainAmount)
                      network := some (optOr (req.networkConfig.bind fun nc => nc.network)
                                        (strOr cfg.network "pharos-testnet".toList)) }

/-- The body of the `try` block: the polling loop, then `afterPolling`.  Returns
the verdict, or the exception that escapes the block, together with the calls and
delays performed. -/
def tryBlock (rt : Runtime) (cfg : Payments) (rpc : Rpc) (req : Request)
    (rpcUrl txHash expectedRecipient explorerUrl : Str) (decs : JsNum) :
    Except JsError Verdict × List Event :=
  let maxAttempts := 20
  let polled := pollTransaction rpc rpcUrl txHash maxAttempts maxAttempts
  match polled.1 with
  | none =>
    (.ok (Verdict.failure "tx_not_found".toList
            "Transaction not found on chain after polling".toList explorerUrl), polled.2)
  | some tx =>
    (afterPolling rt cfg rpc req expectedRecipient explorerUrl decs tx,
      polled.2 ++ [receiptEvent rpcUrl txHash])

/-- The outer `try { ... } catch (err) { ... }`. -/
def catchError (explorerUrl : Str) : Except JsError Verdict → Verdict
  | .ok verdict => verdict
  | .error err =>
    Verdict.failure "verification_error".toList
      (strOr err.message "Unknown verification error".toList) explorerUrl

/-- The function `verifySolanaUsdcTransfer`, with the calls and delays it
performs. -/
def verifyTraced (rt : Runtime) (cfg : Payments) (rpc : Rpc) (req : Request) :
    Verdict × List Event :=
  let rpcUrl := resolveRpcUrl cfg req
  let explorerUrl := resolveExplorerUrl cfg req
  match req.signature with
  | none =>
    (Verdict.failure "missing_tx_hash".toList "Missing transaction hash".toList explorerUrl, [])
  | some txHash =>
    if txHash.isEmpty then
      (Verdict.failure "missing_tx_hash".toList "Missing transaction hash".toList explorerUrl, [])
    else
      let expectedRecipient := resolveExpectedRecipient rt cfg req
      if expectedRecipient.isEmpty then
        (Verdict.failure "missing_recipient".toList
          "No recipient configured for payments".toList explorerUrl, [])
      else
        let decs := requestDecs cfg req
        let run := tryBlock rt cfg rpc req rpcUrl txHash expectedRecipient explorerUrl decs
        (catchError explorerUrl run.1, run.2)

/-- The verdict returned by `verifySolanaUsdcTransfer`. -/
def verifySolanaUsdcTransfer (rt : Runtime) (cfg : Payments) (rpc : Rpc) (req : Request) :
    Verdict :=
  (verifyTraced rt cfg rpc req).1

/-! ## Reference notions used to state the properties -/

/-- A decimal digit `0`..`9`. -/
def isDecDigit (c : Char) : Bool :=
  decide (48 ≤ c.toNat) && decide (c.toNat ≤ 57)

/-- The number written by a sequence of decimal digits, most significant first. -/
def digitsValue : Str → Nat
  | [] => 0
  | c :: cs => (c.toNat - 48) * 10 ^ cs.length + digitsValue cs

/-- A valid decimal string: not empty, made of digits and at most one dot. -/
def IsDecimalString (s : Str) : Prop :=
  s ≠ [] ∧ (∀ c ∈ s, isDecDigit c = true ∨ c = '.') ∧ s.count '.' ≤ 1

/-- The text before the first dot. -/
def integerText (s : Str) : Str :=
  s.takeWhile (fun c => c != '.')

/-- All the text after the first dot (empty when there is no dot). -/
def fractionText (s : Str) : Str :=
  (s.dropWhile (fun c => c != '.')).drop 1

/-- The exact rational value of a decimal string. -/
def decimalValue (s : Str) : ℚ :=
  (digitsValue (integerText s) : ℚ)
    + (digitsValue (fractionText s) : ℚ) / (10 : ℚ) ^ (fractionText s).length

/-- The closed set of verdict codes. -/
def verdictCodes : List Str :=
  ["missing_tx_hash".toList, "missing_recipient".toList, "tx_not_found".toList,
   "receipt_not_found".toList, "tx_failed".toList, "wrong_recipient".toList,
   "wallet_mismatch".toList, "amount_encode_error".toList, "amount_too_low".toList,
   "verification_error".toList, "ok".toList]

/-- A verdict whose flag agrees with its code and whose code is in the closed set. -/
def Verdict.WellFormed (v : Verdict) : Prop :=
  (v.ok = false ↔ v.code ≠ "ok".toList) ∧ v.code ∈ verdictCodes

/-- The transaction carried by a polling outcome, if it is a non-null result. -/
def foundTx : Outcome Tx → Option Tx
  | .result (some tx) => some tx
  | _ => none

/-- The attempt `i` (counted from 0) is the first, among the first 20, that
returns a transaction, and that transaction is `tx`. -/
def FirstFoundAt (rpc : Rpc) (i : Nat) (tx : Tx) : Prop :=
  i < 20 ∧ rpc.getTransactionByHash i = .result (some tx) ∧
    ∀ j, j < i → foundTx (rpc.getTransactionByHash j) = none

/-- No attempt among the first 20 returns a transaction. -/
def NoneFound (rpc : Rpc) : Prop :=
  ∀ j, j < 20 → foundTx (rpc.getTransactionByHash j) = none

/-- The trace of `n` fetch attempts separated by delays of 2000 ms. -/
def pollTrace (fetch : Event) : Nat → List Event
  | 0 => []
  | 1 => [fetch]
  | n + 2 => fetch :: Event.delay 2000 :: pollTrace fetch (n + 1)

/-- The request recipient, else the configured default. -/
def effectiveRecipient (cfg : Payments) (req : Request) : Str :=
  optOr req.recipient cfg.recipient

/-- The number of calls of the given RPC method in a trace. -/
def countCalls (method : Str) (events : List Event) : Nat :=
  events.countP fun e =>
    match e with
    | .call _ m _ => m == method
    | .delay _ => false

/-- The number of delays in a trace. -/
def countDelays (events : List Event) : Nat :=
  events.countP fun e =>
    match e with
    | .call _ _ _ => false
    | .delay _ => true

/-- The first transaction returned among the polling outcomes
`start, ..., start + n - 1`. -/
def firstFoundFrom (rpc : Rpc) (start : Nat) : Nat → Option Tx
  | 0 => none
  | n + 1 =>
    match foundTx (rpc.getTransactionByHash start) with
    | some tx => some tx
    | none => firstFoundFrom rpc (start + 1) n

/-- The steps of the validation pipeline in the order of the specification, each
with its failure code and whether its failure condition holds.  The conditions
are read off the request, the polling outcomes and the receipt outcome; data that
is not there (no transaction, no receipt, no decoded amount) is `none`. -/
def pipelineSteps (rt : Runtime) (cfg : Payments) (rpc : Rpc) (req : Request) :
    List (Str × Bool) :=
  let tx := firstFoundFrom rpc 0 20
  let receipt : Option Receipt :=
    match rpc.getTransactionReceipt with
    | .result r => r
    | .raised _ => none
  let expectedRecipient := rt.toLowerCase (effectiveRecipient cfg req)
  let to_ := tx.map fun t => rt.toLowerCase (optOr t.to_ [])
  let from_ := tx.map fun t => rt.toLowerCase (optOr t.from_ [])
  let chainAmount := tx.bind fun t => (jsBigInt rt (optOr t.value "0x0".toList)).toOption
  let expectedAmount := (toBaseUnits rt cfg req.amount (some (requestDecs cfg req))).toOption
  [ ("missing_tx_hash".toList, !isTruthy req.signature),
    ("missing_recipient".toList, expectedRecipient.isEmpty),
    ("tx_not_found".toList, tx.isNone),
    ("receipt_not_found".toList, receipt.isNone),
    ("tx_failed".toList, decide (receipt.bind (fun r => r.status) ≠ some "0x1".toList)),
    ("wrong_recipient".toList, decide (to_ ≠ some expectedRecipient)),
    ("wallet_mismatch".toList,
      isTruthy req.expectedWallet &&
        decide (from_ ≠ some (rt.toLowerCase (optOr req.expectedWallet [])))),
    ("amount_encode_error".toList, expectedAmount.isNone),
    ("amount_too_low".toList,
      match chainAmount, expectedAmount with
      | some c, some e => decide (c < e)
      | _, _ => false) ]

/-- The code of the first step whose failure condition holds, `ok` when none
does. -/
def firstFailure : List (Str × Bool) → Str
  | [] => "ok".toList
  | (code, fails) :: rest => if fails then code else firstFailure rest

/-- A hexadecimal digit. -/
def isHexDigit (c : Char) : Bool :=
  (decide (48 ≤ c.toNat) && decide (c.toNat ≤ 57)) ||
  (decide (97 ≤ c.toNat) && decide (c.toNat ≤ 102)) ||
  (decide (65 ≤ c.toNat) && decide (c.toNat ≤ 70))

/-- A well-formed hex quantity: `0x` followed by at least one hexadecimal digit. -/
def IsHexQuantity (s : Str) : Prop :=
  ∃ ds, s = '0' :: 'x' :: ds ∧ ds ≠ [] ∧ ∀ c ∈ ds, isHexDigit c = true

/-! ## Sample values for evaluating the definitions -/

/-- A concrete runtime for evaluating examples: ASCII lower-casing (which is what
`toLowerCase` does on ASCII text) and the V8 wording of the `BigInt` error. -/
def sampleRuntime : Runtime where
  toLowerCase := fun s => s.map Char.toLower
  bigIntSyntaxError := fun s => "Cannot convert ".toList ++ s ++ " to a BigInt".toList
  toLowerCase_eq_nil := fun s => by cases s <;> simp

/-- A sample `MCP_CONFIG.payments`: the values `config.js` computes when no
environment variable is set. -/
def samplePayments : Payments where
  network := "pharos-testnet".toList
  tokenType := "native".toList
  recipient := "0x49e0329808559a9aa742a3cf01cec9b773a53834".toList
  paymentUrl := none
  explorerBaseUrl := "https://pharos-testnet.socialscan.io/tx".toList
  rpcUrl := "https://api.zan.top/node/v1/pharos/testnet/35905838255149eaa94c610c79294f0f".toList
  decimals := .int 18
  expiresInSeconds := .int 300

/-- A transaction paying 1 PHRS to the default recipient. -/
def sampleTx : Tx where
  from_ := some "0xABCDEF0000000000000000000000000000000001".toList
  to_ := some "0x49E0329808559A9AA742A3CF01CEC9B773A53834".toList
  value := some "0xDE0B6B3A7640000".toList

/-- An RPC capability that finds `tx` at the attempt number `k` and returns a
receipt with the given status. -/
def rpcFoundAt (k : Nat) (tx : Tx) (status : Str) : Rpc where
  getTransactionByHash := fun n => if n = k then .result (some tx) else .result none
  getTransactionReceipt := .result (some ⟨some status⟩)

/-- A request for `amount` with all optional fields absent. -/
def sampleRequest (amount : Str) : Request where
  signature := some "0xabc".toList
  amount := .text amount
  recipient := none
  decimals := none
  expectedWallet := none
  networkConfig := none

/-- A request for 5 units of a token with 0 decimals. -/
def zeroDecimalsRequest : Request :=
  { sampleRequest "5".toList with decimals := some (.int 0) }

/-- A transaction paying 5 base units to the default recipient. -/
def fiveUnitsTx : Tx :=
  { sampleTx with value := some "0x5".toList }

/-- A transaction paying 1 PHRS to another address. -/
def strangerTx : Tx :=
  { sampleTx with to_ := some "0x00000000000000000000000000000000000000AA".toList }

/-! ## Configuration resolver (`config.js`) -/

/-- An entry of the table `NETWORK_CONFIGS`. -/
structure NetworkEntry where
  network : Str
  explorerBaseUrl : Str
  rpcUrl : Str
  tokenType : Str
  decimals : JsNum
deriving DecidableEq

/-- The value of a property read `NETWORK_CONFIGS[key]`: an entry of the table, a
property that the object literal inherits from `Object.prototype` (a function, or
`Object.prototype` itself for `__proto__`: truthy, and without any of the
properties of an entry), or `undefined`. -/
inductive TableLookup where
  | entry (e : NetworkEntry)
  | inherited
  | undefined
deriving DecidableEq

/-- The names of the properties of `Object.prototype`, which every object literal
inherits: `NETWORK_CONFIGS['constructor']` is the function `Object`. -/
def objectPrototypeKeys : List Str :=
  ["constructor".toList, "__defineGetter__".toList, "__defineSetter__".toList,
   "hasOwnProperty".toList, "__lookupGetter__".toList, "__lookupSetter__".toList,
   "isPrototypeOf".toList, "propertyIsEnumerable".toList, "toString".toList,
   "valueOf".toList, "__proto__".toList, "toLocaleString".toList]

/-- The only entry of `NETWORK_CONFIGS`. -/
def pharosTestnetEntry : NetworkEntry where
  network := "pharos-testnet".toList
  explorerBaseUrl := "https://pharos-testnet.socialscan.io/tx".toList
  rpcUrl := "https://api.zan.top/node/v1/pharos/testnet/35905838255149eaa94c610c79294f0f".toList
  tokenType := "native".toList
  decimals := .int 18

/-- The property read `NETWORK_CONFIGS[key]`. -/
def NETWORK_CONFIGS (key : Str) : TableLookup :=
  if key = "pharos-testnet".toList then .entry pharosTestnetEntry
  else if key ∈ objectPrototypeKeys then .inherited
  else .undefined

/-- The environment variables that `config.js` reads; `none` is an unset
variable. -/
structure Env where
  X402_NETWORK : Option Str
  X402_RECIPIENT : Option Str
  X402_PAYMENT_URL : Option Str
  X402_DECIMALS : Option Str
  X402_EXPIRES_SECONDS : Option Str

/-- The constant `DEFAULT_NETWORK`. -/
def DEFAULT_NETWORK (env : Env) : Str :=
  optOr env.X402_NETWORK "pharos-testnet".toList

/-- The read `NETWORK_CONFIGS[DEFAULT_NETWORK]?.field` of a string property. -/
def defaultEntryField (env : Env) (field : NetworkEntry → Str) : Option Str :=
  match NETWORK_CONFIGS (DEFAULT_NETWORK env) with
  | .entry e => some (field e)
  | .inherited => none
  | .undefined => none

/-- The argument of `Number(...)` in `decimals`:
`process.env.X402_DECIMALS || NETWORK_CONFIGS[DEFAULT_NETWORK]?.decimals || 18`,
converted.  `toNumber` is `Number` on strings. -/
def configDecimals (toNumber : Str → JsNum) (env : Env) : JsNum :=
  if isTruthy env.X402_DECIMALS then toNumber (optOr env.X402_DECIMALS [])
  else
    match NETWORK_CONFIGS (DEFAULT_NETWORK env) with
    | .entry e => numOr e.decimals (.int 18)
    | .inherited => .int 18
    | .undefined => .int 18

/-- The object `MCP_CONFIG.payments` as `config.js` builds it from the
environment.  `toNumber` is `Number` on strings. -/
def MCP_CONFIG_payments (toNumber : Str → JsNum) (env : Env) : Payments where
  network := DEFAULT_NETWORK env
  tokenType := optOr (defaultEntryField env fun e => e.tokenType) "native".toList
  recipient := optOr env.X402_RECIPIENT "0x49e0329808559a9aa742a3cf01cec9b773a53834".toList
  paymentUrl := if isTruthy env.X402_PAYMENT_URL then env.X402_PAYMENT_URL else none
  explorerBaseUrl :=
    optOr (defaultEntryField env fun e => e.explorerBaseUrl)
      "https://pharos-testnet.socialscan.io/tx".toList
  rpcUrl :=
    optOr (defaultEntryField env fun e => e.rpcUrl)
      "https://api.zan.top/node/v1/pharos/testnet/35905838255149eaa94c610c79294f0f".toList
  decimals := configDecimals toNumber env
  expiresInSeconds :=
    if isTruthy env.X402_EXPIRES_SECONDS then toNumber (optOr env.X402_EXPIRES_SECONDS [])
    else .int 300

/-- What `getNetworkConfigFromRequest` reads of its argument:
`req.headers['x-pharos-network']` and `req.body?.network` (`none` when there is no
body or no such property). -/
structure HttpRequest where
  header : Option Str
  bodyNetwork : Option Str

/-- The object returned by `getNetworkConfigFromRequest`: the properties of
`MCP_CONFIG.payments`, five of them overwritten; `none` is `undefined`. -/
structure ResolvedConfig where
  network : Option Str
  tokenType : Str
  recipient : Str
  paymentUrl : Option Str
  explorerBaseUrl : Option Str
  rpcUrl : Option Str
  decimals : JsNum
  expiresInSeconds : JsNum
deriving DecidableEq

/-- The `TypeError` of reading `config.network` when `config` is `undefined`, in
the wording of V8. -/
def undefinedConfigError : JsError :=
  ⟨"Cannot read properties of undefined (reading 'network')".toList⟩

/-- The constant `networkKey` of `getNetworkConfigFromRequest`. -/
def networkKeyOf (env : Env) (req : HttpRequest) : Str :=
  let networkHeader := optOr req.header (optOr req.bodyNetwork (DEFAULT_NETWORK env))
  strOr networkHeader (DEFAULT_NETWORK env)

/-- The constant `config`:
`NETWORK_CONFIGS[networkKey] || NETWORK_CONFIGS[DEFAULT_NETWORK]`. -/
def resolveEntry (env : Env) (req : HttpRequest) : TableLookup :=
  match NETWORK_CONFIGS (networkKeyOf env req) with
  | .undefined => NETWORK_CONFIGS (DEFAULT_NETWORK env)
  | found => found

/-- The function `getNetworkConfigFromRequest(req)`. -/
def getNetworkConfigFromRequest (toNumber : Str → JsNum) (env : Env) (req : HttpRequest) :
    Except JsError ResolvedConfig :=
  let payments := MCP_CONFIG_payments toNumber env
  match resolveEntry env req with
  | .undefined => .error undefinedConfigError
  | .inherited =>
    .ok { network := none
          tokenType := payments.tokenType
          recipient := payments.recipient
          paymentUrl := payments.paymentUrl
          explorerBaseUrl := none
          rpcUrl := none
          decimals := payments.decimals
          expiresInSeconds := payments.expiresInSeconds }
  | .entry config =>
    .ok { network := some config.network
          tokenType := strOr config.tokenType payments.tokenType
          recipient := payments.recipient
          paymentUrl := payments.paymentUrl
          explorerBaseUrl := some config.explorerBaseUrl
          rpcUrl := some config.rpcUrl
          decimals := config.decimals
          expiresInSeconds := payments.expiresInSeconds }

/-- The empty environment: no variable is set. -/
def emptyEnv : Env where
  X402_NETWORK := none
  X402_RECIPIENT := none
  X402_PAYMENT_URL := none
  X402_DECIMALS := none
  X402_EXPIRES_SECONDS := none

/-- An environment that names a default network without entry in the table. -/
def mainnetEnv : Env :=
  { emptyEnv with X402_NETWORK := some "mainnet".toList }

/-- A stand-in for `Number` on strings for evaluating examples: exact on plain
digit strings, `NaN` elsewhere. -/
def digitsToNumber (s : Str) : JsNum :=
  match parseDigits 10 s with
  | some n => .int n
  | none => .nan

/-- A transaction whose `value` is not a number. -/
def brokenValueTx : Tx :=
  { sampleTx with value := some "zz".toList }

/-- An RPC capability that finds `tx` at the first attempt and whose receipt call
has the given outcome. -/
def rpcWithReceipt (tx : Tx) (receipt : Outcome Receipt) : Rpc where
  getTransactionByHash := fun _ => .result (some tx)
  getTransactionReceipt := receipt

/-- An HTTP request without network header and without body. -/
def plainHttpRequest : HttpRequest where
  header := none
  bodyNetwork := none

/-- An HTTP request whose network header names a property of `Object.prototype`. -/
def constructorHttpRequest : HttpRequest where
  header := some "constructor".toList
  bodyNetwork := none

/-! ## The verifier on values of any type -/

/-- A JSON value or `undefined`: what a property of a parsed request body or of
an RPC result can hold.  `object text` is an object or an array as `JSON.parse`
builds them, without conversion methods of its own, and `text` is its conversion
to a string (`[object Object]` for a plain object, the joined elements for an
array). -/
inductive JsValue where
  | undefined
  | null
  | bool (b : Bool)
  | num (n : JsNum)
  | str (s : Str)
  | object (text : Str)
deriving DecidableEq

/-- Truthiness of a value. -/
def JsValue.truthy : JsValue → Bool
  | .undefined => false
  | .null => false
  | .bool b => b
  | .num .nan => false
  | .num (.int i) => decide (i ≠ 0)
  | .str s => !s.isEmpty
  | .object _ => true

/-- The expression `v || d` for a string `d`. -/
def JsValue.orStr (v : JsValue) (d : Str) : JsValue :=
  if v.truthy then v else .str d

/-- The method call `v.toLowerCase()` on a truthy value or a string: only a string
has the method, on any other value the call throws the `TypeError` `err`. -/
def callToLowerCase (rt : Runtime) (err : JsError) : JsValue → Except JsError Str
  | .str s => .ok (rt.toLowerCase s)
  | _ => .error err

/-- The call `BigInt(value || '0x0')`.  An integer number is converted as it is,
`true` is `1n`, an object is first converted to its text; the argument is never
`undefined`, `null` or `NaN`, which are falsy. -/
def chainAmountOf (rt : Runtime) (value : JsValue) : Except JsError Int :=
  match value.orStr "0x0".toList with
  | .str s => jsBigInt rt s
  | .object text => jsBigInt rt text
  | .num (.int i) => .ok i
  | .bool b => .ok (if b then 1 else 0)
  | _ => jsBigInt rt "0x0".toList

/-- The constant `decs`, `decimals || MCP_CONFIG.payments.decimals || 18`, as
`toBaseUnits` receives it: `Number.isFinite` is false of every value that is not
a number, and `none` stands for such a value. -/
def rawDecs (cfg : Payments) (decimals : JsValue) : Option JsNum :=
  if decimals.truthy then
    match decimals with
    | .num n => some n
    | _ => none
  else some (numOr cfg.decimals (.int 18))

/-- A string property that may be `undefined` or `null`. -/
inductive MaybeStr where
  | undefined
  | null
  | str (s : Str)
deriving DecidableEq

/-- Truthiness of a string that may be `undefined` or `null`. -/
def MaybeStr.truthy : MaybeStr → Bool
  | .str s => !s.isEmpty
  | _ => false

/-- The rendering of `txHash` inside the template literal of `explorerUrl`. -/
def MaybeStr.template : MaybeStr → Str
  | .undefined => "undefined".toList
  | .null => "null".toList
  | .str s => s

/-- The argument object of `verifySolanaUsdcTransfer` when the caller does not
respect the types of the fields: `signature` may be `null`, and `recipient`,
`decimals` and `expectedWallet` may hold a value of any type.  The other fields
are those of `Request`. -/
structure RawRequest where
  signature : MaybeStr
  amount : Amount
  recipient : JsValue
  decimals : JsValue
  expectedWallet : JsValue
  networkConfig : Option NetworkConfig

/-- A truthy result of `eth_getTransactionByHash`, by the values that its
properties `from`, `to` and `value` read as (`undefined` for a property that is
not there, and for every property of a result that is not an object). -/
structure RawTx where
  from_ : JsValue
  to_ : JsValue
  value : JsValue
deriving DecidableEq

/-- A truthy result of `eth_getTransactionReceipt`, by the value that its
property `status` reads as. -/
structure RawReceipt where
  status : JsValue
deriving DecidableEq

/-- The RPC capability when its results are not typed: `result none` is a falsy
result (`null`), `result (some r)` a truthy one. -/
structure RawRpc where
  getTransactionByHash : Nat → Outcome RawTx
  getTransactionReceipt : Outcome RawReceipt

/-- The `TypeError`s of the runtime for a call of `.toLowerCase()` on a value
without that method, by the call site: `recipient` (line 105), `tx.from`
(line 172), `tx.to` (line 173) and `expectedWallet` (line 186). -/
abbrev TypeErrors := Str → JsError

/-- The polling loop on untyped results: the final value of `tx`. -/
def pollRawTransaction (rpc : RawRpc) (maxAttempts : Nat) : Nat → Option RawTx
  | 0 => none
  | remaining + 1 =>
    match rpc.getTransactionByHash (maxAttempts - (remaining + 1)) with
    | .result (some tx) => some tx
    | _ => pollRawTransaction rpc maxAttempts remaining

/-- The statements `if (expectedWallet) { ... }` of the `try` block: the verdict
returned inside the block if any, or the `TypeError` of the method call. -/
def walletCheckRaw (rt : Runtime) (errs : TypeErrors) (expectedWallet : JsValue)
    (from_ explorerUrl : Str) : Except JsError (Option Verdict) :=
  if expectedWallet.truthy then
    match callToLowerCase rt (errs "expectedWallet".toList) expectedWallet with
    | .error err => .error err
    | .ok expectedPayer =>
      if from_ ≠ expectedPayer then
        .ok (some { Verdict.failure "wallet_mismatch".toList
                      "Payment was sent from a different wallet than expected".toList
                      explorerUrl with
                    details := some [("expectedWallet".toList, expectedPayer),
                                     ("actualWallet".toList, from_)] })
      else .ok none
  else .ok none

/-- The statements of the `try` block from `const valueHex` to the final
`return`. -/
def amountCheckRaw (rt : Runtime) (cfg : Payments) (req : RawRequest)
    (explorerUrl : Str) (decs : Option JsNum) (from_ : Str) (value : JsValue) :
    Except JsError Verdict :=
  match chainAmountOf rt value with
  | .error err => .error err
  | .ok chainAmount =>
    match toBaseUnits rt cfg req.amount decs with
    | .error err =>
      .ok (Verdict.failure "amount_encode_error".toList
            ("Failed to encode expected amount: ".toList ++ err.message) explorerUrl)
    | .ok expectedAmount =>
      if chainAmount < expectedAmount then
        .ok { Verdict.failure "amount_too_low".toList
                "On-chain amount is below invoice requirement".toList explorerUrl with
              details := some [("expected".toList, intToStr expectedAmount),
                               ("actual".toList, intToStr chainAmount)] }
      else
        .ok { ok := true
              code := "ok".toList
              message := "Payment verified on Pharos testnet".toList
              explorerUrl := explorerUrl
              details := none
              payer := some from_
              amountRaw := some (intToStr chainAmount)
              network := some (optOr (req.networkConfig.bind fun nc => nc.network)
                                (strOr cfg.network "pharos-testnet".toList)) }

/-- The `try` block after the polling loop has found `tx`, on untyped values; an
`error` is an exception that escapes to the outer `catch`. -/
def afterPollingRaw (rt : Runtime) (errs : TypeErrors) (cfg : Payments) (rpc : RawRpc)
    (req : RawRequest) (expectedRecipient explorerUrl : Str) (decs : Option JsNum)
    (tx : RawTx) : Except JsError Verdict :=
  match rpc.getTransactionReceipt with
  | .raised err => .error err
  | .result none =>
    .ok (Verdict.failure "receipt_not_found".toList
          "Transaction receipt not found on chain".toList explorerUrl)
  | .result (some receipt) =>
    if receipt.status ≠ .str "0x1".toList then
      .ok (Verdict.failure "tx_failed".toList
            "Transaction status is not successful".toList explorerUrl)
    else
      match callToLowerCase rt (errs "tx.from".toList) (tx.from_.orStr []) with
      | .error err => .error err
      | .ok from_ =>
        match callToLowerCase rt (errs "tx.to".toList) (tx.to_.orStr []) with
        | .error err => .error err
        | .ok to_ =>
          if to_ ≠ expectedRecipient then
            .ok { Verdict.failure "wrong_recipient".toList
                    "Payment was sent to a different address".toList explorerUrl with
                  details := some [("expectedRecipient".toList, expectedRecipient),
                                   ("actualRecipient".toList, to_)] }
          else
            match walletCheckRaw rt errs req.expectedWallet from_ explorerUrl with
            | .error err => .error err
            | .ok (some verdict) => .ok verdict
            | .ok none => amountCheckRaw rt cfg req explorerUrl decs from_ tx.value

/-- The function `verifySolanaUsdcTransfer` on a request and on RPC results that
need not respect the types of the data model.  An `error` is an exception that
the function does not catch: the call rejects. -/
def verifyRaw (rt : Runtime) (errs : TypeErrors) (cfg : Payments) (rpc : RawRpc)
    (req : RawRequest) : Except JsError Verdict :=
  let explorerBaseUrl :=
    optOr (req.networkConfig.bind fun nc => nc.explorerBaseUrl)
      (strOr cfg.explorerBaseUrl "https://pharos-testnet.socialscan.io/tx".toList)
  let txHash := req.signature
  let explorerUrl := explorerBaseUrl ++ "/".toList ++ txHash.template
  if !txHash.truthy then
    .ok (Verdict.failure "missing_tx_hash".toList "Missing transaction hash".toList explorerUrl)
  else
    match callToLowerCase rt (errs "recipient".toList)
        (req.recipient.orStr (strOr cfg.recipient [])) with
    | .error err => .error err
    | .ok expectedRecipient =>
      if expectedRecipient.isEmpty then
        .ok (Verdict.failure "missing_recipient".toList
              "No recipient configured for payments".toList explorerUrl)
      else
        let decs := rawDecs cfg req.decimals
        let maxAttempts := 20
        match pollRawTransaction rpc maxAttempts maxAttempts with
        | none =>
          .ok (Verdict.failure "tx_not_found".toList
                "Transaction not found on chain after polling".toList explorerUrl)
        | some tx =>
          .ok (catchError explorerUrl
                (afterPollingRaw rt errs cfg rpc req expectedRecipient explorerUrl decs tx))

/-- The text that the concatenation `explorerBaseUrl + '/' + txHash` appends for
`txHash`. -/
def hashText : MaybeStr → Str
  | .str s => s
  | .null => ['n', 'u', 'l', 'l']
  | .undefined => ['u', 'n', 'd', 'e', 'f', 'i', 'n', 'e', 'd']

/-- A string property that may be absent, read as a value. -/
def optValue : Option Str → JsValue
  | some s => .str s
  | none => .undefined

/-- A request read as an untyped request. -/
def Request.toRaw (req : Request) : RawRequest where
  signature := match req.signature with
    | some s => .str s
    | none => .undefined
  amount := req.amount
  recipient := optValue req.recipient
  decimals := match req.decimals with
    | some d => .num d
    | none => .undefined
  expectedWallet := optValue req.expectedWallet
  networkConfig := req.networkConfig

/-- A typed transaction object read as an untyped one. -/
def Tx.toRaw (tx : Tx) : RawTx where
  from_ := optValue tx.from_
  to_ := optValue tx.to_
  value := optValue tx.value

/-- A typed RPC capability read as an untyped one. -/
def Rpc.toRaw (rpc : Rpc) : RawRpc where
  getTransactionByHash := fun n =>
    match rpc.getTransactionByHash n with
    | .result (some tx) => .result (some tx.toRaw)
    | .result none => .result none
    | .raised err => .raised err
  getTransactionReceipt :=
    match rpc.getTransactionReceipt with
    | .result (some receipt) => .result (some ⟨optValue receipt.status⟩)
    | .result none => .result none
    | .raised err => .raised err

/-- Sample `TypeError`s for evaluating examples: each message names the call
site.  The wording of the message is the runtime's own, and no property depends
on it. -/
def sampleTypeErrors : TypeErrors :=
  fun expr => ⟨expr ++ ".toLowerCase is not a function".toList⟩

/-- A request whose recipient is the number 123. -/
def numericRecipientRequest : RawRequest :=
  { (sampleRequest "1.0".toList).toRaw with recipient := .num (.int 123) }

/-- A request whose hash is `null`. -/
def nullHashRequest : RawRequest :=
  { (sampleRequest "1.0".toList).toRaw with signature := .null }

/-- A request whose hash is absent. -/
def absentHashRequest : RawRequest :=
  { (sampleRequest "1.0".toList).toRaw with signature := .undefined }

/-- A request that brings its own explorer base URL. -/
def explorerOverrideRequest : RawRequest :=
  { (sampleRequest "1.0".toList).toRaw with
    networkConfig := some ⟨none, some "https://explorer.example/tx".toList, none⟩ }

/-- A transaction object whose `from` is a number and whose `value` is an object. -/
def malformedTx : RawTx where
  from_ := .num (.int 5)
  to_ := .str "0x49E0329808559A9AA742A3CF01CEC9B773A53834".toList
  value := .object "[object Object]".toList

/-- An untyped RPC capability that finds `tx` at the first attempt and returns a
receipt with the given status. -/
def rawRpcFound (tx : RawTx) (status : JsValue) : RawRpc where
  getTransactionByHash := fun _ => .result (some tx)
  getTransactionReceipt := .result (some ⟨status⟩)

/-! ## Lemmas on strings -/

theorem isDecDigit_bounds {c : Char} (h : isDecDigit c = true) :
    48 ≤ c.toNat ∧ c.toNat ≤ 57 := by
  simpa [isDecDigit] using h

theorem isDecDigit_not_ws {c : Char} (h : isDecDigit c = true) :
    isJsWhiteSpace c = false := by
  have hb := isDecDigit_bounds h
  simp only [isJsWhiteSpace, Bool.or_eq_false_iff, Bool.and_eq_false_iff, decide_eq_false_iff_not]
  omega

theorem isDecDigit_ne_dot {c : Char} (h : isDecDigit c = true) : c ≠ '.' := by
  rintro rfl
  exact absurd h (by decide)

theorem dot_not_ws : isJsWhiteSpace '.' = false := by decide

theorem isDecDigit_small {c : Char} (h : isDecDigit c = true) : c.toNat < 0x10000 := by
  have hb := isDecDigit_bounds h
  omega

theorem jsLength_digits {s : Str} (h : ∀ c ∈ s, isDecDigit c = true) :
    jsLength s = s.length := by
  induction s with
  | nil => rfl
  | cons c cs ih =>
    have hc := isDecDigit_small (h c (List.mem_cons_self _ _))
    have := ih (fun d hd => h d (List.mem_cons_of_mem _ hd))
    simp [jsLength, hc, this]; omega

/-- Dropping white space from the right end. -/
theorem dropRight_eq_self {s : Str} (h : ∀ c, s.getLast? = some c → isJsWhiteSpace c = false) :
    (s.reverse.dropWhile isJsWhiteSpace).reverse = s := by
  rcases List.eq_nil_or_concat s with rfl | ⟨l, c, rfl⟩
  · rfl
  · have hc : isJsWhiteSpace c = false := h c (by simp)
    simp [List.dropWhile, hc]

theorem dropWhile_append_stop {p : Char → Bool} (a : Str) (b : Char) (c : Str)
    (hb : p b = false) :
    (a ++ b :: c).dropWhile p = a.dropWhile p ++ b :: c := by
  induction a with
  | nil => simp [List.dropWhile, hb]
  | cons x xs ih =>
    by_cases hx : p x = true
    · simp [List.dropWhile, hx, ih]
    · simp [List.dropWhile, hx]

theorem jsTrim_eq_self {s : Str} (h : ∀ c ∈ s, isJsWhiteSpace c = false) : jsTrim s = s := by
  unfold jsTrim
  have h1 : s.dropWhile isJsWhiteSpace = s := by
    cases s with
    | nil => rfl
    | cons c cs => simp [List.dropWhile, h c (List.mem_cons_self _ _)]
  rw [h1]
  apply dropRight_eq_self
  intro c hc
  exact h c (List.mem_of_getLast?_eq_some hc)

theorem splitDot_ne_nil (s : Str) : splitDot s ≠ [] := by
  induction s with
  | nil => simp [splitDot]
  | cons c cs ih =>
    unfold splitDot
    split
    · simp
    · split <;> simp

theorem splitDot_noDot {s : Str} (h : '.' ∉ s) : splitDot s = [s] := by
  induction s with
  | nil => rfl
  | cons c cs ih =>
    have hc : c ≠ '.' := fun e => h (e ▸ List.mem_cons_self _ _)
    have := ih (fun hm => h (List.mem_cons_of_mem _ hm))
    simp [splitDot, hc, this]

theorem splitDot_append_dot {a : Str} (b : Str) (h : '.' ∉ a) :
    splitDot (a ++ '.' :: b) = a :: splitDot b := by
  induction a with
  | nil => simp [splitDot]
  | cons c cs ih =>
    have hc : c ≠ '.' := fun e => h (e ▸ List.mem_cons_self _ _)
    have := ih (fun hm => h (List.mem_cons_of_mem _ hm))
    simp [splitDot, hc, this]

theorem digitValue_digit {c : Char} (h : isDecDigit c = true) :
    digitValue 10 c = some (c.toNat - 48) := by
  have hb := isDecDigit_bounds h
  have h1 : c.toNat - 48 < 10 := by omega
  simp [digitValue, hb.1, hb.2, h1]

theorem parseDigitsFrom_digits (s : Str) (h : ∀ c ∈ s, isDecDigit c = true) (acc : Nat) :
    parseDigitsFrom 10 acc s = some (acc * 10 ^ s.length + digitsValue s) := by
  induction s generalizing acc with
  | nil => simp [parseDigitsFrom, digitsValue]
  | cons c cs ih =>
    have hc := digitValue_digit (h c (List.mem_cons_self _ _))
    have := ih (fun d hd => h d (List.mem_cons_of_mem _ hd)) (acc * 10 + (c.toNat - 48))
    simp only [parseDigitsFrom, hc, this, digitsValue, List.length_cons]
    congr 1
    ring

theorem parseDigits_digits {s : Str} (hne : s ≠ []) (h : ∀ c ∈ s, isDecDigit c = true) :
    parseDigits 10 s = some (digitsValue s) := by
  cases s with
  | nil => exact absurd rfl hne
  | cons c cs =>
    simp only [parseDigits]
    rw [parseDigitsFrom_digits _ h]
    simp

theorem parseIntegerLiteral_digits {s : Str} (hne : s ≠ [])
    (h : ∀ c ∈ s, isDecDigit c = true) :
    parseIntegerLiteral s = some (Int.ofNat (digitsValue s)) := by
  unfold parseIntegerLiteral
  split
  all_goals first
    | (exfalso; exact absurd (h _ (List.mem_cons_of_mem _ (List.mem_cons_self _ _))) (by decide))
    | (exfalso; exact absurd (h _ (List.mem_cons_self _ _)) (by decide))
    | (rw [parseDigits_digits hne h]; rfl)

theorem jsBigInt_digits (rt : Runtime) {s : Str} (hne : s ≠ [])
    (h : ∀ c ∈ s, isDecDigit c = true) :
    jsBigInt rt s = .ok (Int.ofNat (digitsValue s)) := by
  have ht : jsTrim s = s := jsTrim_eq_self (fun c hc => isDecDigit_not_ws (h c hc))
  have he : s.isEmpty = false := by cases s <;> simp_all
  simp [jsBigInt, ht, he, parseIntegerLiteral_digits hne h]

theorem digitsValue_append (a b : Str) :
    digitsValue (a ++ b) = digitsValue a * 10 ^ b.length + digitsValue b := by
  induction a with
  | nil => simp [digitsValue]
  | cons c cs ih =>
    show (c.toNat - 48) * 10 ^ (cs ++ b).length + digitsValue (cs ++ b) = _
    rw [ih, List.length_append]
    simp only [digitsValue]
    ring

theorem digitsValue_zeros (k : Nat) : digitsValue (List.replicate k '0') = 0 := by
  induction k with
  | zero => rfl
  | succ k ih => simp [List.replicate_succ, digitsValue, ih]

theorem digitsValue_stripLeadingZeros (s : Str) :
    digitsValue (stripLeadingZeros s) = digitsValue s := by
  induction s with
  | nil => rfl
  | cons c cs ih =>
    unfold stripLeadingZeros at *
    by_cases hc : c = '0'
    · subst hc
      simp [List.dropWhile, digitsValue, ih]
    · have hb : (c == '0') = false := by simpa using hc
      simp [List.dropWhile, hb]

theorem mem_stripLeadingZeros {s : Str} {c : Char} (h : c ∈ stripLeadingZeros s) : c ∈ s :=
  (List.dropWhile_suffix _).subset h

/-- The last two lines of `toBaseUnits` on a digit string. -/
theorem jsBigInt_cleaned (rt : Runtime) {s : Str} (h : ∀ c ∈ s, isDecDigit c = true) :
    jsBigInt rt (strOr (stripLeadingZeros s) "0".toList) = .ok (Int.ofNat (digitsValue s)) := by
  unfold strOr
  split
  · rename_i he
    have h0 : digitsValue s = 0 := by
      rw [← digitsValue_stripLeadingZeros s, List.isEmpty_iff.mp he]; rfl
    rw [h0]
    rfl
  · rename_i he
    have hne : stripLeadingZeros s ≠ [] := fun e => he (by simp [e])
    rw [jsBigInt_digits rt hne (fun c hc => h c (mem_stripLeadingZeros hc)),
      digitsValue_stripLeadingZeros]

theorem strOr_zero_digits {ip : Str} (h : ∀ c ∈ ip, isDecDigit c = true) :
    (∀ c ∈ strOr ip "0".toList, isDecDigit c = true) ∧
      digitsValue (strOr ip "0".toList) = digitsValue ip := by
  unfold strOr
  split
  · rename_i he
    rw [List.isEmpty_iff.mp he]
    exact ⟨by decide, rfl⟩
  · exact ⟨h, rfl⟩

/-- `toBaseUnits` on a trimmed text whose two first segments are digit strings. -/
theorem toBaseUnits_of_parts (rt : Runtime) (cfg : Payments) (raw ip fp : Str) (d : Nat)
    (hne : (jsTrim raw).isEmpty = false)
    (hhead : (splitDot (jsTrim raw)).headD [] = ip)
    (hsnd : ((splitDot (jsTrim raw)).drop 1).headD [] = fp)
    (hip : ∀ c ∈ ip, isDecDigit c = true) (hfp : ∀ c ∈ fp, isDecDigit c = true)
    (hlen : fp.length ≤ d) :
    toBaseUnits rt cfg (.text raw) (some (.int d)) =
      .ok (Int.ofNat (digitsValue ip * 10 ^ d + digitsValue fp * 10 ^ (d - fp.length))) := by
  have hl : jsLength fp = fp.length := jsLength_digits hfp
  have hex : lengthExceeds (jsLength fp) (.int d) = false := by
    simp [lengthExceeds, hl]; omega
  have hdig : ∀ c ∈ strOr ip "0".toList ++ padEndZero fp (.int d), isDecDigit c = true := by
    intro c hc
    rcases List.mem_append.mp hc with h | h
    · exact (strOr_zero_digits hip).1 c h
    · unfold padEndZero at h
      rcases List.mem_append.mp h with h | h
      · exact hfp c h
      · rw [(List.mem_replicate.mp h).2]; decide
  have hval : digitsValue (strOr ip "0".toList ++ padEndZero fp (.int d)) =
      digitsValue ip * 10 ^ d + digitsValue fp * 10 ^ (d - fp.length) := by
    rw [digitsValue_append, (strOr_zero_digits hip).2]
    unfold padEndZero
    rw [digitsValue_append, digitsValue_zeros]
    simp only [List.length_append, List.length_replicate, toLength, hl, Int.toNat_ofNat]
    have : fp.length + (d - fp.length) = d := by omega
    rw [this]
    ring
  simp only [toBaseUnits, resolveDecs, hne, hhead, hsnd, hex, Bool.false_eq_true, if_false]
  rw [jsBigInt_cleaned rt hdig, hval]

theorem decimalString_parts {s : Str} (hs : IsDecimalString s) :
    (∀ c ∈ integerText s, isDecDigit c = true) ∧
    (∀ c ∈ fractionText s, isDecDigit c = true) ∧
    (splitDot s).headD [] = integerText s ∧
    ((splitDot s).drop 1).headD [] = fractionText s := by
  obtain ⟨_, hchars, hcount⟩ := hs
  have hsplit : s = integerText s ++ s.dropWhile (fun c => c != '.') :=
    (List.takeWhile_append_dropWhile _ s).symm
  have hint : ∀ c ∈ integerText s, isDecDigit c = true := by
    intro c hc
    have h1 : c ∈ s := (List.takeWhile_sublist _).subset hc
    have hc' : c ∈ List.takeWhile (fun c => c != '.') s := hc
    have h2 : (c != '.') = true := List.mem_takeWhile_imp (p := fun c => c != '.') hc'
    rcases hchars c h1 with h | h
    · exact h
    · simp [h] at h2
  have hnodot : '.' ∉ integerText s := fun hm => absurd (hint _ hm) (by decide)
  rcases hd : s.dropWhile (fun c => c != '.') with _ | ⟨x, rest⟩
  · -- no dot at all
    have hs' : s = integerText s := by rw [hd] at hsplit; simpa using hsplit
    have hf : fractionText s = [] := by simp [fractionText, hd]
    refine ⟨hint, by simp [hf], ?_, ?_⟩
    · conv_lhs => rw [hs', splitDot_noDot hnodot]
      rfl
    · conv_lhs => rw [hs', splitDot_noDot hnodot]
      rw [hf]; rfl
  · have hx : x = '.' := by
      have := List.head_dropWhile_not (fun c => c != '.') s (by simp [hd])
      simpa [hd] using this
    subst hx
    have hf : fractionText s = rest := by simp [fractionText, hd]
    have hs' : s = integerText s ++ '.' :: rest := by rw [hd] at hsplit; exact hsplit
    have hrest : '.' ∉ rest := by
      intro hm
      have h1 : List.count '.' s = List.count '.' (integerText s) + (1 + List.count '.' rest) := by
        conv_lhs => rw [hs']
        simp [List.count_append, List.count_cons]; omega
      have h2 : 0 < List.count '.' rest := List.count_pos_iff.mpr hm
      omega
    have hfd : ∀ c ∈ rest, isDecDigit c = true := by
      intro c hc
      have h1 : c ∈ s := by rw [hs']; simp [hc]
      rcases hchars c h1 with h | h
      · exact h
      · exact absurd (h ▸ hc) hrest
    refine ⟨hint, by rw [hf]; exact hfd, ?_, ?_⟩
    · conv_lhs => rw [hs', splitDot_append_dot _ hnodot]
      rfl
    · conv_lhs => rw [hs', splitDot_append_dot _ hnodot, splitDot_noDot hrest]
      rw [hf]; rfl

/-- The result of `toBaseUnits` on a valid decimal string is its exact value
scaled by `10 ^ d`. -/
theorem exact_on_decimalString (rt : Runtime) (cfg : Payments) (s : Str) (d : Nat)
    (hs : IsDecimalString s) (hlen : (fractionText s).length ≤ d) :
    ∃ n : Int, toBaseUnits rt cfg (.text s) (some (.int d)) = .ok n ∧
      (n : ℚ) = decimalValue s * (10 : ℚ) ^ d := by
  obtain ⟨hip, hfp, hhead, hsnd⟩ := decimalString_parts hs
  have hws : ∀ c ∈ s, isJsWhiteSpace c = false := by
    intro c hc
    rcases hs.2.1 c hc with h | h
    · exact isDecDigit_not_ws h
    · rw [h]; exact dot_not_ws
  have ht : jsTrim s = s := jsTrim_eq_self hws
  have hne : (jsTrim s).isEmpty = false := by
    rw [ht]; cases s with
    | nil => exact absurd rfl hs.1
    | cons _ _ => rfl
  refine ⟨_, toBaseUnits_of_parts rt cfg s _ _ d hne (by rw [ht]; exact hhead)
    (by rw [ht]; exact hsnd) hip hfp hlen, ?_⟩
  unfold decimalValue
  have h10 : (10 : ℚ) ^ (fractionText s).length ≠ 0 := by positivity
  have key : ∀ a b : ℚ, a * 10 ^ d + b * 10 ^ (d - (fractionText s).length) =
      (a + b / 10 ^ (fractionText s).length) * 10 ^ d := by
    intro a b
    have hpow : (10 : ℚ) ^ d =
        10 ^ (fractionText s).length * 10 ^ (d - (fractionText s).length) := by
      rw [← pow_add]; congr 1; omega
    rw [hpow]
    field_simp
    ring
  rw [← key, Int.ofNat_eq_coe, Int.cast_natCast]
  push_cast
  rfl

theorem mem_jsTrim {s : Str} {c : Char} (h : c ∈ jsTrim s) : c ∈ s := by
  unfold jsTrim at h
  have h1 := List.mem_reverse.mp h
  have h2 := (List.dropWhile_suffix _).subset h1
  have h3 := List.mem_reverse.mp h2
  exact (List.dropWhile_suffix _).subset h3

theorem mem_splitDot {s seg : Str} {c : Char} (hseg : seg ∈ splitDot s) (hc : c ∈ seg) :
    c ∈ s := by
  induction s generalizing seg with
  | nil =>
    simp only [splitDot, List.mem_singleton] at hseg
    rw [hseg] at hc; exact hc
  | cons x xs ih =>
    unfold splitDot at hseg
    split at hseg
    · rcases List.mem_cons.mp hseg with h | h
      · rw [h] at hc; exact absurd hc (List.not_mem_nil _)
      · exact List.mem_cons_of_mem _ (ih h hc)
    · split at hseg
      · rename_i he
        exact absurd he (splitDot_ne_nil xs)
      · rename_i seg0 rest he
        rcases List.mem_cons.mp hseg with h | h
        · rw [h] at hc
          rcases List.mem_cons.mp hc with h' | h'
          · rw [h']; exact List.mem_cons_self _ _
          · exact List.mem_cons_of_mem _ (ih (he ▸ List.mem_cons_self _ _) h')
        · exact List.mem_cons_of_mem _ (ih (he ▸ List.mem_cons_of_mem _ h) hc)

theorem mem_headD {parts : List Str} {c : Char} (h : c ∈ parts.headD []) :
    ∃ seg ∈ parts, c ∈ seg := by
  cases parts with
  | nil => exact absurd h (List.not_mem_nil _)
  | cons p ps => exact ⟨p, List.mem_cons_self _ _, h⟩

theorem parseIntegerLiteral_nonneg {t : Str} {n : Int} (hm : '-' ∉ t)
    (h : parseIntegerLiteral t = some n) : 0 ≤ n := by
  unfold parseIntegerLiteral at h
  split at h
  case h_8 ds => exact absurd (List.mem_cons_self _ _) hm
  all_goals
    obtain ⟨k, _, rfl⟩ := Option.map_eq_some'.mp h
    exact Int.ofNat_nonneg k

theorem jsBigInt_nonneg {rt : Runtime} {s : Str} {n : Int} (hm : '-' ∉ s)
    (h : jsBigInt rt s = .ok n) : 0 ≤ n := by
  unfold jsBigInt at h
  simp only at h
  split at h
  · cases h; exact le_refl 0
  · split at h
    · rename_i m hp
      cases h
      exact parseIntegerLiteral_nonneg (fun hc => hm (mem_jsTrim hc)) hp
    · cases h

theorem mem_strOr {a b : Str} {c : Char} (h : c ∈ strOr a b) : c ∈ a ∨ c ∈ b := by
  unfold strOr at h
  split at h
  · exact Or.inr h
  · exact Or.inl h

theorem toBaseUnits_nonneg {rt : Runtime} {cfg : Payments} {raw : Str}
    {decimals : Option JsNum} {n : Int} (hm : '-' ∉ raw)
    (h : toBaseUnits rt cfg (.text raw) decimals = .ok n) : 0 ≤ n := by
  simp only [toBaseUnits] at h
  split at h
  · cases h
  · split at h
    · cases h
    · refine jsBigInt_nonneg ?_ h
      intro hc
      have hstr : ∀ c ∈ jsTrim raw, c ≠ '-' := fun c hc e => hm (e ▸ mem_jsTrim hc)
      have hseg : ∀ seg ∈ splitDot (jsTrim raw), '-' ∉ seg :=
        fun seg hs hc => hstr _ (mem_splitDot hs hc) rfl
      rcases mem_strOr hc with hc | hc
      · have h1 := mem_stripLeadingZeros hc
        rcases List.mem_append.mp h1 with h2 | h2
        · rcases mem_strOr h2 with h2 | h2
          · obtain ⟨seg, hs, hc'⟩ := mem_headD h2
            exact hseg seg hs hc'
          · exact absurd h2 (by decide)
        · unfold padEndZero at h2
          rcases List.mem_append.mp h2 with h3 | h3
          · obtain ⟨seg, hs, hc'⟩ := mem_headD h3
            exact hseg seg (List.mem_of_mem_drop hs) hc'
          · exact absurd (List.mem_replicate.mp h3).2 (by decide)
      · exact absurd hc (by decide)

/-- The text kept by `trim` when the text has a dot and does not end in white
space. -/
theorem jsTrim_dot (pre frac : Str)
    (hlast : ∀ c, frac.getLast? = some c → isJsWhiteSpace c = false) :
    jsTrim (pre ++ '.' :: frac) = pre.dropWhile isJsWhiteSpace ++ '.' :: frac := by
  unfold jsTrim
  rw [dropWhile_append_stop pre '.' frac dot_not_ws]
  apply dropRight_eq_self
  intro c hc
  rw [List.getLast?_append_of_ne_nil _ (List.cons_ne_nil _ _)] at hc
  cases frac with
  | nil =>
    simp only [List.getLast?_singleton, Option.some.injEq] at hc
    rw [← hc]; exact dot_not_ws
  | cons x xs =>
    rw [List.getLast?_cons_cons] at hc
    exact hlast c hc

/-- Too many characters after the dot raise the error of the length check. -/
theorem toBaseUnits_tooMany (rt : Runtime) (cfg : Payments) (pre frac : Str) (d : Int)
    (hpre : '.' ∉ pre) (hfrac : '.' ∉ frac)
    (hlast : ∀ c, frac.getLast? = some c → isJsWhiteSpace c = false)
    (hlen : d < (jsLength frac : Int)) :
    toBaseUnits rt cfg (.text (pre ++ '.' :: frac)) (some (.int d)) =
      .error ⟨"Too many decimal places: got ".toList ++ natToStr (jsLength frac)
                ++ ", max ".toList ++ intToStr d⟩ := by
  have hpre' : '.' ∉ pre.dropWhile isJsWhiteSpace :=
    fun h => hpre ((List.dropWhile_suffix _).subset h)
  have hne : (pre.dropWhile isJsWhiteSpace ++ '.' :: frac).isEmpty = false := by
    cases pre.dropWhile isJsWhiteSpace <;> rfl
  have hex : lengthExceeds (jsLength frac) (.int d) = true := by
    simp [lengthExceeds, hlen]
  simp only [toBaseUnits, resolveDecs, jsTrim_dot pre frac hlast, hne,
    splitDot_append_dot _ hpre', splitDot_noDot hfrac, List.headD_cons, List.drop_one,
    List.tail_cons, hex, Bool.false_eq_true, if_false, if_true, numToStr]

theorem pollTransaction_found (rpc : Rpc) (rpcUrl txHash : Str) (M : Nat) (tx : Tx) :
    ∀ (i r : Nat), r ≤ M → M - r + i < M →
      (∀ j, M - r ≤ j → j < M - r + i → foundTx (rpc.getTransactionByHash j) = none) →
      rpc.getTransactionByHash (M - r + i) = .result (some tx) →
      pollTransaction rpc rpcUrl txHash M r = (some tx, pollTrace (fetchEvent rpcUrl txHash) (i + 1)) := by
  intro i
  induction i with
  | zero =>
    intro r hr hlt _ hfound
    cases r with
    | zero => omega
    | succ r =>
      simp only [Nat.add_zero] at hfound
      simp only [pollTransaction, hfound]
      rfl
  | succ i ih =>
    intro r hr hlt hnone hfound
    cases r with
    | zero => omega
    | succ r =>
      have h0 : foundTx (rpc.getTransactionByHash (M - (r + 1))) = none :=
        hnone _ (le_refl _) (by omega)
      have hstep : M - r = M - (r + 1) + 1 := by omega
      have hrest := ih r (by omega) (by omega)
        (fun j h1 h2 => hnone j (by omega) (by omega))
        (by rw [hstep, Nat.add_assoc, Nat.add_comm 1 i]; exact hfound)
      have hw : M - (r + 1) < M - 1 := by omega
      simp only [pollTransaction]
      cases hout : rpc.getTransactionByHash (M - (r + 1)) with
      | raised err => simp [hrest, hw, pollTrace, fetchEvent]
      | result res =>
        cases res with
        | none => simp [hrest, hw, pollTrace, fetchEvent]
        | some t => rw [hout] at h0; cases h0

theorem pollTransaction_none (rpc : Rpc) (rpcUrl txHash : Str) (M : Nat) :
    ∀ (r : Nat), r ≤ M →
      (∀ j, M - r ≤ j → j < M → foundTx (rpc.getTransactionByHash j) = none) →
      pollTransaction rpc rpcUrl txHash M r = (none, pollTrace (fetchEvent rpcUrl txHash) r) := by
  intro r
  induction r with
  | zero => intro _ _; rfl
  | succ r ih =>
    intro hr hnone
    have h0 : foundTx (rpc.getTransactionByHash (M - (r + 1))) = none :=
      hnone _ (le_refl _) (by omega)
    have hrest := ih (by omega) (fun j h1 h2 => hnone j (by omega) h2)
    simp only [pollTransaction]
    cases hout : rpc.getTransactionByHash (M - (r + 1)) with
    | raised err =>
      cases r with
      | zero => simp [hrest, pollTrace, fetchEvent]
      | succ r =>
        have hw : M - (r + 1 + 1) < M - 1 := by omega
        simp [hrest, hw, pollTrace, fetchEvent]
    | result res =>
      cases res with
      | none =>
        cases r with
        | zero => simp [hrest, pollTrace, fetchEvent]
        | succ r =>
          have hw : M - (r + 1 + 1) < M - 1 := by omega
          simp [hrest, hw, pollTrace, fetchEvent]
      | some t => rw [hout] at h0; cases h0

/-- Whatever the outcomes, polling either finds the first non-null result or
exhausts its attempts. -/
theorem pollTransaction_cases (rpc : Rpc) (M : Nat) :
    ∀ (r : Nat), r ≤ M →
      (∃ i tx, M - r + i < M ∧
        (∀ j, M - r ≤ j → j < M - r + i → foundTx (rpc.getTransactionByHash j) = none) ∧
        rpc.getTransactionByHash (M - r + i) = .result (some tx)) ∨
      (∀ j, M - r ≤ j → j < M → foundTx (rpc.getTransactionByHash j) = none) := by
  intro r
  induction r with
  | zero => intro _; right; intro j h1 h2; omega
  | succ r ih =>
    intro hr
    cases hout : foundTx (rpc.getTransactionByHash (M - (r + 1))) with
    | some tx =>
      left
      refine ⟨0, tx, by omega, fun j h1 h2 => by omega, ?_⟩
      cases hg : rpc.getTransactionByHash (M - (r + 1)) with
      | raised err => rw [hg] at hout; cases hout
      | result res =>
        cases res with
        | none => rw [hg] at hout; cases hout
        | some t =>
          rw [hg] at hout
          simp only [foundTx, Option.some.injEq] at hout
          subst hout
          exact hg
    | none =>
      rcases ih (by omega) with ⟨i, tx, h1, h2, h3⟩ | h
      · left
        have hstep : M - r = M - (r + 1) + 1 := by omega
        refine ⟨i + 1, tx, by omega, ?_, ?_⟩
        · intro j hj1 hj2
          by_cases hj : j = M - (r + 1)
          · rw [hj]; exact hout
          · exact h2 j (by omega) (by omega)
        · have he : M - (r + 1) + (i + 1) = M - r + i := by omega
          rw [he]; exact h3
      · right
        intro j hj1 hj2
        by_cases hj : j = M - (r + 1)
        · rw [hj]; exact hout
        · exact h j (by omega) hj2

/-! ## The verifier: reduction lemmas -/

theorem poll_of_firstFound {rpc : Rpc} {i : Nat} {tx : Tx} (h : FirstFoundAt rpc i tx)
    (rpcUrl txHash : Str) :
    pollTransaction rpc rpcUrl txHash 20 20 =
      (some tx, pollTrace (fetchEvent rpcUrl txHash) (i + 1)) := by
  obtain ⟨h1, h2, h3⟩ := h
  exact pollTransaction_found rpc rpcUrl txHash 20 tx i 20 (le_refl _) (by omega)
    (fun j _ hj => h3 j (by omega)) (by simpa using h2)

theorem poll_of_noneFound {rpc : Rpc} (h : NoneFound rpc) (rpcUrl txHash : Str) :
    pollTransaction rpc rpcUrl txHash 20 20 = (none, pollTrace (fetchEvent rpcUrl txHash) 20) :=
  pollTransaction_none rpc rpcUrl txHash 20 20 (le_refl _) (fun j _ hj => h j hj)

theorem firstFound_or_none (rpc : Rpc) : (∃ i tx, FirstFoundAt rpc i tx) ∨ NoneFound rpc := by
  rcases pollTransaction_cases rpc 20 20 (le_refl _) with ⟨i, tx, h1, h2, h3⟩ | h
  · left
    exact ⟨i, tx, by omega, by simpa using h3, fun j hj => h2 j (by omega) (by omega)⟩
  · right
    exact fun j hj => h j (by omega) hj

theorem firstFound_unique {rpc : Rpc} {i j : Nat} {tx tx' : Tx}
    (h : FirstFoundAt rpc i tx) (h' : FirstFoundAt rpc j tx') : i = j ∧ tx = tx' := by
  have hij : i = j := by
    rcases Nat.lt_trichotomy i j with hlt | heq | hgt
    · have := h'.2.2 i hlt
      rw [h.2.1] at this; cases this
    · exact heq
    · have := h.2.2 j hgt
      rw [h'.2.1] at this; cases this
  subst hij
  have := h.2.1.symm.trans h'.2.1
  simp only [Outcome.result.injEq, Option.some.injEq] at this
  exact ⟨rfl, this⟩

theorem isTruthy_some {s : Str} (h : s ≠ []) : isTruthy (some s) = true := by
  cases s with
  | nil => exact absurd rfl h
  | cons _ _ => rfl

theorem isEmpty_false {s : Str} (h : s ≠ []) : s.isEmpty = false := by
  cases s with
  | nil => exact absurd rfl h
  | cons _ _ => rfl

/-- The verifier when the hash is missing. -/
theorem verifyTraced_missingHash (rt : Runtime) (cfg : Payments) (rpc : Rpc) (req : Request)
    (h : isTruthy req.signature = false) :
    verifyTraced rt cfg rpc req =
      (Verdict.failure "missing_tx_hash".toList "Missing transaction hash".toList
        (resolveExplorerUrl cfg req), []) := by
  unfold verifyTraced
  cases hs : req.signature with
  | none => rfl
  | some s =>
    rw [hs] at h
    have : s.isEmpty = true := by simpa [isTruthy] using h
    simp [this]

/-- The verifier when no recipient is configured. -/
theorem verifyTraced_missingRecipient (rt : Runtime) (cfg : Payments) (rpc : Rpc)
    (req : Request) (h : isTruthy req.signature = true)
    (hrec : resolveExpectedRecipient rt cfg req = []) :
    verifyTraced rt cfg rpc req =
      (Verdict.failure "missing_recipient".toList "No recipient configured for payments".toList
        (resolveExplorerUrl cfg req), []) := by
  unfold verifyTraced
  cases hs : req.signature with
  | none => rw [hs] at h; cases h
  | some s =>
    rw [hs] at h
    have : s.isEmpty = false := by simpa [isTruthy] using h
    simp [this, hrec]

/-- The verifier when polling finds no transaction. -/
theorem verifyTraced_noneFound (rt : Runtime) (cfg : Payments) (rpc : Rpc) (req : Request)
    (txHash : Str) (hsig : req.signature = some txHash) (hhash : txHash ≠ [])
    (hrec : resolveExpectedRecipient rt cfg req ≠ []) (hnone : NoneFound rpc) :
    verifyTraced rt cfg rpc req =
      (Verdict.failure "tx_not_found".toList
          "Transaction not found on chain after polling".toList (resolveExplorerUrl cfg req),
        pollTrace (fetchEvent (resolveRpcUrl cfg req) txHash) 20) := by
  simp only [verifyTraced, hsig, isEmpty_false hhash, isEmpty_false hrec, tryBlock,
    poll_of_noneFound hnone, catchError, Bool.false_eq_true, if_false]

/-- The verifier when polling finds a transaction. -/
theorem verifyTraced_found (rt : Runtime) (cfg : Payments) (rpc : Rpc) (req : Request)
    (txHash : Str) (i : Nat) (tx : Tx)
    (hsig : req.signature = some txHash) (hhash : txHash ≠ [])
    (hrec : resolveExpectedRecipient rt cfg req ≠ []) (hfound : FirstFoundAt rpc i tx) :
    verifyTraced rt cfg rpc req =
      (catchError (resolveExplorerUrl cfg req)
          (afterPolling rt cfg rpc req (resolveExpectedRecipient rt cfg req)
            (resolveExplorerUrl cfg req) (requestDecs cfg req) tx),
        pollTrace (fetchEvent (resolveRpcUrl cfg req) txHash) (i + 1) ++
          [receiptEvent (resolveRpcUrl cfg req) txHash]) := by
  simp only [verifyTraced, hsig, isEmpty_false hhash, isEmpty_false hrec, tryBlock,
    poll_of_firstFound hfound, Bool.false_eq_true, if_false]

theorem resolveExpectedRecipient_eq (rt : Runtime) (cfg : Payments) (req : Request) :
    resolveExpectedRecipient rt cfg req = rt.toLowerCase (effectiveRecipient cfg req) := by
  unfold resolveExpectedRecipient effectiveRecipient
  have h : strOr cfg.recipient [] = cfg.recipient := by
    unfold strOr
    cases cfg.recipient <;> rfl
  rw [h]

/-- The checks of `afterPolling` once the receipt has status `'0x1'`, the
recipient matches and the wallet check passes. -/
theorem afterPolling_amount (rt : Runtime) (cfg : Payments) (rpc : Rpc) (req : Request)
    (expectedRecipient explorerUrl : Str) (decs : JsNum) (tx : Tx) (receipt : Receipt)
    (hreceipt : rpc.getTransactionReceipt = .result (some receipt))
    (hstatus : receipt.status = some "0x1".toList)
    (hto : rt.toLowerCase (optOr tx.to_ []) = expectedRecipient)
    (hwallet : isTruthy req.expectedWallet = true →
      rt.toLowerCase (optOr tx.from_ []) = rt.toLowerCase (optOr req.expectedWallet [])) :
    afterPolling rt cfg rpc req expectedRecipient explorerUrl decs tx =
      match jsBigInt rt (optOr tx.value "0x0".toList) with
      | .error err => .error err
      | .ok chainAmount =>
        match toBaseUnits rt cfg req.amount (some decs) with
        | .error err =>
          .ok (Verdict.failure "amount_encode_error".toList
                ("Failed to encode expected amount: ".toList ++ err.message) explorerUrl)
        | .ok expectedAmount =>
          if chainAmount < expectedAmount then
            .ok { Verdict.failure "amount_too_low".toList
                    "On-chain amount is below invoice requirement".toList explorerUrl with
                  details := some [("expected".toList, intToStr expectedAmount),
                                   ("actual".toList, intToStr chainAmount)] }
          else
            .ok { ok := true
                  code := "ok".toList
                  message := "Payment verified on Pharos testnet".toList
                  explorerUrl := explorerUrl
                  details := none
                  payer := some (rt.toLowerCase (optOr tx.from_ []))
                  amountRaw := some (intToStr chainAmount)
                  network := some (optOr (req.networkConfig.bind fun nc => nc.network)
                                    (strOr cfg.network "pharos-testnet".toList)) } := by
  have hw : (isTruthy req.expectedWallet &&
      decide (rt.toLowerCase (optOr tx.from_ []) ≠ rt.toLowerCase (optOr req.expectedWallet [])))
      = false := by
    cases ht : isTruthy req.expectedWallet
    · simp
    · simp [hwallet ht]
  simp only [afterPolling, hreceipt, hstatus, hto, hw, ne_eq, not_true_eq_false, if_false,
    Bool.false_eq_true]

theorem wellFormed_failure {code : Str} (message explorerUrl : Str)
    (details : Option (List (Str × Str)))
    (hne : code ≠ "ok".toList) (hmem : code ∈ verdictCodes) :
    Verdict.WellFormed { Verdict.failure code message explorerUrl with details := details } :=
  ⟨⟨fun _ => hne, fun _ => rfl⟩, hmem⟩

theorem afterPolling_wellFormed {rt : Runtime} {cfg : Payments} {rpc : Rpc} {req : Request}
    {expectedRecipient explorerUrl : Str} {decs : JsNum} {tx : Tx} {v : Verdict}
    (h : afterPolling rt cfg rpc req expectedRecipient explorerUrl decs tx = .ok v) :
    v.WellFormed := by
  unfold afterPolling at h
  simp only at h
  split at h
  · cases h
  · cases h; exact wellFormed_failure _ _ none (by decide) (by decide)
  · split at h
    · cases h; exact wellFormed_failure _ _ none (by decide) (by decide)
    · split at h
      · cases h; exact wellFormed_failure _ _ _ (by decide) (by decide)
      · split at h
        · cases h; exact wellFormed_failure _ _ _ (by decide) (by decide)
        · split at h
          · cases h
          · split at h
            · cases h; exact wellFormed_failure _ _ none (by decide) (by decide)
            · split at h
              · cases h; exact wellFormed_failure _ _ _ (by decide) (by decide)
              · cases h
                refine ⟨⟨fun h => Bool.noConfusion h, fun h => absurd rfl h⟩, ?_⟩
                show "ok".toList ∈ verdictCodes
                decide

theorem catchError_wellFormed (explorerUrl : Str) (r : Except JsError Verdict)
    (h : ∀ v, r = .ok v → v.WellFormed) : (catchError explorerUrl r).WellFormed := by
  cases r with
  | ok v => exact h v rfl
  | error err => exact wellFormed_failure _ _ none (by decide) (by decide)

theorem verifyTraced_wellFormed (rt : Runtime) (cfg : Payments) (rpc : Rpc) (req : Request) :
    (verifyTraced rt cfg rpc req).1.WellFormed := by
  cases ht : isTruthy req.signature with
  | false =>
    rw [verifyTraced_missingHash rt cfg rpc req ht]
    exact wellFormed_failure _ _ none (by decide) (by decide)
  | true =>
    by_cases hrec : resolveExpectedRecipient rt cfg req = []
    · rw [verifyTraced_missingRecipient rt cfg rpc req ht hrec]
      exact wellFormed_failure _ _ none (by decide) (by decide)
    · obtain ⟨txHash, hsig, hhash⟩ : ∃ s, req.signature = some s ∧ s ≠ [] := by
        cases hs : req.signature with
        | none => rw [hs] at ht; cases ht
        | some s =>
          refine ⟨s, rfl, ?_⟩
          rintro rfl
          rw [hs] at ht; cases ht
      rcases firstFound_or_none rpc with ⟨i, tx, hfound⟩ | hnone
      · rw [verifyTraced_found rt cfg rpc req txHash i tx hsig hhash hrec hfound]
        exact catchError_wellFormed _ _ (fun v hv => afterPolling_wellFormed hv)
      · rw [verifyTraced_noneFound rt cfg rpc req txHash hsig hhash hrec hnone]
        exact wellFormed_failure _ _ none (by decide) (by decide)

/-- What a successful result of `afterPolling` implies. -/
theorem afterPolling_ok {rt : Runtime} {cfg : Payments} {rpc : Rpc} {req : Request}
    {expectedRecipient explorerUrl : Str} {decs : JsNum} {tx : Tx}
    (h : (catchError explorerUrl
      (afterPolling rt cfg rpc req expectedRecipient explorerUrl decs tx)).ok = true) :
    ∃ (receipt : Receipt) (chainAmount expectedAmount : Int),
      rpc.getTransactionReceipt = .result (some receipt) ∧
      receipt.status = some "0x1".toList ∧
      rt.toLowerCase (optOr tx.to_ []) = expectedRecipient ∧
      (isTruthy req.expectedWallet = true →
        rt.toLowerCase (optOr tx.from_ []) = rt.toLowerCase (optOr req.expectedWallet [])) ∧
      jsBigInt rt (optOr tx.value "0x0".toList) = .ok chainAmount ∧
      toBaseUnits rt cfg req.amount (some decs) = .ok expectedAmount ∧
      expectedAmount ≤ chainAmount := by
  unfold afterPolling at h
  simp only at h
  split at h
  · cases h
  · cases h
  · rename_i receipt hreceipt
    split at h
    · cases h
    · rename_i hstatus
      split at h
      · cases h
      · rename_i hto
        split at h
        · cases h
        · rename_i hw
          split at h
          · cases h
          · rename_i chainAmount hchain
            split at h
            · cases h
            · rename_i expectedAmount hexp
              split at h
              · cases h
              · rename_i hlt
                refine ⟨receipt, chainAmount, expectedAmount, hreceipt, ?_, ?_, ?_, hchain, hexp,
                  by omega⟩
                · exact not_not.mp hstatus
                · exact not_not.mp hto
                · intro ht
                  by_contra hne
                  exact hw (by simp [ht, hne])

theorem signature_of_truthy {req : Request} (ht : isTruthy req.signature = true) :
    ∃ s, req.signature = some s ∧ s ≠ [] := by
  cases hs : req.signature with
  | none => rw [hs] at ht; cases ht
  | some s =>
    refine ⟨s, rfl, ?_⟩
    rintro rfl
    rw [hs] at ht; cases ht

theorem optOr_of_truthy {w : Str} (h : w ≠ []) (b : Str) : optOr (some w) b = w := by
  cases w with
  | nil => exact absurd rfl h
  | cons _ _ => rfl

/-- C1: soundness of the settlement gate.  Whenever the verifier returns a verdict
with `ok: true`, polling found a transaction `tx`, the receipt call returned a
receipt with status `'0x1'`, the lower-cased `tx.to` equals the lower-cased
effective recipient (request recipient, else the configured default), the
on-chain value decodes to an integer that is at least
`toBaseUnits(amount, decs)` for the decimals `decs` the verifier uses, and a
given (non-empty) `expectedWallet` equals `tx.from` after lower-casing. -/
theorem verify_sound (rt : Runtime) (cfg : Payments) (rpc : Rpc) (req : Request)
    (hok : (verifySolanaUsdcTransfer rt cfg rpc req).ok = true) :
    ∃ (i : Nat) (tx : Tx) (receipt : Receipt) (chainAmount expectedAmount : Int),
      FirstFoundAt rpc i tx ∧
      rpc.getTransactionReceipt = .result (some receipt) ∧
      receipt.status = some "0x1".toList ∧
      rt.toLowerCase (optOr tx.to_ []) = rt.toLowerCase (effectiveRecipient cfg req) ∧
      jsBigInt rt (optOr tx.value "0x0".toList) = .ok chainAmount ∧
      toBaseUnits rt cfg req.amount (some (requestDecs cfg req)) = .ok expectedAmount ∧
      expectedAmount ≤ chainAmount ∧
      (∀ w, req.expectedWallet = some w → w ≠ [] →
        rt.toLowerCase (optOr tx.from_ []) = rt.toLowerCase w) := by
  unfold verifySolanaUsdcTransfer at hok
  cases ht : isTruthy req.signature with
  | false =>
    rw [verifyTraced_missingHash rt cfg rpc req ht] at hok
    cases hok
  | true =>
    by_cases hrec : resolveExpectedRecipient rt cfg req = []
    · rw [verifyTraced_missingRecipient rt cfg rpc req ht hrec] at hok
      cases hok
    · obtain ⟨txHash, hsig, hhash⟩ := signature_of_truthy ht
      rcases firstFound_or_none rpc with ⟨i, tx, hfound⟩ | hnone
      · rw [verifyTraced_found rt cfg rpc req txHash i tx hsig hhash hrec hfound] at hok
        obtain ⟨receipt, chainAmount, expectedAmount, h1, h2, h3, h4, h5, h6, h7⟩ :=
          afterPolling_ok hok
        refine ⟨i, tx, receipt, chainAmount, expectedAmount, hfound, h1, h2, ?_, h5, h6, h7, ?_⟩
        · rw [h3, resolveExpectedRecipient_eq]
        · intro w hw hne
          have := h4 (by rw [hw]; exact isTruthy_some hne)
          rw [this, hw, optOr_of_truthy hne]
      · rw [verifyTraced_noneFound rt cfg rpc req txHash hsig hhash hrec hnone] at hok
        cases hok

/-- On a request whose fields have the types of the data model the verifier
returns a verdict for every behaviour of the RPC capability; it has `ok: false`
exactly when its code is not `ok`, and its code is one of the eleven codes.  A
request with a recipient of another type is the subject of `verifyRaw`. -/
theorem verify_total (rt : Runtime) (cfg : Payments) (rpc : Rpc) (req : Request) :
    ∃ v : Verdict, verifySolanaUsdcTransfer rt cfg rpc req = v ∧
      (v.ok = false ↔ v.code ≠ "ok".toList) ∧ v.code ∈ verdictCodes :=
  ⟨_, rfl, verifyTraced_wellFormed rt cfg rpc req⟩

/-- C7: amount sufficiency boundary.  When all earlier steps pass, the verdict
is `amount_too_low` if and only if the on-chain value is strictly less than
`toBaseUnits(amount, decs)`; an on-chain value equal to the expected amount is
accepted; and the `amount_too_low` verdict carries both integers as decimal
strings in `details.expected` and `details.actual`. -/
theorem amount_boundary (rt : Runtime) (cfg : Payments) (rpc : Rpc) (req : Request)
    (txHash : Str) (i : Nat) (tx : Tx) (receipt : Receipt) (chainAmount expectedAmount : Int)
    (hsig : req.signature = some txHash) (hhash : txHash ≠ [])
    (hrec : resolveExpectedRecipient rt cfg req ≠ [])
    (hfound : FirstFoundAt rpc i tx)
    (hreceipt : rpc.getTransactionReceipt = .result (some receipt))
    (hstatus : receipt.status = some "0x1".toList)
    (hto : rt.toLowerCase (optOr tx.to_ []) = rt.toLowerCase (effectiveRecipient cfg req))
    (hwallet : isTruthy req.expectedWallet = true →
      rt.toLowerCase (optOr tx.from_ []) = rt.toLowerCase (optOr req.expectedWallet []))
    (hchain : jsBigInt rt (optOr tx.value "0x0".toList) = .ok chainAmount)
    (hexpected : toBaseUnits rt cfg req.amount (some (requestDecs cfg req)) = .ok expectedAmount) :
    ((verifySolanaUsdcTransfer rt cfg rpc req).code = "amount_too_low".toList ↔
        chainAmount < expectedAmount) ∧
    (chainAmount = expectedAmount →
        (verifySolanaUsdcTransfer rt cfg rpc req).ok = true ∧
        (verifySolanaUsdcTransfer rt cfg rpc req).code = "ok".toList) ∧
    (chainAmount < expectedAmount →
        (verifySolanaUsdcTransfer rt cfg rpc req).ok = false ∧
        (verifySolanaUsdcTransfer rt cfg rpc req).details =
          some [("expected".toList, intToStr expectedAmount),
                ("actual".toList, intToStr chainAmount)]) := by
  have hv : verifySolanaUsdcTransfer rt cfg rpc req =
      if chainAmount < expectedAmount then
        { Verdict.failure "amount_too_low".toList
            "On-chain amount is below invoice requirement".toList (resolveExplorerUrl cfg req) with
          details := some [("expected".toList, intToStr expectedAmount),
                           ("actual".toList, intToStr chainAmount)] }
      else
        { ok := true
          code := "ok".toList
          message := "Payment verified on Pharos testnet".toList
          explorerUrl := resolveExplorerUrl cfg req
          details := none
          payer := some (rt.toLowerCase (optOr tx.from_ []))
          amountRaw := some (intToStr chainAmount)
          network := some (optOr (req.networkConfig.bind fun nc => nc.network)
                            (strOr cfg.network "pharos-testnet".toList)) } := by
    unfold verifySolanaUsdcTransfer
    rw [verifyTraced_found rt cfg rpc req txHash i tx hsig hhash hrec hfound,
      afterPolling_amount rt cfg rpc req _ _ _ tx receipt hreceipt hstatus
        (by rw [hto, resolveExpectedRecipient_eq]) hwallet]
    simp only [hchain, hexpected]
    split <;> rfl
  rw [hv]
  refine ⟨⟨?_, ?_⟩, ?_, ?_⟩
  · intro h
    by_contra hlt
    rw [if_neg hlt] at h
    cases h
  · intro h; rw [if_pos h]; rfl
  · intro h
    rw [if_neg (by omega)]
    exact ⟨rfl, rfl⟩
  · intro h
    rw [if_pos h]
    exact ⟨rfl, rfl⟩

/-- The code `wrong_recipient` comes only from the recipient check. -/
theorem afterPolling_wrong_recipient {rt : Runtime} {cfg : Payments} {rpc : Rpc}
    {req : Request} {expectedRecipient explorerUrl : Str} {decs : JsNum} {tx : Tx}
    (h : (catchError explorerUrl
      (afterPolling rt cfg rpc req expectedRecipient explorerUrl decs tx)).code =
        "wrong_recipient".toList) :
    rt.toLowerCase (optOr tx.to_ []) ≠ expectedRecipient := by
  unfold afterPolling at h
  simp only at h
  split at h
  · cases h
  · cases h
  · split at h
    · cases h
    · split at h
      · rename_i hto; exact hto
      · split at h
        · cases h
        · split at h
          · cases h
          · split at h
            · cases h
            · split at h <;> cases h

/-- C10: case-insensitive recipient check.  When the transaction is found and
its receipt has status `'0x1'`, the verdict is `wrong_recipient` if and only if
the lower-cased `tx.to` differs from the lower-cased effective recipient; that
verdict carries both lower-cased addresses in `details`, and the actual
recipient is the empty string when `tx.to` is absent. -/
theorem recipient_check (rt : Runtime) (cfg : Payments) (rpc : Rpc) (req : Request)
    (txHash : Str) (i : Nat) (tx : Tx) (receipt : Receipt)
    (hsig : req.signature = some txHash) (hhash : txHash ≠ [])
    (hrec : rt.toLowerCase (effectiveRecipient cfg req) ≠ [])
    (hfound : FirstFoundAt rpc i tx)
    (hreceipt : rpc.getTransactionReceipt = .result (some receipt))
    (hstatus : receipt.status = some "0x1".toList) :
    ((verifySolanaUsdcTransfer rt cfg rpc req).code = "wrong_recipient".toList ↔
        rt.toLowerCase (optOr tx.to_ []) ≠ rt.toLowerCase (effectiveRecipient cfg req)) ∧
    (rt.toLowerCase (optOr tx.to_ []) ≠ rt.toLowerCase (effectiveRecipient cfg req) →
        (verifySolanaUsdcTransfer rt cfg rpc req).ok = false ∧
        (verifySolanaUsdcTransfer rt cfg rpc req).details =
          some [("expectedRecipient".toList, rt.toLowerCase (effectiveRecipient cfg req)),
                ("actualRecipient".toList, rt.toLowerCase (optOr tx.to_ []))]) ∧
    (tx.to_ = none → rt.toLowerCase (optOr tx.to_ []) = []) := by
  have hrec' : resolveExpectedRecipient rt cfg req ≠ [] := by
    rw [resolveExpectedRecipient_eq]; exact hrec
  have hv := verifyTraced_found rt cfg rpc req txHash i tx hsig hhash hrec' hfound
  unfold verifySolanaUsdcTransfer
  rw [hv, resolveExpectedRecipient_eq]
  have hwrong : rt.toLowerCase (optOr tx.to_ []) ≠ rt.toLowerCase (effectiveRecipient cfg req) →
      afterPolling rt cfg rpc req (rt.toLowerCase (effectiveRecipient cfg req))
        (resolveExplorerUrl cfg req) (requestDecs cfg req) tx =
      .ok { Verdict.failure "wrong_recipient".toList
              "Payment was sent to a different address".toList (resolveExplorerUrl cfg req) with
            details := some [("expectedRecipient".toList,
                                rt.toLowerCase (effectiveRecipient cfg req)),
                             ("actualRecipient".toList, rt.toLowerCase (optOr tx.to_ []))] } := by
    intro hne
    simp only [afterPolling, hreceipt, hstatus, ne_eq, not_true_eq_false, if_false, hne,
      not_false_eq_true, if_true]
  refine ⟨⟨afterPolling_wrong_recipient, ?_⟩, ?_, ?_⟩
  · intro hne; rw [hwrong hne]; rfl
  · intro hne; rw [hwrong hne]; exact ⟨rfl, rfl⟩
  · intro hto
    rw [hto]
    exact (rt.toLowerCase_eq_nil []).mpr rfl

/-! ## The polling trace -/

theorem countP_pollTrace (p : Event → Bool) (f : Event) (n : Nat) :
    (pollTrace f (n + 1)).countP p =
      (n + 1) * (if p f = true then 1 else 0) +
        n * (if p (Event.delay 2000) = true then 1 else 0) := by
  induction n with
  | zero => simp [pollTrace, List.countP_cons]
  | succ n ih =>
    have hstep : pollTrace f (n + 1 + 1) = f :: Event.delay 2000 :: pollTrace f (n + 1) := rfl
    rw [hstep, List.countP_cons, List.countP_cons, ih]
    split_ifs <;> ring

theorem mem_pollTrace {f e : Event} {n : Nat} (h : e ∈ pollTrace f n) :
    e = f ∨ e = Event.delay 2000 := by
  induction n using Nat.strong_induction_on with
  | _ n ih =>
    match n, h with
    | 1, h => exact Or.inl (List.mem_singleton.mp h)
    | n + 2, h =>
      have hstep : pollTrace f (n + 2) = f :: Event.delay 2000 :: pollTrace f (n + 1) := rfl
      rw [hstep] at h
      rcases List.mem_cons.mp h with h | h
      · exact Or.inl h
      · rcases List.mem_cons.mp h with h | h
        · exact Or.inr h
        · exact ih (n + 1) (by omega) h

theorem pollTrace_counts (rpcUrl txHash : Str) (n : Nat) :
    countCalls "eth_getTransactionByHash".toList (pollTrace (fetchEvent rpcUrl txHash) (n + 1))
        = n + 1 ∧
    countDelays (pollTrace (fetchEvent rpcUrl txHash) (n + 1)) = n ∧
    countCalls "eth_getTransactionReceipt".toList (pollTrace (fetchEvent rpcUrl txHash) (n + 1))
        = 0 ∧
    (∀ ms, Event.delay ms ∈ pollTrace (fetchEvent rpcUrl txHash) (n + 1) → ms = 2000) := by
  refine ⟨?_, ?_, ?_, ?_⟩
  · unfold countCalls
    rw [countP_pollTrace]
    have h1 : ("eth_getTransactionByHash".toList == "eth_getTransactionByHash".toList) = true := by
      decide
    simp [fetchEvent, h1]
  · unfold countDelays
    rw [countP_pollTrace]
    simp [fetchEvent]
  · unfold countCalls
    rw [countP_pollTrace]
    have h1 : ("eth_getTransactionByHash".toList == "eth_getTransactionReceipt".toList) = false := by
      decide
    simp [fetchEvent, h1]
  · intro ms h
    rcases mem_pollTrace h with h | h
    · cases h
    · cases h; rfl

theorem countCalls_append (m : Str) (a b : List Event) :
    countCalls m (a ++ b) = countCalls m a + countCalls m b := by
  simp [countCalls, List.countP_append]

theorem countDelays_append (a b : List Event) :
    countDelays (a ++ b) = countDelays a + countDelays b := by
  simp [countDelays, List.countP_append]

/-- C8: polling protocol trace.  Once the hash and the recipient checks pass: if
the first non-null polling outcome is at attempt `i < 20` (counted from 0), the
verifier performs exactly `i + 1` fetch attempts separated by `i` delays of
2000 ms and then one receipt call; if none of the first 20 outcomes is a
transaction, it performs exactly 20 fetch attempts and 19 delays of 2000 ms, no
receipt call, and returns `tx_not_found`. -/
theorem polling_protocol (rt : Runtime) (cfg : Payments) (rpc : Rpc) (req : Request)
    (txHash : Str) (hsig : req.signature = some txHash) (hhash : txHash ≠ [])
    (hrec : rt.toLowerCase (effectiveRecipient cfg req) ≠ []) :
    (∀ i tx, FirstFoundAt rpc i tx →
      (verifyTraced rt cfg rpc req).2 =
          pollTrace (fetchEvent (resolveRpcUrl cfg req) txHash) (i + 1) ++
            [receiptEvent (resolveRpcUrl cfg req) txHash] ∧
        countCalls "eth_getTransactionByHash".toList (verifyTraced rt cfg rpc req).2 = i + 1 ∧
        countDelays (verifyTraced rt cfg rpc req).2 = i ∧
        (∀ ms, Event.delay ms ∈ (verifyTraced rt cfg rpc req).2 → ms = 2000) ∧
        countCalls "eth_getTransactionReceipt".toList (verifyTraced rt cfg rpc req).2 = 1) ∧
    (NoneFound rpc →
      (verifyTraced rt cfg rpc req).2 =
          pollTrace (fetchEvent (resolveRpcUrl cfg req) txHash) 20 ∧
        countCalls "eth_getTransactionByHash".toList (verifyTraced rt cfg rpc req).2 = 20 ∧
        countDelays (verifyTraced rt cfg rpc req).2 = 19 ∧
        (∀ ms, Event.delay ms ∈ (verifyTraced rt cfg rpc req).2 → ms = 2000) ∧
        countCalls "eth_getTransactionReceipt".toList (verifyTraced rt cfg rpc req).2 = 0 ∧
        (verifySolanaUsdcTransfer rt cfg rpc req).ok = false ∧
        (verifySolanaUsdcTransfer rt cfg rpc req).code = "tx_not_found".toList) := by
  have hrec' : resolveExpectedRecipient rt cfg req ≠ [] := by
    rw [resolveExpectedRecipient_eq]; exact hrec
  constructor
  · intro i tx hfound
    obtain ⟨h1, h2, h3, h4⟩ := pollTrace_counts (resolveRpcUrl cfg req) txHash i
    rw [verifyTraced_found rt cfg rpc req txHash i tx hsig hhash hrec' hfound]
    refine ⟨rfl, ?_, ?_, ?_, ?_⟩
    · rw [countCalls_append, h1]; simp +decide [countCalls, receiptEvent]
    · rw [countDelays_append, h2]; simp [countDelays, receiptEvent]
    · intro ms h
      rcases List.mem_append.mp h with h | h
      · exact h4 ms h
      · simp [receiptEvent] at h
    · rw [countCalls_append, h3]; simp +decide [countCalls, receiptEvent]
  · intro hnone
    obtain ⟨h1, h2, h3, h4⟩ := pollTrace_counts (resolveRpcUrl cfg req) txHash 19
    unfold verifySolanaUsdcTransfer
    rw [verifyTraced_noneFound rt cfg rpc req txHash hsig hhash hrec' hnone]
    exact ⟨rfl, h1, h2, h4, h3, rfl, rfl⟩

/-! ## The order of the checks -/

theorem firstFoundFrom_found (rpc : Rpc) (tx : Tx) :
    ∀ (i n a : Nat), i < n →
      (∀ j, a ≤ j → j < a + i → foundTx (rpc.getTransactionByHash j) = none) →
      rpc.getTransactionByHash (a + i) = .result (some tx) →
      firstFoundFrom rpc a n = some tx := by
  intro i
  induction i with
  | zero =>
    intro n a hn _ hf
    cases n with
    | zero => omega
    | succ n =>
      simp only [Nat.add_zero] at hf
      simp [firstFoundFrom, hf, foundTx]
  | succ i ih =>
    intro n a hn hnone hf
    cases n with
    | zero => omega
    | succ n =>
      have h0 := hnone a (le_refl _) (by omega)
      have := ih n (a + 1) (by omega) (fun j h1 h2 => hnone j (by omega) (by omega))
        (by rw [Nat.add_assoc, Nat.add_comm 1 i]; exact hf)
      simp [firstFoundFrom, h0, this]

theorem firstFoundFrom_none (rpc : Rpc) :
    ∀ (n a : Nat), (∀ j, a ≤ j → j < a + n → foundTx (rpc.getTransactionByHash j) = none) →
      firstFoundFrom rpc a n = none := by
  intro n
  induction n with
  | zero => intro _ _; rfl
  | succ n ih =>
    intro a hnone
    have h0 := hnone a (le_refl _) (by omega)
    have := ih (a + 1) (fun j h1 h2 => hnone j (by omega) (by omega))
    simp [firstFoundFrom, h0, this]

theorem firstFoundFrom_of_firstFound {rpc : Rpc} {i : Nat} {tx : Tx}
    (h : FirstFoundAt rpc i tx) : firstFoundFrom rpc 0 20 = some tx :=
  firstFoundFrom_found rpc tx i 20 0 h.1 (fun j _ hj => h.2.2 j (by omega))
    (by simpa using h.2.1)

theorem firstFoundFrom_of_noneFound {rpc : Rpc} (h : NoneFound rpc) :
    firstFoundFrom rpc 0 20 = none :=
  firstFoundFrom_none rpc 20 0 (fun j _ hj => h j (by omega))

/-- C6: ordered, short-circuiting pipeline.  When the receipt call does not raise
and the value of the transaction found decodes (which every well-formed hex
quantity does, see `jsBigInt_hexQuantity`), the code of the verdict is the code
of the first step, in the order of the specification, whose failure condition
holds, and `ok` when none holds. -/
theorem pipeline_order (rt : Runtime) (cfg : Payments) (rpc : Rpc) (req : Request)
    (hreceipt : ∀ err, rpc.getTransactionReceipt ≠ .raised err)
    (hvalue : ∀ i tx, FirstFoundAt rpc i tx →
      ∃ n, jsBigInt rt (optOr tx.value "0x0".toList) = .ok n) :
    (verifySolanaUsdcTransfer rt cfg rpc req).code =
      firstFailure (pipelineSteps rt cfg rpc req) := by
  unfold verifySolanaUsdcTransfer
  cases ht : isTruthy req.signature with
  | false =>
    rw [verifyTraced_missingHash rt cfg rpc req ht]
    simp [pipelineSteps, firstFailure, ht, Verdict.failure]
  | true =>
    by_cases hrec : resolveExpectedRecipient rt cfg req = []
    · rw [verifyTraced_missingRecipient rt cfg rpc req ht hrec]
      rw [resolveExpectedRecipient_eq] at hrec
      simp [pipelineSteps, firstFailure, ht, hrec, Verdict.failure]
    · obtain ⟨txHash, hsig, hhash⟩ := signature_of_truthy ht
      have hrec2 : (rt.toLowerCase (effectiveRecipient cfg req)).isEmpty = false := by
        rw [← resolveExpectedRecipient_eq]; exact isEmpty_false hrec
      rcases firstFound_or_none rpc with ⟨i, tx, hfound⟩ | hnone
      · rw [verifyTraced_found rt cfg rpc req txHash i tx hsig hhash hrec hfound]
        have htx := firstFoundFrom_of_firstFound hfound
        obtain ⟨chain, hchain0⟩ := hvalue i tx hfound
        have hchain : jsBigInt rt (optOr tx.value ['0', 'x', '0']) = .ok chain := hchain0
        rw [resolveExpectedRecipient_eq]
        cases hr : rpc.getTransactionReceipt with
        | raised err => exact absurd hr (hreceipt err)
        | result r =>
          cases r with
          | none =>
            simp [pipelineSteps, firstFailure, ht, hrec2, htx, hr, afterPolling, catchError,
              Verdict.failure]
          | some receipt =>
            by_cases hstatus : receipt.status = some "0x1".toList
            · by_cases hto : rt.toLowerCase (optOr tx.to_ []) =
                  rt.toLowerCase (effectiveRecipient cfg req)
              · by_cases hw : isTruthy req.expectedWallet = true ∧
                    rt.toLowerCase (optOr tx.from_ []) ≠
                      rt.toLowerCase (optOr req.expectedWallet [])
                · simp [pipelineSteps, firstFailure, ht, hrec2, htx, hr, afterPolling,
                    catchError, Verdict.failure, hstatus, hto, hw.1, hw.2]
                · have hw' : isTruthy req.expectedWallet = true →
                      rt.toLowerCase (optOr tx.from_ []) =
                        rt.toLowerCase (optOr req.expectedWallet []) := by
                    intro h1
                    by_contra h2
                    exact hw ⟨h1, h2⟩
                  rw [afterPolling_amount rt cfg rpc req _ _ _ tx receipt hr hstatus hto hw']
                  have hwb : isTruthy req.expectedWallet = false ∨
                      (isTruthy req.expectedWallet = true ∧
                        rt.toLowerCase (optOr tx.from_ []) =
                          rt.toLowerCase (optOr req.expectedWallet [])) := by
                    cases h1 : isTruthy req.expectedWallet
                    · exact Or.inl rfl
                    · exact Or.inr ⟨rfl, hw' h1⟩
                  cases hexp : toBaseUnits rt cfg req.amount (some (requestDecs cfg req)) with
                  | error err =>
                    rcases hwb with h1 | ⟨h1, h2⟩
                    · simp [pipelineSteps, firstFailure, ht, hrec2, htx, hr, catchError,
                        Verdict.failure, hstatus, hto, h1, hchain, hexp, Except.toOption]
                    · simp [pipelineSteps, firstFailure, ht, hrec2, htx, hr, catchError,
                        Verdict.failure, hstatus, hto, h1, h2, hchain, hexp, Except.toOption]
                  | ok expected =>
                    by_cases hlt : chain < expected
                    · rcases hwb with h1 | ⟨h1, h2⟩
                      · simp [pipelineSteps, firstFailure, ht, hrec2, htx, hr, catchError,
                          Verdict.failure, hstatus, hto, h1, hchain, hexp, Except.toOption, hlt]
                      · simp [pipelineSteps, firstFailure, ht, hrec2, htx, hr, catchError,
                          Verdict.failure, hstatus, hto, h1, h2, hchain, hexp, Except.toOption,
                          hlt]
                    · rcases hwb with h1 | ⟨h1, h2⟩
                      · simp [pipelineSteps, firstFailure, ht, hrec2, htx, hr, catchError,
                          Verdict.failure, hstatus, hto, h1, hchain, hexp, Except.toOption, hlt]
                      · simp [pipelineSteps, firstFailure, ht, hrec2, htx, hr, catchError,
                          Verdict.failure, hstatus, hto, h1, h2, hchain, hexp, Except.toOption,
                          hlt]
              · simp [pipelineSteps, firstFailure, ht, hrec2, htx, hr, afterPolling, catchError,
                  Verdict.failure, hstatus, hto]
            · have hstatus' : ¬ receipt.status = some ['0', 'x', '1'] := hstatus
              simp [pipelineSteps, firstFailure, ht, hrec2, htx, hr, afterPolling, catchError,
                Verdict.failure, hstatus']
      · rw [verifyTraced_noneFound rt cfg rpc req txHash hsig hhash hrec hnone]
        simp [pipelineSteps, firstFailure, ht, hrec2, firstFoundFrom_of_noneFound hnone,
          Verdict.failure]

/-! ## Hex quantities -/

theorem isHexDigit_not_ws {c : Char} (h : isHexDigit c = true) : isJsWhiteSpace c = false := by
  simp only [isHexDigit, Bool.or_eq_true, Bool.and_eq_true, decide_eq_true_eq] at h
  simp only [isJsWhiteSpace, Bool.or_eq_false_iff, Bool.and_eq_false_iff, decide_eq_false_iff_not]
  omega

theorem digitValue_hex {c : Char} (h : isHexDigit c = true) : ∃ d, digitValue 16 c = some d := by
  simp only [isHexDigit, Bool.or_eq_true, Bool.and_eq_true, decide_eq_true_eq] at h
  unfold digitValue
  simp only
  split_ifs with h1 h2 h3
  · exact ⟨c.toNat - 48, by simp only []; rw [if_pos (by omega)]⟩
  · exact ⟨c.toNat - 87, by simp only []; rw [if_pos (by omega)]⟩
  · exact ⟨c.toNat - 55, by simp only []; rw [if_pos (by omega)]⟩
  · omega

theorem parseDigitsFrom_hex (s : Str) (h : ∀ c ∈ s, isHexDigit c = true) (acc : Nat) :
    ∃ n, parseDigitsFrom 16 acc s = some n := by
  induction s generalizing acc with
  | nil => exact ⟨acc, rfl⟩
  | cons c cs ih =>
    obtain ⟨d, hd⟩ := digitValue_hex (h c (List.mem_cons_self _ _))
    obtain ⟨n, hn⟩ := ih (fun x hx => h x (List.mem_cons_of_mem _ hx)) (acc * 16 + d)
    exact ⟨n, by simp only [parseDigitsFrom, hd, hn]⟩

/-- `BigInt` decodes every well-formed hex quantity, to a non-negative integer. -/
theorem jsBigInt_hexQuantity (rt : Runtime) {s : Str} (h : IsHexQuantity s) :
    ∃ n : Nat, jsBigInt rt s = .ok (Int.ofNat n) := by
  obtain ⟨ds, rfl, hne, hds⟩ := h
  have hws : ∀ c ∈ '0' :: 'x' :: ds, isJsWhiteSpace c = false := by
    intro c hc
    rcases List.mem_cons.mp hc with h | h
    · rw [h]; decide
    · rcases List.mem_cons.mp h with h | h
      · rw [h]; decide
      · exact isHexDigit_not_ws (hds c h)
  obtain ⟨n, hn⟩ := parseDigitsFrom_hex ds hds 0
  have hp : parseDigits 16 ds = some n := by
    cases ds with
    | nil => exact absurd rfl hne
    | cons _ _ => exact hn
  refine ⟨n, ?_⟩
  simp [jsBigInt, jsTrim_eq_self hws, parseIntegerLiteral, hp]

/-! ## The claims on `toBaseUnits` -/

/-- C2: exactness of `toBaseUnits`.  For every valid decimal string `s` (digits
with at most one dot) whose fractional part has at most `d` digits,
`toBaseUnits(s, d)` returns the integer whose value is exactly
`s * 10 ^ d`; and the three examples of the specification evaluate as stated. -/
theorem toBaseUnits_exact (rt : Runtime) (cfg : Payments) (s : Str) (d : Nat)
    (hs : IsDecimalString s) (hlen : (fractionText s).length ≤ d) :
    (∃ n : Int, toBaseUnits rt cfg (.text s) (some (.int d)) = .ok n ∧
      (n : ℚ) = decimalValue s * (10 : ℚ) ^ d) ∧
    toBaseUnits rt cfg (.text "0.1".toList) (some (.int 18)) = .ok 100000000000000000 ∧
    toBaseUnits rt cfg (.text "0".toList) (some (.int 18)) = .ok 0 ∧
    toBaseUnits rt cfg (.text "5".toList) (some (.int 6)) = .ok 5000000 :=
  ⟨exact_on_decimalString rt cfg s d hs hlen, rfl, rfl, rfl⟩

/-- Witness for C2: the amount `12.5` with 6 decimals. -/
theorem toBaseUnits_exact_witness :
    (∃ n : Int, toBaseUnits sampleRuntime samplePayments (.text "12.5".toList) (some (.int 6))
        = .ok n ∧ (n : ℚ) = decimalValue "12.5".toList * (10 : ℚ) ^ 6) ∧
    toBaseUnits sampleRuntime samplePayments (.text "0.1".toList) (some (.int 18))
      = .ok 100000000000000000 ∧
    toBaseUnits sampleRuntime samplePayments (.text "0".toList) (some (.int 18)) = .ok 0 ∧
    toBaseUnits sampleRuntime samplePayments (.text "5".toList) (some (.int 6)) = .ok 5000000 :=
  toBaseUnits_exact sampleRuntime samplePayments "12.5".toList 6
    ⟨by decide, by decide, by decide⟩ (by decide)

/-- C3, counterexample: `toBaseUnits("-5", 18)` does not fail and returns a
negative integer. -/
theorem toBaseUnits_negative :
    toBaseUnits sampleRuntime samplePayments (.text "-5".toList) (some (.int 18))
      = .ok (-5000000000000000000) ∧ ¬ (0 ≤ (-5000000000000000000 : Int)) :=
  ⟨rfl, by decide⟩

/-- C3, as amended: whenever `toBaseUnits` does not fail on an amount whose text
contains no minus sign, the result is a non-negative integer. -/
theorem toBaseUnits_unsigned (rt : Runtime) (cfg : Payments) (amount : Amount)
    (decimals : Option JsNum) (n : Int)
    (hsign : ∀ raw, amount = .text raw → '-' ∉ raw)
    (h : toBaseUnits rt cfg amount decimals = .ok n) : 0 ≤ n := by
  cases amount with
  | undefined => cases h
  | null => cases h
  | text raw => exact toBaseUnits_nonneg (hsign raw rfl) h

/-- Witness for C3 as amended: the amount `5` with 6 decimals. -/
theorem toBaseUnits_unsigned_witness :
    toBaseUnits sampleRuntime samplePayments (.text "5".toList) (some (.int 6)) = .ok 5000000 ∧
      (0 : Int) ≤ 5000000 :=
  ⟨rfl, toBaseUnits_unsigned sampleRuntime samplePayments (.text "5".toList) (some (.int 6))
    5000000 (fun raw h => by cases h; decide) rfl⟩

/-- The length check on amounts with a single dot.  For every amount made of a
text without dot, one dot, and a fractional part (without dot, not ending in
white space) that is longer than `decimals`, `toBaseUnits` fails with the error
of its length check instead of returning a value. -/
theorem toBaseUnits_no_truncation (rt : Runtime) (cfg : Payments) (pre frac : Str) (d : Int)
    (hpre : '.' ∉ pre) (hfrac : '.' ∉ frac)
    (hlast : ∀ c, frac.getLast? = some c → isJsWhiteSpace c = false)
    (hlen : d < (jsLength frac : Int)) :
    toBaseUnits rt cfg (.text (pre ++ '.' :: frac)) (some (.int d)) =
      .error ⟨"Too many decimal places: got ".toList ++ natToStr (jsLength frac)
                ++ ", max ".toList ++ intToStr d⟩ :=
  toBaseUnits_tooMany rt cfg pre frac d hpre hfrac hlast hlen

/-- The length check at work: the amount `1.2345` with 2 decimals is rejected. -/
theorem toBaseUnits_no_truncation_witness :
    toBaseUnits sampleRuntime samplePayments (.text "1.2345".toList) (some (.int 2)) =
      .error ⟨"Too many decimal places: got 4, max 2".toList⟩ :=
  toBaseUnits_no_truncation sampleRuntime samplePayments "1".toList "2345".toList 2
    (by decide) (by decide) (by decide) (by decide)

/-- What the constant `decs` of the verifier is: a non-zero integer `decimals` of
the request is used as it is, an absent `decimals` gives the configured default,
and so does a `decimals` of 0. -/
theorem requestDecs_cases (cfg : Payments) (req : Request) :
    (∀ d : Int, req.decimals = some (.int d) → d ≠ 0 → requestDecs cfg req = .int d) ∧
    (req.decimals = none → requestDecs cfg req = numOr cfg.decimals (.int 18)) ∧
    (req.decimals = some (.int 0) → requestDecs cfg req = numOr cfg.decimals (.int 18)) := by
  refine ⟨?_, ?_, ?_⟩
  · intro d hd hne
    simp [requestDecs, hd, numOr, hne]
  · intro hd
    simp [requestDecs, hd]
  · intro hd
    simp [requestDecs, hd, numOr]

/-- C9, the code at the failing input: a request for the amount `"5"` with
`decimals: 0` is normalized with the configured 18 decimals instead of 0, so a
transaction paying exactly `toBaseUnits("5", 0) = 5` base units is rejected as
`amount_too_low` with expected amount `5000000000000000000`. -/
theorem zero_decimals_ignored :
    requestDecs samplePayments zeroDecimalsRequest = .int 18 ∧
    toBaseUnits sampleRuntime samplePayments zeroDecimalsRequest.amount (some (.int 0)) = .ok 5 ∧
    toBaseUnits sampleRuntime samplePayments zeroDecimalsRequest.amount
      (some (requestDecs samplePayments zeroDecimalsRequest)) = .ok 5000000000000000000 ∧
    (verifySolanaUsdcTransfer sampleRuntime samplePayments
      (rpcFoundAt 0 fiveUnitsTx "0x1".toList) zeroDecimalsRequest).code
        = "amount_too_low".toList ∧
    (verifySolanaUsdcTransfer sampleRuntime samplePayments
      (rpcFoundAt 0 fiveUnitsTx "0x1".toList) zeroDecimalsRequest).details
        = some [("expected".toList, "5000000000000000000".toList),
                ("actual".toList, "5".toList)] :=
  ⟨rfl, rfl, rfl, by decide, by decide⟩

/-! ## Witnesses for the claims on the verifier -/

/-- Witness for C1: a payment of 1 PHRS found at the third polling attempt. -/
theorem verify_sound_witness :
    ∃ (i : Nat) (tx : Tx) (receipt : Receipt) (chainAmount expectedAmount : Int),
      FirstFoundAt (rpcFoundAt 2 sampleTx "0x1".toList) i tx ∧
      (rpcFoundAt 2 sampleTx "0x1".toList).getTransactionReceipt = .result (some receipt) ∧
      receipt.status = some "0x1".toList ∧
      sampleRuntime.toLowerCase (optOr tx.to_ []) =
        sampleRuntime.toLowerCase (effectiveRecipient samplePayments (sampleRequest "1.0".toList)) ∧
      jsBigInt sampleRuntime (optOr tx.value "0x0".toList) = .ok chainAmount ∧
      toBaseUnits sampleRuntime samplePayments (sampleRequest "1.0".toList).amount
        (some (requestDecs samplePayments (sampleRequest "1.0".toList))) = .ok expectedAmount ∧
      expectedAmount ≤ chainAmount ∧
      (∀ w, (sampleRequest "1.0".toList).expectedWallet = some w → w ≠ [] →
        sampleRuntime.toLowerCase (optOr tx.from_ []) = sampleRuntime.toLowerCase w) :=
  verify_sound sampleRuntime samplePayments (rpcFoundAt 2 sampleTx "0x1".toList)
    (sampleRequest "1.0".toList) (by decide)

/-- Witness for C6: a failed receipt together with a wrong recipient yields
`tx_failed`; a wrong recipient together with an amount that cannot be encoded
yields `wrong_recipient`. -/
theorem pipeline_order_witness :
    ((verifySolanaUsdcTransfer sampleRuntime samplePayments
        (rpcFoundAt 1 strangerTx "0x0".toList) (sampleRequest "1.0".toList)).code =
      firstFailure (pipelineSteps sampleRuntime samplePayments
        (rpcFoundAt 1 strangerTx "0x0".toList) (sampleRequest "1.0".toList)) ∧
     firstFailure (pipelineSteps sampleRuntime samplePayments
        (rpcFoundAt 1 strangerTx "0x0".toList) (sampleRequest "1.0".toList))
        = "tx_failed".toList) ∧
    ((verifySolanaUsdcTransfer sampleRuntime samplePayments
        (rpcFoundAt 1 strangerTx "0x1".toList) (sampleRequest "abc".toList)).code =
      firstFailure (pipelineSteps sampleRuntime samplePayments
        (rpcFoundAt 1 strangerTx "0x1".toList) (sampleRequest "abc".toList)) ∧
     firstFailure (pipelineSteps sampleRuntime samplePayments
        (rpcFoundAt 1 strangerTx "0x1".toList) (sampleRequest "abc".toList))
        = "wrong_recipient".toList ∧
     toBaseUnits sampleRuntime samplePayments (sampleRequest "abc".toList).amount
        (some (requestDecs samplePayments (sampleRequest "abc".toList))) =
        .error ⟨"Cannot convert abc000000000000000000 to a BigInt".toList⟩) :=
  ⟨⟨pipeline_order sampleRuntime samplePayments (rpcFoundAt 1 strangerTx "0x0".toList)
      (sampleRequest "1.0".toList) (fun err h => by cases h)
      (fun i tx h => by
        have h2 := h.2.1
        simp only [rpcFoundAt] at h2
        split at h2
        · cases h2; exact ⟨1000000000000000000, rfl⟩
        · cases h2), by decide⟩,
   ⟨pipeline_order sampleRuntime samplePayments (rpcFoundAt 1 strangerTx "0x1".toList)
      (sampleRequest "abc".toList) (fun err h => by cases h)
      (fun i tx h => by
        have h2 := h.2.1
        simp only [rpcFoundAt] at h2
        split at h2
        · cases h2; exact ⟨1000000000000000000, rfl⟩
        · cases h2), by decide, by rfl⟩⟩

/-- Witness for C7: an on-chain value equal to the expected amount. -/
theorem amount_boundary_witness :
    ((verifySolanaUsdcTransfer sampleRuntime samplePayments (rpcFoundAt 2 sampleTx "0x1".toList)
        (sampleRequest "1.0".toList)).code = "amount_too_low".toList ↔
        (1000000000000000000 : Int) < 1000000000000000000) ∧
    ((1000000000000000000 : Int) = 1000000000000000000 →
        (verifySolanaUsdcTransfer sampleRuntime samplePayments
          (rpcFoundAt 2 sampleTx "0x1".toList) (sampleRequest "1.0".toList)).ok = true ∧
        (verifySolanaUsdcTransfer sampleRuntime samplePayments
          (rpcFoundAt 2 sampleTx "0x1".toList) (sampleRequest "1.0".toList)).code
            = "ok".toList) ∧
    ((1000000000000000000 : Int) < 1000000000000000000 →
        (verifySolanaUsdcTransfer sampleRuntime samplePayments
          (rpcFoundAt 2 sampleTx "0x1".toList) (sampleRequest "1.0".toList)).ok = false ∧
        (verifySolanaUsdcTransfer sampleRuntime samplePayments
          (rpcFoundAt 2 sampleTx "0x1".toList) (sampleRequest "1.0".toList)).details =
          some [("expected".toList, intToStr 1000000000000000000),
                ("actual".toList, intToStr 1000000000000000000)]) :=
  amount_boundary sampleRuntime samplePayments (rpcFoundAt 2 sampleTx "0x1".toList)
    (sampleRequest "1.0".toList) "0xabc".toList 2 sampleTx ⟨some "0x1".toList⟩
    1000000000000000000 1000000000000000000 rfl (by decide) (by decide)
    ⟨by decide, rfl, by decide⟩ rfl rfl (by decide) (fun h => by cases h) rfl rfl

/-- Witness for C8: a transaction found at the third polling attempt. -/
theorem polling_protocol_witness :
    (verifyTraced sampleRuntime samplePayments (rpcFoundAt 2 sampleTx "0x1".toList)
        (sampleRequest "1.0".toList)).2 =
      pollTrace (fetchEvent (resolveRpcUrl samplePayments (sampleRequest "1.0".toList))
          "0xabc".toList) 3 ++
        [receiptEvent (resolveRpcUrl samplePayments (sampleRequest "1.0".toList))
          "0xabc".toList] ∧
    countCalls "eth_getTransactionByHash".toList
      (verifyTraced sampleRuntime samplePayments (rpcFoundAt 2 sampleTx "0x1".toList)
        (sampleRequest "1.0".toList)).2 = 3 ∧
    countDelays
      (verifyTraced sampleRuntime samplePayments (rpcFoundAt 2 sampleTx "0x1".toList)
        (sampleRequest "1.0".toList)).2 = 2 ∧
    (∀ ms, Event.delay ms ∈
      (verifyTraced sampleRuntime samplePayments (rpcFoundAt 2 sampleTx "0x1".toList)
        (sampleRequest "1.0".toList)).2 → ms = 2000) ∧
    countCalls "eth_getTransactionReceipt".toList
      (verifyTraced sampleRuntime samplePayments (rpcFoundAt 2 sampleTx "0x1".toList)
        (sampleRequest "1.0".toList)).2 = 1 :=
  (polling_protocol sampleRuntime samplePayments (rpcFoundAt 2 sampleTx "0x1".toList)
    (sampleRequest "1.0".toList) "0xabc".toList rfl (by decide) (by decide)).1 2 sampleTx
    ⟨by decide, rfl, by decide⟩

/-- Witness for C10: a payment sent to another address. -/
theorem recipient_check_witness :
    ((verifySolanaUsdcTransfer sampleRuntime samplePayments
        (rpcFoundAt 0 strangerTx "0x1".toList) (sampleRequest "1.0".toList)).code
          = "wrong_recipient".toList ↔
        sampleRuntime.toLowerCase (optOr strangerTx.to_ []) ≠
          sampleRuntime.toLowerCase
            (effectiveRecipient samplePayments (sampleRequest "1.0".toList))) ∧
    (sampleRuntime.toLowerCase (optOr strangerTx.to_ []) ≠
        sampleRuntime.toLowerCase
          (effectiveRecipient samplePayments (sampleRequest "1.0".toList)) →
        (verifySolanaUsdcTransfer sampleRuntime samplePayments
          (rpcFoundAt 0 strangerTx "0x1".toList) (sampleRequest "1.0".toList)).ok = false ∧
        (verifySolanaUsdcTransfer sampleRuntime samplePayments
          (rpcFoundAt 0 strangerTx "0x1".toList) (sampleRequest "1.0".toList)).details =
          some [("expectedRecipient".toList,
                  sampleRuntime.toLowerCase
                    (effectiveRecipient samplePayments (sampleRequest "1.0".toList))),
                ("actualRecipient".toList,
                  sampleRuntime.toLowerCase (optOr strangerTx.to_ []))]) ∧
    (strangerTx.to_ = none → sampleRuntime.toLowerCase (optOr strangerTx.to_ []) = []) :=
  recipient_check sampleRuntime samplePayments (rpcFoundAt 0 strangerTx "0x1".toList)
    (sampleRequest "1.0".toList) "0xabc".toList 0 strangerTx ⟨some "0x1".toList⟩
    rfl (by decide) (by decide) ⟨by decide, rfl, by decide⟩ rfl rfl

/-! ## The verifier: all the ways a verdict is produced -/

/-- The four ways in which `verifySolanaUsdcTransfer` produces its verdict. -/
theorem verify_cases (rt : Runtime) (cfg : Payments) (rpc : Rpc) (req : Request) :
    (isTruthy req.signature = false ∧
      verifyTraced rt cfg rpc req =
        (Verdict.failure "missing_tx_hash".toList "Missing transaction hash".toList
          (resolveExplorerUrl cfg req), [])) ∨
    (isTruthy req.signature = true ∧ resolveExpectedRecipient rt cfg req = [] ∧
      verifyTraced rt cfg rpc req =
        (Verdict.failure "missing_recipient".toList
          "No recipient configured for payments".toList (resolveExplorerUrl cfg req), [])) ∨
    (∃ txHash, req.signature = some txHash ∧ txHash ≠ [] ∧
      resolveExpectedRecipient rt cfg req ≠ [] ∧ NoneFound rpc ∧
      verifyTraced rt cfg rpc req =
        (Verdict.failure "tx_not_found".toList
            "Transaction not found on chain after polling".toList (resolveExplorerUrl cfg req),
          pollTrace (fetchEvent (resolveRpcUrl cfg req) txHash) 20)) ∨
    (∃ txHash i tx, req.signature = some txHash ∧ txHash ≠ [] ∧
      resolveExpectedRecipient rt cfg req ≠ [] ∧ FirstFoundAt rpc i tx ∧
      verifyTraced rt cfg rpc req =
        (catchError (resolveExplorerUrl cfg req)
            (afterPolling rt cfg rpc req (resolveExpectedRecipient rt cfg req)
              (resolveExplorerUrl cfg req) (requestDecs cfg req) tx),
          pollTrace (fetchEvent (resolveRpcUrl cfg req) txHash) (i + 1) ++
            [receiptEvent (resolveRpcUrl cfg req) txHash])) := by
  cases ht : isTruthy req.signature with
  | false => exact Or.inl ⟨rfl, verifyTraced_missingHash rt cfg rpc req ht⟩
  | true =>
    by_cases hrec : resolveExpectedRecipient rt cfg req = []
    · exact Or.inr (Or.inl ⟨rfl, hrec, verifyTraced_missingRecipient rt cfg rpc req ht hrec⟩)
    · obtain ⟨txHash, hsig, hhash⟩ := signature_of_truthy ht
      rcases firstFound_or_none rpc with ⟨i, tx, hfound⟩ | hnone
      · exact Or.inr (Or.inr (Or.inr ⟨txHash, i, tx, hsig, hhash, hrec, hfound,
          verifyTraced_found rt cfg rpc req txHash i tx hsig hhash hrec hfound⟩))
      · exact Or.inr (Or.inr (Or.inl ⟨txHash, hsig, hhash, hrec, hnone,
          verifyTraced_noneFound rt cfg rpc req txHash hsig hhash hrec hnone⟩))

/-- The ways in which the part of the `try` block after polling ends. -/
theorem afterPolling_cases (rt : Runtime) (cfg : Payments) (rpc : Rpc) (req : Request)
    (expectedRecipient explorerUrl : Str) (decs : JsNum) (tx : Tx) :
    (∃ err, rpc.getTransactionReceipt = .raised err ∧
      afterPolling rt cfg rpc req expectedRecipient explorerUrl decs tx = .error err) ∨
    (rpc.getTransactionReceipt = .result none ∧
      afterPolling rt cfg rpc req expectedRecipient explorerUrl decs tx =
        .ok (Verdict.failure "receipt_not_found".toList
              "Transaction receipt not found on chain".toList explorerUrl)) ∨
    (∃ receipt, rpc.getTransactionReceipt = .result (some receipt) ∧
      receipt.status ≠ some "0x1".toList ∧
      afterPolling rt cfg rpc req expectedRecipient explorerUrl decs tx =
        .ok (Verdict.failure "tx_failed".toList
              "Transaction status is not successful".toList explorerUrl)) ∨
    (∃ receipt, rpc.getTransactionReceipt = .result (some receipt) ∧
      receipt.status = some "0x1".toList ∧
      rt.toLowerCase (optOr tx.to_ []) ≠ expectedRecipient ∧
      afterPolling rt cfg rpc req expectedRecipient explorerUrl decs tx =
        .ok { Verdict.failure "wrong_recipient".toList
                "Payment was sent to a different address".toList explorerUrl with
              details := some [("expectedRecipient".toList, expectedRecipient),
                               ("actualRecipient".toList, rt.toLowerCase (optOr tx.to_ []))] }) ∨
    (∃ receipt, rpc.getTransactionReceipt = .result (some receipt) ∧
      receipt.status = some "0x1".toList ∧
      rt.toLowerCase (optOr tx.to_ []) = expectedRecipient ∧
      isTruthy req.expectedWallet = true ∧
      rt.toLowerCase (optOr tx.from_ []) ≠ rt.toLowerCase (optOr req.expectedWallet []) ∧
      afterPolling rt cfg rpc req expectedRecipient explorerUrl decs tx =
        .ok { Verdict.failure "wallet_mismatch".toList
                "Payment was sent from a different wallet than expected".toList
                explorerUrl with
              details := some [("expectedWallet".toList,
                                  rt.toLowerCase (optOr req.expectedWallet [])),
                               ("actualWallet".toList, rt.toLowerCase (optOr tx.from_ []))] }) ∨
    (∃ receipt, rpc.getTransactionReceipt = .result (some receipt) ∧
      receipt.status = some "0x1".toList ∧
      rt.toLowerCase (optOr tx.to_ []) = expectedRecipient ∧
      (isTruthy req.expectedWallet = true →
        rt.toLowerCase (optOr tx.from_ []) = rt.toLowerCase (optOr req.expectedWallet [])) ∧
      ((∃ err, jsBigInt rt (optOr tx.value "0x0".toList) = .error err ∧
          afterPolling rt cfg rpc req expectedRecipient explorerUrl decs tx = .error err) ∨
       (∃ chainAmount err, jsBigInt rt (optOr tx.value "0x0".toList) = .ok chainAmount ∧
          toBaseUnits rt cfg req.amount (some decs) = .error err ∧
          afterPolling rt cfg rpc req expectedRecipient explorerUrl decs tx =
            .ok (Verdict.failure "amount_encode_error".toList
                  ("Failed to encode expected amount: ".toList ++ err.message) explorerUrl)) ∨
       (∃ chainAmount expectedAmount,
          jsBigInt rt (optOr tx.value "0x0".toList) = .ok chainAmount ∧
          toBaseUnits rt cfg req.amount (some decs) = .ok expectedAmount ∧
          chainAmount < expectedAmount ∧
          afterPolling rt cfg rpc req expectedRecipient explorerUrl decs tx =
            .ok { Verdict.failure "amount_too_low".toList
                    "On-chain amount is below invoice requirement".toList explorerUrl with
                  details := some [("expected".toList, intToStr expectedAmount),
                                   ("actual".toList, intToStr chainAmount)] }) ∨
       (∃ chainAmount expectedAmount,
          jsBigInt rt (optOr tx.value "0x0".toList) = .ok chainAmount ∧
          toBaseUnits rt cfg req.amount (some decs) = .ok expectedAmount ∧
          expectedAmount ≤ chainAmount ∧
          afterPolling rt cfg rpc req expectedRecipient explorerUrl decs tx =
            .ok { ok := true
                  code := "ok".toList
                  message := "Payment verified on Pharos testnet".toList
                  explorerUrl := explorerUrl
                  details := none
                  payer := some (rt.toLowerCase (optOr tx.from_ []))
                  amountRaw := some (intToStr chainAmount)
                  network := some (optOr (req.networkConfig.bind fun nc => nc.network)
                                    (strOr cfg.network "pharos-testnet".toList)) }))) := by
  cases hr : rpc.getTransactionReceipt with
  | raised err =>
    exact Or.inl ⟨err, rfl, by simp only [afterPolling, hr]⟩
  | result r =>
    cases r with
    | none => exact Or.inr (Or.inl ⟨rfl, by simp only [afterPolling, hr]⟩)
    | some receipt =>
      by_cases hstatus : receipt.status = some "0x1".toList
      · by_cases hto : rt.toLowerCase (optOr tx.to_ []) = expectedRecipient
        · by_cases hw : isTruthy req.expectedWallet = true ∧
              rt.toLowerCase (optOr tx.from_ []) ≠ rt.toLowerCase (optOr req.expectedWallet [])
          · refine Or.inr (Or.inr (Or.inr (Or.inr (Or.inl
              ⟨receipt, rfl, hstatus, hto, hw.1, hw.2, ?_⟩))))
            simp [afterPolling, hr, hstatus, hto, hw.1, hw.2]
          · have hw' : isTruthy req.expectedWallet = true →
                rt.toLowerCase (optOr tx.from_ []) =
                  rt.toLowerCase (optOr req.expectedWallet []) := by
              intro h1
              by_contra h2
              exact hw ⟨h1, h2⟩
            refine Or.inr (Or.inr (Or.inr (Or.inr (Or.inr
              ⟨receipt, rfl, hstatus, hto, hw', ?_⟩))))
            rw [afterPolling_amount rt cfg rpc req _ _ _ tx receipt hr hstatus hto hw']
            cases hchain : jsBigInt rt (optOr tx.value "0x0".toList) with
            | error err => exact Or.inl ⟨err, rfl, rfl⟩
            | ok chainAmount =>
              cases hexp : toBaseUnits rt cfg req.amount (some decs) with
              | error err => exact Or.inr (Or.inl ⟨chainAmount, err, rfl, rfl, rfl⟩)
              | ok expectedAmount =>
                by_cases hlt : chainAmount < expectedAmount
                · exact Or.inr (Or.inr (Or.inl ⟨chainAmount, expectedAmount, rfl, rfl, hlt,
                    by simp only [hlt, if_true]⟩))
                · exact Or.inr (Or.inr (Or.inr ⟨chainAmount, expectedAmount, rfl, rfl,
                    by omega, by simp only [hlt, if_false]⟩))
        · refine Or.inr (Or.inr (Or.inr (Or.inl ⟨receipt, rfl, hstatus, hto, ?_⟩)))
          simp [afterPolling, hr, hstatus, hto]
      · refine Or.inr (Or.inr (Or.inl ⟨receipt, rfl, hstatus, ?_⟩))
        have hstatus' : ¬ receipt.status = some ['0', 'x', '1'] := hstatus
        simp [afterPolling, hr, hstatus']

/-! ## The payload of the verdicts -/

/-- C11: success verdict payload.  When the transaction is found, the receipt
has status `'0x1'`, `tx.to` matches the effective recipient and any given
`expectedWallet` matches `tx.from` (both after lower-casing), and the on-chain
value is at least `toBaseUnits(amount, decs)`, the verifier returns `ok: true`
with code `ok`, `payer` the lower-cased `tx.from`, `amountRaw` the decimal string
of the on-chain value, and the network name. -/
theorem success_payload (rt : Runtime) (cfg : Payments) (rpc : Rpc) (req : Request)
    (txHash : Str) (i : Nat) (tx : Tx) (receipt : Receipt) (chainAmount expectedAmount : Int)
    (hsig : req.signature = some txHash) (hhash : txHash ≠ [])
    (hrec : rt.toLowerCase (effectiveRecipient cfg req) ≠ [])
    (hfound : FirstFoundAt rpc i tx)
    (hreceipt : rpc.getTransactionReceipt = .result (some receipt))
    (hstatus : receipt.status = some "0x1".toList)
    (hto : rt.toLowerCase (optOr tx.to_ []) = rt.toLowerCase (effectiveRecipient cfg req))
    (hwallet : ∀ w, req.expectedWallet = some w → w ≠ [] →
      rt.toLowerCase (optOr tx.from_ []) = rt.toLowerCase w)
    (hchain : jsBigInt rt (optOr tx.value "0x0".toList) = .ok chainAmount)
    (hexpected : toBaseUnits rt cfg req.amount (some (requestDecs cfg req)) = .ok expectedAmount)
    (hle : expectedAmount ≤ chainAmount) :
    verifySolanaUsdcTransfer rt cfg rpc req =
      { ok := true
        code := "ok".toList
        message := "Payment verified on Pharos testnet".toList
        explorerUrl := resolveExplorerUrl cfg req
        details := none
        payer := some (rt.toLowerCase (optOr tx.from_ []))
        amountRaw := some (intToStr chainAmount)
        network := some (optOr (req.networkConfig.bind fun nc => nc.network)
                          (strOr cfg.network "pharos-testnet".toList)) } := by
  have hrec' : resolveExpectedRecipient rt cfg req ≠ [] := by
    rw [resolveExpectedRecipient_eq]; exact hrec
  have hwallet' : isTruthy req.expectedWallet = true →
      rt.toLowerCase (optOr tx.from_ []) = rt.toLowerCase (optOr req.expectedWallet []) := by
    intro ht
    cases hw : req.expectedWallet with
    | none => rw [hw] at ht; cases ht
    | some w =>
      have hne : w ≠ [] := by
        rintro rfl
        rw [hw] at ht; cases ht
      rw [optOr_of_truthy hne]
      exact hwallet w hw hne
  have hlt : ¬ chainAmount < expectedAmount := by omega
  unfold verifySolanaUsdcTransfer
  rw [verifyTraced_found rt cfg rpc req txHash i tx hsig hhash hrec' hfound,
    afterPolling_amount rt cfg rpc req _ _ _ tx receipt hreceipt hstatus
      (by rw [hto, resolveExpectedRecipient_eq]) hwallet']
  simp only [hchain, hexpected, hlt, if_false, catchError]

/-- C12: a missing hash is rejected before any network activity.  When
`signature` is absent or empty, the verdict is `ok: false` with code
`missing_tx_hash`, and no RPC call and no delay is performed, whatever the other
fields of the request are. -/
theorem missing_hash_no_network (rt : Runtime) (cfg : Payments) (rpc : Rpc) (req : Request)
    (hmissing : isTruthy req.signature = false) :
    (verifySolanaUsdcTransfer rt cfg rpc req).ok = false ∧
    (verifySolanaUsdcTransfer rt cfg rpc req).code = "missing_tx_hash".toList ∧
    (verifyTraced rt cfg rpc req).2 = [] ∧
    (∀ method, countCalls method (verifyTraced rt cfg rpc req).2 = 0) ∧
    countDelays (verifyTraced rt cfg rpc req).2 = 0 := by
  unfold verifySolanaUsdcTransfer
  rw [verifyTraced_missingHash rt cfg rpc req hmissing]
  exact ⟨rfl, rfl, rfl, fun _ => rfl, rfl⟩

theorem catchError_explorerUrl (explorerUrl : Str) (r : Except JsError Verdict)
    (h : ∀ v, r = .ok v → v.explorerUrl = explorerUrl) :
    (catchError explorerUrl r).explorerUrl = explorerUrl := by
  cases r with
  | ok v => exact h v rfl
  | error err => rfl

theorem afterPolling_explorerUrl {rt : Runtime} {cfg : Payments} {rpc : Rpc} {req : Request}
    {expectedRecipient explorerUrl : Str} {decs : JsNum} {tx : Tx} {v : Verdict}
    (h : afterPolling rt cfg rpc req expectedRecipient explorerUrl decs tx = .ok v) :
    v.explorerUrl = explorerUrl := by
  rcases afterPolling_cases rt cfg rpc req expectedRecipient explorerUrl decs tx with
    ⟨err, _, h1⟩ | ⟨_, h1⟩ | ⟨_, _, _, h1⟩ | ⟨_, _, _, _, h1⟩ | ⟨_, _, _, _, _, _, h1⟩ |
    ⟨_, _, _, _, _, h2⟩
  · rw [h1] at h; cases h
  · rw [h1] at h; cases h; rfl
  · rw [h1] at h; cases h; rfl
  · rw [h1] at h; cases h; rfl
  · rw [h1] at h; cases h; rfl
  · rcases h2 with ⟨_, _, h1⟩ | ⟨_, _, _, _, h1⟩ | ⟨_, _, _, _, _, h1⟩ | ⟨_, _, _, _, _, h1⟩
    · rw [h1] at h; cases h
    · rw [h1] at h; cases h; rfl
    · rw [h1] at h; cases h; rfl
    · rw [h1] at h; cases h; rfl

/-- The link of the verdict on a typed request, in terms of `templateOf`: the
explorer base URL of `networkConfig` when given and otherwise the configured
default, a slash, and the rendering of the hash. -/
theorem explorer_link (rt : Runtime) (cfg : Payments) (rpc : Rpc) (req : Request) :
    (verifySolanaUsdcTransfer rt cfg rpc req).explorerUrl =
      optOr (req.networkConfig.bind fun nc => nc.explorerBaseUrl)
          (strOr cfg.explorerBaseUrl "https://pharos-testnet.socialscan.io/tx".toList)
        ++ "/".toList ++ templateOf req.signature := by
  show (verifyTraced rt cfg rpc req).1.explorerUrl = resolveExplorerUrl cfg req
  rcases verify_cases rt cfg rpc req with ⟨_, h⟩ | ⟨_, _, h⟩ | ⟨_, _, _, _, _, h⟩ |
    ⟨_, _, _, _, _, _, _, h⟩
  · rw [h]; rfl
  · rw [h]; rfl
  · rw [h]; rfl
  · rw [h]
    exact catchError_explorerUrl _ _ (fun v hv => afterPolling_explorerUrl hv)

/-- The codes that a verdict can have once the transaction has been found. -/
theorem afterPolling_codes (rt : Runtime) (cfg : Payments) (rpc : Rpc) (req : Request)
    (expectedRecipient explorerUrl : Str) (decs : JsNum) (tx : Tx) :
    (catchError explorerUrl
        (afterPolling rt cfg rpc req expectedRecipient explorerUrl decs tx)).code ∈
      ["verification_error".toList, "receipt_not_found".toList, "tx_failed".toList,
       "wrong_recipient".toList, "wallet_mismatch".toList, "amount_encode_error".toList,
       "amount_too_low".toList, "ok".toList] := by
  rcases afterPolling_cases rt cfg rpc req expectedRecipient explorerUrl decs tx with
    ⟨err, _, h1⟩ | ⟨_, h1⟩ | ⟨_, _, _, h1⟩ | ⟨_, _, _, _, h1⟩ | ⟨_, _, _, _, _, _, h1⟩ |
    ⟨_, _, _, _, _, h2⟩
  · rw [h1]; simp [catchError, Verdict.failure]
  · rw [h1]; simp [catchError, Verdict.failure]
  · rw [h1]; simp [catchError, Verdict.failure]
  · rw [h1]; simp [catchError, Verdict.failure]
  · rw [h1]; simp [catchError, Verdict.failure]
  · rcases h2 with ⟨_, _, h1⟩ | ⟨_, _, _, _, h1⟩ | ⟨_, _, _, _, _, h1⟩ | ⟨_, _, _, _, _, h1⟩
    · rw [h1]; simp [catchError, Verdict.failure]
    · rw [h1]; simp [catchError, Verdict.failure]
    · rw [h1]; simp [catchError, Verdict.failure]
    · rw [h1]; simp [catchError, Verdict.failure]

/-- C16, counterexample: the verdict for a receipt with status `'0x0'` has code
`tx_failed` and no `details`. -/
theorem tx_failed_without_details :
    (verifySolanaUsdcTransfer sampleRuntime samplePayments
        (rpcFoundAt 0 sampleTx "0x0".toList) (sampleRequest "1.0".toList)).code
      = "tx_failed".toList ∧
    (verifySolanaUsdcTransfer sampleRuntime samplePayments
        (rpcFoundAt 0 sampleTx "0x0".toList) (sampleRequest "1.0".toList)).details = none :=
  ⟨by decide, by decide⟩

/-- C16, as amended: every verdict with code `wrong_recipient`, `wallet_mismatch`
or `amount_too_low` has a `details` map with the expected and the actual value
of the check that failed; a verdict with code `tx_failed` has no `details`. -/
theorem rejection_details (rt : Runtime) (cfg : Payments) (rpc : Rpc) (req : Request)
    (hcode : (verifySolanaUsdcTransfer rt cfg rpc req).code ∈
      ["wrong_recipient".toList, "wallet_mismatch".toList, "amount_too_low".toList,
       "tx_failed".toList]) :
    ((verifySolanaUsdcTransfer rt cfg rpc req).code = "tx_failed".toList ∧
      (verifySolanaUsdcTransfer rt cfg rpc req).details = none) ∨
    (∃ i tx, FirstFoundAt rpc i tx ∧
      (((verifySolanaUsdcTransfer rt cfg rpc req).code = "wrong_recipient".toList ∧
        (verifySolanaUsdcTransfer rt cfg rpc req).details =
          some [("expectedRecipient".toList, rt.toLowerCase (effectiveRecipient cfg req)),
                ("actualRecipient".toList, rt.toLowerCase (optOr tx.to_ []))]) ∨
       ((verifySolanaUsdcTransfer rt cfg rpc req).code = "wallet_mismatch".toList ∧
        (verifySolanaUsdcTransfer rt cfg rpc req).details =
          some [("expectedWallet".toList, rt.toLowerCase (optOr req.expectedWallet [])),
                ("actualWallet".toList, rt.toLowerCase (optOr tx.from_ []))]) ∨
       ((verifySolanaUsdcTransfer rt cfg rpc req).code = "amount_too_low".toList ∧
        ∃ chainAmount expectedAmount,
          jsBigInt rt (optOr tx.value "0x0".toList) = .ok chainAmount ∧
          toBaseUnits rt cfg req.amount (some (requestDecs cfg req)) = .ok expectedAmount ∧
          (verifySolanaUsdcTransfer rt cfg rpc req).details =
            some [("expected".toList, intToStr expectedAmount),
                  ("actual".toList, intToStr chainAmount)]))) := by
  unfold verifySolanaUsdcTransfer at *
  rcases verify_cases rt cfg rpc req with ⟨_, h⟩ | ⟨_, _, h⟩ | ⟨_, _, _, _, _, h⟩ |
    ⟨_, i, tx, _, _, _, hfound, h⟩
  · rw [h] at hcode; simp [Verdict.failure] at hcode
  · rw [h] at hcode; simp [Verdict.failure] at hcode
  · rw [h] at hcode; simp [Verdict.failure] at hcode
  · rw [h] at hcode ⊢
    rw [resolveExpectedRecipient_eq] at hcode ⊢
    rcases afterPolling_cases rt cfg rpc req (rt.toLowerCase (effectiveRecipient cfg req))
        (resolveExplorerUrl cfg req) (requestDecs cfg req) tx with
      ⟨err, _, h1⟩ | ⟨_, h1⟩ | ⟨_, _, _, h1⟩ | ⟨_, _, _, _, h1⟩ | ⟨_, _, _, _, _, _, h1⟩ |
      ⟨_, _, _, _, _, h2⟩
    · rw [h1] at hcode; simp [catchError, Verdict.failure] at hcode
    · rw [h1] at hcode; simp [catchError, Verdict.failure] at hcode
    · rw [h1]; exact Or.inl ⟨rfl, rfl⟩
    · rw [h1]; exact Or.inr ⟨i, tx, hfound, Or.inl ⟨rfl, rfl⟩⟩
    · rw [h1]; exact Or.inr ⟨i, tx, hfound, Or.inr (Or.inl ⟨rfl, rfl⟩)⟩
    · rcases h2 with ⟨_, _, h1⟩ | ⟨_, _, _, _, h1⟩ | ⟨c, e, hc, he, _, h1⟩ | ⟨_, _, _, _, _, h1⟩
      · rw [h1] at hcode; simp [catchError, Verdict.failure] at hcode
      · rw [h1] at hcode; simp [catchError, Verdict.failure] at hcode
      · rw [h1]
        exact Or.inr ⟨i, tx, hfound, Or.inr (Or.inr ⟨rfl, c, e, hc, he, rfl⟩)⟩
      · rw [h1] at hcode; simp [catchError] at hcode

/-- Witness for C16 as amended: a payment sent to another address. -/
theorem rejection_details_witness :
    ((verifySolanaUsdcTransfer sampleRuntime samplePayments
        (rpcFoundAt 0 strangerTx "0x1".toList) (sampleRequest "1.0".toList)).code
          = "tx_failed".toList ∧
      (verifySolanaUsdcTransfer sampleRuntime samplePayments
        (rpcFoundAt 0 strangerTx "0x1".toList) (sampleRequest "1.0".toList)).details = none) ∨
    (∃ i tx, FirstFoundAt (rpcFoundAt 0 strangerTx "0x1".toList) i tx ∧
      (((verifySolanaUsdcTransfer sampleRuntime samplePayments
          (rpcFoundAt 0 strangerTx "0x1".toList) (sampleRequest "1.0".toList)).code
            = "wrong_recipient".toList ∧
        (verifySolanaUsdcTransfer sampleRuntime samplePayments
          (rpcFoundAt 0 strangerTx "0x1".toList) (sampleRequest "1.0".toList)).details =
          some [("expectedRecipient".toList,
                  sampleRuntime.toLowerCase
                    (effectiveRecipient samplePayments (sampleRequest "1.0".toList))),
                ("actualRecipient".toList, sampleRuntime.toLowerCase (optOr tx.to_ []))]) ∨
       ((verifySolanaUsdcTransfer sampleRuntime samplePayments
          (rpcFoundAt 0 strangerTx "0x1".toList) (sampleRequest "1.0".toList)).code
            = "wallet_mismatch".toList ∧
        (verifySolanaUsdcTransfer sampleRuntime samplePayments
          (rpcFoundAt 0 strangerTx "0x1".toList) (sampleRequest "1.0".toList)).details =
          some [("expectedWallet".toList,
                  sampleRuntime.toLowerCase
                    (optOr (sampleRequest "1.0".toList).expectedWallet [])),
                ("actualWallet".toList, sampleRuntime.toLowerCase (optOr tx.from_ []))]) ∨
       ((verifySolanaUsdcTransfer sampleRuntime samplePayments
          (rpcFoundAt 0 strangerTx "0x1".toList) (sampleRequest "1.0".toList)).code
            = "amount_too_low".toList ∧
        ∃ chainAmount expectedAmount,
          jsBigInt sampleRuntime (optOr tx.value "0x0".toList) = .ok chainAmount ∧
          toBaseUnits sampleRuntime samplePayments (sampleRequest "1.0".toList).amount
            (some (requestDecs samplePayments (sampleRequest "1.0".toList)))
              = .ok expectedAmount ∧
          (verifySolanaUsdcTransfer sampleRuntime samplePayments
            (rpcFoundAt 0 strangerTx "0x1".toList) (sampleRequest "1.0".toList)).details =
            some [("expected".toList, intToStr expectedAmount),
                  ("actual".toList, intToStr chainAmount)]))) :=
  rejection_details sampleRuntime samplePayments (rpcFoundAt 0 strangerTx "0x1".toList)
    (sampleRequest "1.0".toList) (by decide)

/-! ## Errors of the pipeline -/

/-- C17, counterexample: the transaction is found and its `value` cannot be
decoded, but the receipt is `null`: the verdict is `receipt_not_found`, not
`verification_error`. -/
theorem undecodable_value_other_code :
    FirstFoundAt (rpcWithReceipt brokenValueTx (.result none)) 0 brokenValueTx ∧
    jsBigInt sampleRuntime (optOr brokenValueTx.value "0x0".toList) =
      .error ⟨"Cannot convert zz to a BigInt".toList⟩ ∧
    (verifySolanaUsdcTransfer sampleRuntime samplePayments
        (rpcWithReceipt brokenValueTx (.result none)) (sampleRequest "1.0".toList)).code
      = "receipt_not_found".toList ∧
    (verifySolanaUsdcTransfer sampleRuntime samplePayments
        (rpcWithReceipt brokenValueTx (.result none)) (sampleRequest "1.0".toList)).code
      ≠ "verification_error".toList :=
  ⟨⟨by decide, rfl, by decide⟩, rfl, by decide, by decide⟩

/-- C17, as amended: once the transaction is found, if the receipt call raises an
error with non-empty message `m`, or if the receipt has status `'0x1'`, the
recipient and any given wallet match and decoding `tx.value` raises an error with
non-empty message `m`, the verdict is `ok: false` with code `verification_error`
and message `m`. -/
theorem verification_error_mapping (rt : Runtime) (cfg : Payments) (rpc : Rpc) (req : Request)
    (txHash : Str) (i : Nat) (tx : Tx) (m : Str)
    (hsig : req.signature = some txHash) (hhash : txHash ≠ [])
    (hrec : rt.toLowerCase (effectiveRecipient cfg req) ≠ [])
    (hfound : FirstFoundAt rpc i tx) (hm : m ≠ [])
    (hcause : rpc.getTransactionReceipt = .raised ⟨m⟩ ∨
      (∃ receipt, rpc.getTransactionReceipt = .result (some receipt) ∧
        receipt.status = some "0x1".toList ∧
        rt.toLowerCase (optOr tx.to_ []) = rt.toLowerCase (effectiveRecipient cfg req) ∧
        (isTruthy req.expectedWallet = true →
          rt.toLowerCase (optOr tx.from_ []) = rt.toLowerCase (optOr req.expectedWallet [])) ∧
        jsBigInt rt (optOr tx.value "0x0".toList) = .error ⟨m⟩)) :
    (verifySolanaUsdcTransfer rt cfg rpc req).ok = false ∧
    (verifySolanaUsdcTransfer rt cfg rpc req).code = "verification_error".toList ∧
    (verifySolanaUsdcTransfer rt cfg rpc req).message = m := by
  have hrec' : resolveExpectedRecipient rt cfg req ≠ [] := by
    rw [resolveExpectedRecipient_eq]; exact hrec
  have hmsg : strOr m "Unknown verification error".toList = m := by
    cases m with
    | nil => exact absurd rfl hm
    | cons _ _ => rfl
  unfold verifySolanaUsdcTransfer
  rw [verifyTraced_found rt cfg rpc req txHash i tx hsig hhash hrec' hfound]
  rcases hcause with hr | ⟨receipt, hr, hstatus, hto, hwallet, hvalue⟩
  · have : afterPolling rt cfg rpc req (resolveExpectedRecipient rt cfg req)
        (resolveExplorerUrl cfg req) (requestDecs cfg req) tx = .error ⟨m⟩ := by
      simp only [afterPolling, hr]
    rw [this]
    exact ⟨rfl, rfl, hmsg⟩
  · rw [afterPolling_amount rt cfg rpc req _ _ _ tx receipt hr hstatus
      (by rw [hto, resolveExpectedRecipient_eq]) hwallet, hvalue]
    exact ⟨rfl, rfl, hmsg⟩

/-- Witness for C17 as amended: a receipt call that raises, and a value that
cannot be decoded behind a successful receipt. -/
theorem verification_error_mapping_witness :
    ((verifySolanaUsdcTransfer sampleRuntime samplePayments
        (rpcWithReceipt sampleTx (.raised ⟨"RPC HTTP error: 503 Service Unavailable".toList⟩))
        (sampleRequest "1.0".toList)).ok = false ∧
     (verifySolanaUsdcTransfer sampleRuntime samplePayments
        (rpcWithReceipt sampleTx (.raised ⟨"RPC HTTP error: 503 Service Unavailable".toList⟩))
        (sampleRequest "1.0".toList)).code = "verification_error".toList ∧
     (verifySolanaUsdcTransfer sampleRuntime samplePayments
        (rpcWithReceipt sampleTx (.raised ⟨"RPC HTTP error: 503 Service Unavailable".toList⟩))
        (sampleRequest "1.0".toList)).message
          = "RPC HTTP error: 503 Service Unavailable".toList) ∧
    ((verifySolanaUsdcTransfer sampleRuntime samplePayments
        (rpcWithReceipt brokenValueTx (.result (some ⟨some "0x1".toList⟩)))
        (sampleRequest "1.0".toList)).ok = false ∧
     (verifySolanaUsdcTransfer sampleRuntime samplePayments
        (rpcWithReceipt brokenValueTx (.result (some ⟨some "0x1".toList⟩)))
        (sampleRequest "1.0".toList)).code = "verification_error".toList ∧
     (verifySolanaUsdcTransfer sampleRuntime samplePayments
        (rpcWithReceipt brokenValueTx (.result (some ⟨some "0x1".toList⟩)))
        (sampleRequest "1.0".toList)).message = "Cannot convert zz to a BigInt".toList) :=
  ⟨verification_error_mapping sampleRuntime samplePayments
      (rpcWithReceipt sampleTx (.raised ⟨"RPC HTTP error: 503 Service Unavailable".toList⟩))
      (sampleRequest "1.0".toList) "0xabc".toList 0 sampleTx
      "RPC HTTP error: 503 Service Unavailable".toList rfl (by decide) (by decide)
      ⟨by decide, rfl, by decide⟩ (by decide) (Or.inl rfl),
   verification_error_mapping sampleRuntime samplePayments
      (rpcWithReceipt brokenValueTx (.result (some ⟨some "0x1".toList⟩)))
      (sampleRequest "1.0".toList) "0xabc".toList 0 brokenValueTx
      "Cannot convert zz to a BigInt".toList rfl (by decide) (by decide)
      ⟨by decide, rfl, by decide⟩ (by decide)
      (Or.inr ⟨⟨some "0x1".toList⟩, rfl, rfl, by decide, (fun h => by cases h), rfl⟩)⟩

/-! ## Blank amounts and the split at the dots -/

theorem jsTrim_of_whiteSpace {s : Str} (h : ∀ c ∈ s, isJsWhiteSpace c = true) :
    jsTrim s = [] := by
  unfold jsTrim
  rw [List.dropWhile_eq_nil_iff.mpr h]
  rfl

theorem jsTrim_append_left {a : Str} (l : Str) (h : ∀ c ∈ a, isJsWhiteSpace c = true) :
    jsTrim (a ++ l) = jsTrim l := by
  unfold jsTrim
  rw [List.dropWhile_append_of_pos h]

theorem jsTrim_append_right (l : Str) {b : Str} (h : ∀ c ∈ b, isJsWhiteSpace c = true) :
    jsTrim (l ++ b) = jsTrim l := by
  unfold jsTrim
  have hb : ∀ c ∈ b.reverse, isJsWhiteSpace c = true := fun c hc => h c (List.mem_reverse.mp hc)
  rw [List.dropWhile_append]
  split
  · rename_i he
    rw [List.isEmpty_iff.mp he, List.dropWhile_eq_nil_iff.mpr h]
  · rw [List.reverse_append, List.dropWhile_append_of_pos hb]

theorem toBaseUnits_congr_trim (rt : Runtime) (cfg : Payments) {r1 r2 : Str}
    (decimals : Option JsNum) (h : jsTrim r1 = jsTrim r2) :
    toBaseUnits rt cfg (.text r1) decimals = toBaseUnits rt cfg (.text r2) decimals := by
  simp only [toBaseUnits, h]

/-- C18: missing or blank amounts are rejected.  For every `decimals`,
`toBaseUnits` fails when the amount is `undefined` or `null`, and when it is the
empty string or a string `a` of white space only; white space `a`, `b` around an
amount `s` is ignored. -/
theorem toBaseUnits_blank (rt : Runtime) (cfg : Payments) (decimals : Option JsNum)
    (a s b : Str) (ha : ∀ c ∈ a, isJsWhiteSpace c = true)
    (hb : ∀ c ∈ b, isJsWhiteSpace c = true) :
    toBaseUnits rt cfg .undefined decimals = .error ⟨"amount is required".toList⟩ ∧
    toBaseUnits rt cfg .null decimals = .error ⟨"amount is required".toList⟩ ∧
    toBaseUnits rt cfg (.text []) decimals = .error ⟨"amount is empty".toList⟩ ∧
    toBaseUnits rt cfg (.text a) decimals = .error ⟨"amount is empty".toList⟩ ∧
    toBaseUnits rt cfg (.text (a ++ s ++ b)) decimals = toBaseUnits rt cfg (.text s) decimals := by
  refine ⟨rfl, rfl, rfl, ?_, ?_⟩
  · simp [toBaseUnits, jsTrim_of_whiteSpace ha]
  · apply toBaseUnits_congr_trim
    rw [jsTrim_append_right _ hb, jsTrim_append_left _ ha]

/-- Witness for C18: white space around the amount `0.1`. -/
theorem toBaseUnits_blank_witness :
    toBaseUnits sampleRuntime samplePayments .undefined (some (.int 18))
      = .error ⟨"amount is required".toList⟩ ∧
    toBaseUnits sampleRuntime samplePayments .null (some (.int 18))
      = .error ⟨"amount is required".toList⟩ ∧
    toBaseUnits sampleRuntime samplePayments (.text []) (some (.int 18))
      = .error ⟨"amount is empty".toList⟩ ∧
    toBaseUnits sampleRuntime samplePayments (.text " \t".toList) (some (.int 18))
      = .error ⟨"amount is empty".toList⟩ ∧
    toBaseUnits sampleRuntime samplePayments (.text (" \t".toList ++ "0.1".toList ++ "\n".toList))
        (some (.int 18))
      = toBaseUnits sampleRuntime samplePayments (.text "0.1".toList) (some (.int 18)) :=
  toBaseUnits_blank sampleRuntime samplePayments (some (.int 18)) " \t".toList "0.1".toList
    "\n".toList (by decide) (by decide)

/-- The segments of a text with two dots. -/
theorem splitDot_two_dots {a b : Str} (rest : Str) (ha : '.' ∉ a) (hb : '.' ∉ b) :
    splitDot (a ++ '.' :: (b ++ '.' :: rest)) = a :: b :: splitDot rest := by
  rw [splitDot_append_dot _ ha, splitDot_append_dot _ hb]

/-- C19, the code at the failing input: the text after the first dot of `1.2.3` is
`2.3`, but `split('.')` yields three segments of which only two are read, so
`toBaseUnits("1.2.3", 18)` returns the same integer as `toBaseUnits("1.2", 18)`,
and `toBaseUnits("1.2.345", 2)` returns `120`. -/
theorem second_dot_dropped :
    fractionText "1.2.3".toList = "2.3".toList ∧
    splitDot "1.2.3".toList = ["1".toList, "2".toList, "3".toList] ∧
    toBaseUnits sampleRuntime samplePayments (.text "1.2.3".toList) (some (.int 18))
      = .ok 1200000000000000000 ∧
    toBaseUnits sampleRuntime samplePayments (.text "1.2".toList) (some (.int 18))
      = .ok 1200000000000000000 ∧
    toBaseUnits sampleRuntime samplePayments (.text "1.2.345".toList) (some (.int 2))
      = .ok 120 :=
  ⟨by decide, by decide, rfl, rfl, rfl⟩

/-! ## The configuration resolver -/

/-- The resolver throws exactly when neither the network key nor the default
network resolves to a property of the table. -/
theorem getNetworkConfigFromRequest_error_iff (toNumber : Str → JsNum) (env : Env)
    (req : HttpRequest) :
    (∃ err, getNetworkConfigFromRequest toNumber env req = .error err) ↔
      NETWORK_CONFIGS (networkKeyOf env req) = .undefined ∧
        NETWORK_CONFIGS (DEFAULT_NETWORK env) = .undefined := by
  unfold getNetworkConfigFromRequest resolveEntry
  cases hk : NETWORK_CONFIGS (networkKeyOf env req) <;>
    cases hd : NETWORK_CONFIGS (DEFAULT_NETWORK env) <;> simp

/-- The properties of the returned object when the network key is in the table,
and when it resolves to nothing and the default network is in the table. -/
theorem getNetworkConfigFromRequest_entry (toNumber : Str → JsNum) (env : Env)
    (req : HttpRequest) (e : NetworkEntry)
    (h : NETWORK_CONFIGS (networkKeyOf env req) = .entry e ∨
      (NETWORK_CONFIGS (networkKeyOf env req) = .undefined ∧
        NETWORK_CONFIGS (DEFAULT_NETWORK env) = .entry e)) :
    getNetworkConfigFromRequest toNumber env req =
      .ok { network := some e.network
            tokenType := strOr e.tokenType (MCP_CONFIG_payments toNumber env).tokenType
            recipient := (MCP_CONFIG_payments toNumber env).recipient
            paymentUrl := (MCP_CONFIG_payments toNumber env).paymentUrl
            explorerBaseUrl := some e.explorerBaseUrl
            rpcUrl := some e.rpcUrl
            decimals := e.decimals
            expiresInSeconds := (MCP_CONFIG_payments toNumber env).expiresInSeconds } := by
  unfold getNetworkConfigFromRequest resolveEntry
  rcases h with h | ⟨h1, h2⟩
  · simp [h]
  · simp [h1, h2]

/-- C14, the code at the failing input: with `X402_NETWORK=mainnet` (a default
network without entry in the table) and a request without network key, both
lookups are `undefined` and `getNetworkConfigFromRequest` throws, although
`MCP_CONFIG.payments` itself is built with the literal defaults. -/
theorem resolver_throws :
    NETWORK_CONFIGS (networkKeyOf mainnetEnv plainHttpRequest) = .undefined ∧
    NETWORK_CONFIGS (DEFAULT_NETWORK mainnetEnv) = .undefined ∧
    (MCP_CONFIG_payments digitsToNumber mainnetEnv).explorerBaseUrl
      = "https://pharos-testnet.socialscan.io/tx".toList ∧
    (MCP_CONFIG_payments digitsToNumber mainnetEnv).decimals = .int 18 ∧
    (MCP_CONFIG_payments digitsToNumber mainnetEnv).tokenType = "native".toList ∧
    getNetworkConfigFromRequest digitsToNumber mainnetEnv plainHttpRequest
      = .error undefinedConfigError :=
  ⟨by decide, by decide, by decide, by decide, by decide, rfl⟩

/-- C15, the code at the failing input: the network key `constructor` is not in
the table, but `NETWORK_CONFIGS['constructor']` is the inherited function
`Object`, so the resolver does not fall back to the entry of the default network
and returns `network`, `explorerBaseUrl` and `rpcUrl` undefined. -/
theorem resolver_inherited_key :
    NETWORK_CONFIGS (networkKeyOf emptyEnv constructorHttpRequest) = .inherited ∧
    NETWORK_CONFIGS (DEFAULT_NETWORK emptyEnv) = .entry pharosTestnetEntry ∧
    getNetworkConfigFromRequest digitsToNumber emptyEnv constructorHttpRequest =
      .ok { network := none
            tokenType := "native".toList
            recipient := "0x49e0329808559a9aa742a3cf01cec9b773a53834".toList
            paymentUrl := none
            explorerBaseUrl := none
            rpcUrl := none
            decimals := .int 18
            expiresInSeconds := .int 300 } :=
  ⟨by decide, by decide, rfl⟩

/-- With no environment variable set, `MCP_CONFIG.payments` is `samplePayments`. -/
theorem MCP_CONFIG_payments_emptyEnv :
    MCP_CONFIG_payments digitsToNumber emptyEnv = samplePayments := by
  rfl

theorem optOr_ne_nil (a : Option Str) {b : Str} (hb : b ≠ []) : optOr a b ≠ [] := by
  cases a with
  | none => exact hb
  | some s =>
    cases s with
    | nil => exact hb
    | cons c cs => simp [optOr, strOr]

/-- C20: under the configuration that `config.js` builds, for every environment,
`MCP_CONFIG.payments.recipient` is a non-empty string and the verifier never
returns the code `missing_recipient`, for every request and RPC behaviour. -/
theorem never_missing_recipient (rt : Runtime) (toNumber : Str → JsNum) (env : Env)
    (rpc : Rpc) (req : Request) :
    (MCP_CONFIG_payments toNumber env).recipient ≠ [] ∧
    (verifySolanaUsdcTransfer rt (MCP_CONFIG_payments toNumber env) rpc req).code
      ≠ "missing_recipient".toList := by
  have hrecipient : (MCP_CONFIG_payments toNumber env).recipient ≠ [] :=
    optOr_ne_nil _ (by decide)
  refine ⟨hrecipient, ?_⟩
  have heff : resolveExpectedRecipient rt (MCP_CONFIG_payments toNumber env) req ≠ [] := by
    rw [resolveExpectedRecipient_eq]
    intro h
    exact optOr_ne_nil req.recipient hrecipient ((rt.toLowerCase_eq_nil _).mp h)
  unfold verifySolanaUsdcTransfer
  rcases verify_cases rt (MCP_CONFIG_payments toNumber env) rpc req with
    ⟨_, h⟩ | ⟨_, hrec, _⟩ | ⟨_, _, _, _, _, h⟩ | ⟨_, _, tx, _, _, _, _, h⟩
  · rw [h]; simp [Verdict.failure]
  · exact absurd hrec heff
  · rw [h]; simp [Verdict.failure]
  · rw [h]
    intro hc
    have := afterPolling_codes rt (MCP_CONFIG_payments toNumber env) rpc req
      (resolveExpectedRecipient rt (MCP_CONFIG_payments toNumber env) req)
      (resolveExplorerUrl (MCP_CONFIG_payments toNumber env) req)
      (requestDecs (MCP_CONFIG_payments toNumber env) req) tx
    rw [hc] at this
    revert this
    decide

/-! ## Witnesses for the payload claims -/

/-- Witness for C11: value `0xDE0B6B3A7640000` with amount `1.0` at 18 decimals. -/
theorem success_payload_witness :
    verifySolanaUsdcTransfer sampleRuntime samplePayments (rpcFoundAt 0 sampleTx "0x1".toList)
        (sampleRequest "1.0".toList) =
      { ok := true
        code := "ok".toList
        message := "Payment verified on Pharos testnet".toList
        explorerUrl := resolveExplorerUrl samplePayments (sampleRequest "1.0".toList)
        details := none
        payer := some (sampleRuntime.toLowerCase (optOr sampleTx.from_ []))
        amountRaw := some (intToStr 1000000000000000000)
        network := some (optOr ((sampleRequest "1.0".toList).networkConfig.bind
                            fun nc => nc.network)
                          (strOr samplePayments.network "pharos-testnet".toList)) } ∧
    intToStr 1000000000000000000 = "1000000000000000000".toList :=
  ⟨success_payload sampleRuntime samplePayments (rpcFoundAt 0 sampleTx "0x1".toList)
      (sampleRequest "1.0".toList) "0xabc".toList 0 sampleTx ⟨some "0x1".toList⟩
      1000000000000000000 1000000000000000000 rfl (by decide) (by decide)
      ⟨by decide, rfl, by decide⟩ rfl rfl (by decide) (fun w h => by cases h) rfl rfl
      (by decide), by decide⟩

/-- Witness for C12: a request with an empty hash. -/
theorem missing_hash_no_network_witness :
    (verifySolanaUsdcTransfer sampleRuntime samplePayments (rpcFoundAt 0 sampleTx "0x1".toList)
      { sampleRequest "1.0".toList with signature := some [] }).ok = false ∧
    (verifySolanaUsdcTransfer sampleRuntime samplePayments (rpcFoundAt 0 sampleTx "0x1".toList)
      { sampleRequest "1.0".toList with signature := some [] }).code
        = "missing_tx_hash".toList ∧
    (verifyTraced sampleRuntime samplePayments (rpcFoundAt 0 sampleTx "0x1".toList)
      { sampleRequest "1.0".toList with signature := some [] }).2 = [] ∧
    (∀ method, countCalls method
      (verifyTraced sampleRuntime samplePayments (rpcFoundAt 0 sampleTx "0x1".toList)
        { sampleRequest "1.0".toList with signature := some [] }).2 = 0) ∧
    countDelays
      (verifyTraced sampleRuntime samplePayments (rpcFoundAt 0 sampleTx "0x1".toList)
        { sampleRequest "1.0".toList with signature := some [] }).2 = 0 :=
  missing_hash_no_network sampleRuntime samplePayments (rpcFoundAt 0 sampleTx "0x1".toList)
    { sampleRequest "1.0".toList with signature := some [] } rfl

/-! ## The verifier on values of any type: its verdicts -/

theorem wellFormed_failure_url {code : Str} (message explorerUrl : Str)
    (details : Option (List (Str × Str)))
    (hne : code ≠ "ok".toList) (hmem : code ∈ verdictCodes) :
    ({ Verdict.failure code message explorerUrl with details := details } : Verdict).WellFormed ∧
    ({ Verdict.failure code message explorerUrl with details := details } : Verdict).explorerUrl
      = explorerUrl :=
  ⟨wellFormed_failure message explorerUrl details hne hmem, rfl⟩

theorem failure_verdict {code : Str} (message explorerUrl : Str)
    (hne : code ≠ "ok".toList) (hmem : code ∈ verdictCodes) :
    (Verdict.failure code message explorerUrl).WellFormed ∧
    (Verdict.failure code message explorerUrl).explorerUrl = explorerUrl :=
  ⟨wellFormed_failure message explorerUrl none hne hmem, rfl⟩

theorem walletCheckRaw_verdict {rt : Runtime} {errs : TypeErrors} {expectedWallet : JsValue}
    {from_ explorerUrl : Str} {v : Verdict}
    (h : walletCheckRaw rt errs expectedWallet from_ explorerUrl = .ok (some v)) :
    v.WellFormed ∧ v.explorerUrl = explorerUrl := by
  unfold walletCheckRaw at h
  split at h
  · split at h
    · cases h
    · split at h
      · cases h; exact wellFormed_failure_url _ _ _ (by decide) (by decide)
      · cases h
  · cases h

theorem amountCheckRaw_verdict {rt : Runtime} {cfg : Payments} {req : RawRequest}
    {explorerUrl : Str} {decs : Option JsNum} {from_ : Str} {value : JsValue} {v : Verdict}
    (h : amountCheckRaw rt cfg req explorerUrl decs from_ value = .ok v) :
    v.WellFormed ∧ v.explorerUrl = explorerUrl := by
  unfold amountCheckRaw at h
  split at h
  · cases h
  · split at h
    · cases h; exact failure_verdict _ _ (by decide) (by decide)
    · split at h
      · cases h; exact wellFormed_failure_url _ _ _ (by decide) (by decide)
      · cases h
        refine ⟨⟨⟨fun h => Bool.noConfusion h, fun h => absurd rfl h⟩, ?_⟩, rfl⟩
        show "ok".toList ∈ verdictCodes
        decide

theorem afterPollingRaw_verdict {rt : Runtime} {errs : TypeErrors} {cfg : Payments}
    {rpc : RawRpc} {req : RawRequest} {expectedRecipient explorerUrl : Str} {decs : Option JsNum}
    {tx : RawTx} {v : Verdict}
    (h : afterPollingRaw rt errs cfg rpc req expectedRecipient explorerUrl decs tx = .ok v) :
    v.WellFormed ∧ v.explorerUrl = explorerUrl := by
  unfold afterPollingRaw at h
  split at h
  · cases h
  · cases h; exact failure_verdict _ _ (by decide) (by decide)
  · split at h
    · cases h; exact failure_verdict _ _ (by decide) (by decide)
    · split at h
      · cases h
      · split at h
        · cases h
        · split at h
          · cases h; exact wellFormed_failure_url _ _ _ (by decide) (by decide)
          · split at h
            · cases h
            · rename_i hw
              cases h
              exact walletCheckRaw_verdict hw
            · exact amountCheckRaw_verdict h

theorem catchError_verdict (explorerUrl : Str) (r : Except JsError Verdict)
    (h : ∀ v, r = .ok v → v.WellFormed ∧ v.explorerUrl = explorerUrl) :
    (catchError explorerUrl r).WellFormed ∧ (catchError explorerUrl r).explorerUrl = explorerUrl := by
  cases r with
  | ok v => exact h v rfl
  | error err => exact failure_verdict _ _ (by decide) (by decide)

/-- Every verdict that the verifier returns, on values of any type, is well formed
and carries the link built at the top of the function. -/
theorem verifyRaw_verdict {rt : Runtime} {errs : TypeErrors} {cfg : Payments} {rpc : RawRpc}
    {req : RawRequest} {v : Verdict} (h : verifyRaw rt errs cfg rpc req = .ok v) :
    v.WellFormed ∧
    v.explorerUrl =
      optOr (req.networkConfig.bind fun nc => nc.explorerBaseUrl)
          (strOr cfg.explorerBaseUrl "https://pharos-testnet.socialscan.io/tx".toList)
        ++ "/".toList ++ req.signature.template := by
  generalize hu : optOr (req.networkConfig.bind fun nc => nc.explorerBaseUrl)
          (strOr cfg.explorerBaseUrl "https://pharos-testnet.socialscan.io/tx".toList)
        ++ "/".toList ++ req.signature.template = url
  unfold verifyRaw at h
  simp only [hu] at h
  split at h
  · cases h; exact failure_verdict _ _ (by decide) (by decide)
  · split at h
    · cases h
    · split at h
      · cases h; exact failure_verdict _ _ (by decide) (by decide)
      · split at h
        · cases h; exact failure_verdict _ _ (by decide) (by decide)
        · cases h
          apply catchError_verdict
          intro w hw
          exact afterPollingRaw_verdict hw

/-- The lower-casing of line 105 succeeds when the recipient is a string or falsy. -/
theorem recipient_lowered (rt : Runtime) (err : JsError) (recipient : JsValue) (d : Str)
    (h : recipient.truthy = true → ∃ s, recipient = .str s) :
    ∃ lowered, callToLowerCase rt err (recipient.orStr d) = .ok lowered := by
  unfold JsValue.orStr
  cases ht : recipient.truthy with
  | false => exact ⟨rt.toLowerCase d, rfl⟩
  | true =>
    obtain ⟨s, hs⟩ := h ht
    exact ⟨rt.toLowerCase s, by simp [hs, callToLowerCase]⟩

theorem hashText_eq (h : MaybeStr) : h.template = hashText h := by
  cases h <;> rfl

/-! ## The typed verifier is the untyped one on typed values -/

theorem callToLowerCase_optValue (rt : Runtime) (err : JsError) (x : Option Str) (d : Str) :
    callToLowerCase rt err ((optValue x).orStr d) = .ok (rt.toLowerCase (optOr x d)) := by
  cases x with
  | none => rfl
  | some s =>
    cases s with
    | nil => rfl
    | cons c cs => rfl

theorem chainAmountOf_optValue (rt : Runtime) (x : Option Str) :
    chainAmountOf rt (optValue x) = jsBigInt rt (optOr x "0x0".toList) := by
  cases x with
  | none => rfl
  | some s =>
    cases s with
    | nil => rfl
    | cons c cs => rfl

theorem rawDecs_toRaw (cfg : Payments) (req : Request) :
    rawDecs cfg req.toRaw.decimals = some (requestDecs cfg req) := by
  unfold rawDecs requestDecs Request.toRaw
  cases hd : req.decimals with
  | none => rfl
  | some d =>
    cases d with
    | nan => rfl
    | int i =>
      by_cases hi : i = 0
      · simp [JsValue.truthy, numOr, hi]
      · simp [JsValue.truthy, numOr, hi]

theorem pollRawTransaction_toRaw (rpc : Rpc) (rpcUrl txHash : Str) (M : Nat) :
    ∀ r, pollRawTransaction rpc.toRaw M r
      = (pollTransaction rpc rpcUrl txHash M r).1.map Tx.toRaw
  | 0 => rfl
  | r + 1 => by
    have ih := pollRawTransaction_toRaw rpc rpcUrl txHash M r
    unfold pollRawTransaction pollTransaction
    simp only [Rpc.toRaw]
    cases h : rpc.getTransactionByHash (M - (r + 1)) with
    | raised e => simpa using ih
    | result o =>
      cases o with
      | none => simpa using ih
      | some tx => simp

theorem walletCheckRaw_optValue (rt : Runtime) (errs : TypeErrors) (w : Option Str)
    (from_ explorerUrl : Str) :
    walletCheckRaw rt errs (optValue w) from_ explorerUrl =
      .ok (if isTruthy w && from_ ≠ rt.toLowerCase (optOr w []) then
            some { Verdict.failure "wallet_mismatch".toList
                    "Payment was sent from a different wallet than expected".toList
                    explorerUrl with
                  details := some [("expectedWallet".toList, rt.toLowerCase (optOr w [])),
                                   ("actualWallet".toList, from_)] }
          else none) := by
  cases w with
  | none => rfl
  | some s =>
    cases s with
    | nil => rfl
    | cons c cs =>
      unfold walletCheckRaw
      by_cases hf : from_ = rt.toLowerCase (c :: cs)
      · simp [optValue, JsValue.truthy, callToLowerCase, isTruthy, optOr, strOr, hf]
      · simp [optValue, JsValue.truthy, callToLowerCase, isTruthy, optOr, strOr, hf]

theorem afterPollingRaw_toRaw (rt : Runtime) (errs : TypeErrors) (cfg : Payments) (rpc : Rpc)
    (req : Request) (expectedRecipient explorerUrl : Str) (decs : JsNum) (tx : Tx) :
    afterPollingRaw rt errs cfg rpc.toRaw req.toRaw expectedRecipient explorerUrl (some decs)
        tx.toRaw
      = afterPolling rt cfg rpc req expectedRecipient explorerUrl decs tx := by
  unfold afterPollingRaw afterPolling
  cases hr : rpc.getTransactionReceipt with
  | raised e => simp [Rpc.toRaw, hr]
  | result o =>
    cases o with
    | none => simp [Rpc.toRaw, hr]
    | some receipt =>
      have hst : (optValue receipt.status ≠ JsValue.str "0x1".toList)
          ↔ (receipt.status ≠ some "0x1".toList) := by
        cases receipt.status <;> simp [optValue]
      simp only [Rpc.toRaw, hr]
      by_cases hs : receipt.status = some "0x1".toList
      · have hs' : ¬ (optValue receipt.status ≠ JsValue.str "0x1".toList) := by
          rw [hst]; exact fun h => h hs
        rw [if_neg hs', if_neg (fun h => h hs)]
        simp only [Tx.toRaw, callToLowerCase_optValue]
        by_cases hto : rt.toLowerCase (optOr tx.to_ []) = expectedRecipient
        · rw [if_neg (fun h => h hto), if_neg (fun h => h hto)]
          simp only [Request.toRaw, walletCheckRaw_optValue]
          by_cases hw : (isTruthy req.expectedWallet &&
              decide (rt.toLowerCase (optOr tx.from_ []) ≠ rt.toLowerCase (optOr req.expectedWallet []))) = true
          · rw [if_pos hw, if_pos hw]
          · rw [if_neg hw, if_neg hw]
            simp only [amountCheckRaw, chainAmountOf_optValue]
        · rw [if_pos hto, if_pos hto]
      · have hs' : optValue receipt.status ≠ JsValue.str "0x1".toList := hst.mpr hs
        rw [if_pos hs', if_pos hs]

/-- On a request and RPC results that respect the types of the data model, the
verifier on untyped values completes with the verdict of `verifySolanaUsdcTransfer`. -/
theorem verifyRaw_toRaw (rt : Runtime) (errs : TypeErrors) (cfg : Payments) (rpc : Rpc)
    (req : Request) :
    verifyRaw rt errs cfg rpc.toRaw req.toRaw = .ok (verifySolanaUsdcTransfer rt cfg rpc req) := by
  unfold verifyRaw verifySolanaUsdcTransfer verifyTraced
  cases hsig : req.signature with
  | none => simp [Request.toRaw, hsig, MaybeStr.truthy, MaybeStr.template, resolveExplorerUrl,
      resolveExplorerBaseUrl, templateOf]
  | some txHash =>
    cases txHash with
    | nil => simp [Request.toRaw, hsig, MaybeStr.truthy, MaybeStr.template, resolveExplorerUrl,
        resolveExplorerBaseUrl, templateOf]
    | cons c cs =>
      have hurl : optOr (req.toRaw.networkConfig.bind fun nc => nc.explorerBaseUrl)
            (strOr cfg.explorerBaseUrl "https://pharos-testnet.socialscan.io/tx".toList)
          ++ "/".toList ++ req.toRaw.signature.template = resolveExplorerUrl cfg req := by
        simp [Request.toRaw, hsig, MaybeStr.template, resolveExplorerUrl,
          resolveExplorerBaseUrl, templateOf]
      have hrec : callToLowerCase rt (errs "recipient".toList)
          (req.toRaw.recipient.orStr (strOr cfg.recipient []))
            = .ok (resolveExpectedRecipient rt cfg req) :=
        callToLowerCase_optValue rt _ req.recipient _
      have htr : req.toRaw.signature.truthy = true := by
        simp [Request.toRaw, hsig, MaybeStr.truthy]
      simp only [hurl, hrec, htr, rawDecs_toRaw,
        pollRawTransaction_toRaw rpc (resolveRpcUrl cfg req) (c :: cs), tryBlock]
      by_cases he : (resolveExpectedRecipient rt cfg req).isEmpty = true
      · simp [he]
      · simp only [he]
        cases hp : (pollTransaction rpc (resolveRpcUrl cfg req) (c :: cs) 20 20).1 with
        | none => simp [catchError]
        | some tx => simp [afterPollingRaw_toRaw]

/-- The verifier completes with a verdict when the recipient is a string or falsy. -/
theorem verifyRaw_returns (rt : Runtime) (errs : TypeErrors) (cfg : Payments) (rpc : RawRpc)
    (req : RawRequest) (hrecipient : req.recipient.truthy = true → ∃ s, req.recipient = .str s) :
    ∃ v, verifyRaw rt errs cfg rpc req = .ok v := by
  obtain ⟨lowered, hl⟩ :=
    recipient_lowered rt (errs "recipient".toList) req.recipient (strOr cfg.recipient []) hrecipient
  unfold verifyRaw
  simp only [hl]
  split
  · exact ⟨_, rfl⟩
  · split
    · exact ⟨_, rfl⟩
    · split
      · exact ⟨_, rfl⟩
      · exact ⟨_, rfl⟩

/-- The only exception that escapes the verifier is the one of the method call on
the recipient, and it escapes only when the hash is present and the recipient is
truthy and not a string. -/
theorem verifyRaw_error {rt : Runtime} {errs : TypeErrors} {cfg : Payments} {rpc : RawRpc}
    {req : RawRequest} {err : JsError} (h : verifyRaw rt errs cfg rpc req = .error err) :
    err = errs "recipient".toList ∧ req.signature.truthy = true ∧
      req.recipient.truthy = true ∧ ∀ s, req.recipient ≠ .str s := by
  have hnot : ¬ (req.recipient.truthy = true → ∃ s, req.recipient = .str s) := by
    intro hr
    obtain ⟨v, hv⟩ := verifyRaw_returns rt errs cfg rpc req hr
    rw [hv] at h
    cases h
  have htruthy : req.recipient.truthy = true := by
    by_contra hc
    exact hnot (fun ht => absurd ht hc)
  have hstr : ∀ s, req.recipient ≠ .str s := by
    intro s hs
    exact hnot (fun _ => ⟨s, hs⟩)
  refine ⟨?_, ?_, htruthy, hstr⟩
  · unfold verifyRaw at h
    simp only at h
    split at h
    · cases h
    · split at h
      · rename_i e he
        cases h
        unfold JsValue.orStr at he
        rw [if_pos htruthy] at he
        cases hrec : req.recipient with
        | str s => exact absurd hrec (hstr s)
        | undefined => rw [hrec] at he; cases he; rfl
        | null => rw [hrec] at he; cases he; rfl
        | bool b => rw [hrec] at he; cases he; rfl
        | num n => rw [hrec] at he; cases he; rfl
        | object t => rw [hrec] at he; cases he; rfl
      · split at h
        · cases h
        · split at h
          · cases h
          · cases h
  · unfold verifyRaw at h
    simp only at h
    split at h
    · cases h
    · rename_i hn
      simpa using hn

/-- C4, the code at the failing input: the text after the first dot of `1.2.345`
is `2.345`, five characters, more than the 2 decimals allowed, yet
`toBaseUnits("1.2.345", 2)` does not fail: it returns `120`, the result for
`1.2`, while `toBaseUnits("1.2345", 2)` fails in the length check. -/
theorem truncation_past_second_dot :
    fractionText "1.2.345".toList = "2.345".toList ∧
    jsLength (fractionText "1.2.345".toList) = 5 ∧
    lengthExceeds (jsLength (fractionText "1.2.345".toList)) (.int 2) = true ∧
    toBaseUnits sampleRuntime samplePayments (.text "1.2.345".toList) (some (.int 2))
      = .ok 120 ∧
    toBaseUnits sampleRuntime samplePayments (.text "1.2".toList) (some (.int 2))
      = .ok 120 ∧
    toBaseUnits sampleRuntime samplePayments (.text "1.2345".toList) (some (.int 2))
      = .error ⟨"Too many decimal places: got 4, max 2".toList⟩ :=
  ⟨by decide, by decide, by decide, rfl, rfl, rfl⟩

/-- C5, counterexample: a request whose recipient is the number 123, with a
transaction and a receipt that are in order.  The method call of line 105 stands
before the `try`, its `TypeError` is not caught, and the call completes with no
verdict at all. -/
theorem numeric_recipient_rejects :
    verifyRaw sampleRuntime sampleTypeErrors samplePayments
        (rpcFoundAt 0 sampleTx "0x1".toList).toRaw numericRecipientRequest
      = .error (sampleTypeErrors "recipient".toList) ∧
    ¬ ∃ v, verifyRaw sampleRuntime sampleTypeErrors samplePayments
        (rpcFoundAt 0 sampleTx "0x1".toList).toRaw numericRecipientRequest = .ok v :=
  ⟨rfl, fun ⟨_, hv⟩ => Except.noConfusion (Eq.trans (Eq.symm hv) (Eq.refl _))⟩

/-- C5, as amended: for every request whose recipient is a string or falsy, and
for every behaviour of the RPC capability (null results, raised errors,
transaction and receipt objects with properties of any type), the verifier
completes with a verdict; the verdict has `ok: false` exactly when its code is
not `ok`, and its code is one of the eleven codes. -/
theorem verify_completes (rt : Runtime) (errs : TypeErrors) (cfg : Payments) (rpc : RawRpc)
    (req : RawRequest) (hrecipient : req.recipient.truthy = true → ∃ s, req.recipient = .str s) :
    ∃ v, verifyRaw rt errs cfg rpc req = .ok v ∧
      (v.ok = false ↔ v.code ≠ "ok".toList) ∧ v.code ∈ verdictCodes := by
  obtain ⟨v, hv⟩ := verifyRaw_returns rt errs cfg rpc req hrecipient
  exact ⟨v, hv, (verifyRaw_verdict hv).1⟩

/-- Witness for C5 as amended: the recipient is absent, the transaction object has
a number as `from` and an object as `value`; the `TypeError` raised inside the
`try` becomes a `verification_error` verdict. -/
theorem verify_completes_witness :
    (sampleRequest "1.0".toList).toRaw.recipient.truthy = false ∧
    verifyRaw sampleRuntime sampleTypeErrors samplePayments
        (rawRpcFound malformedTx (.str "0x1".toList)) (sampleRequest "1.0".toList).toRaw
      = .ok (Verdict.failure "verification_error".toList
              (sampleTypeErrors "tx.from".toList).message
              "https://pharos-testnet.socialscan.io/tx/0xabc".toList) ∧
    ∃ v, verifyRaw sampleRuntime sampleTypeErrors samplePayments
        (rawRpcFound malformedTx (.str "0x1".toList)) (sampleRequest "1.0".toList).toRaw = .ok v ∧
      (v.ok = false ↔ v.code ≠ "ok".toList) ∧ v.code ∈ verdictCodes :=
  ⟨rfl, rfl,
    verify_completes sampleRuntime sampleTypeErrors samplePayments
      (rawRpcFound malformedTx (.str "0x1".toList)) (sampleRequest "1.0".toList).toRaw
      (fun h => absurd h (by decide))⟩

/-- C13: explorer link invariant.  Every verdict that the verifier returns, on
every path, has as `explorerUrl` the text of `explorerBaseUrl + '/' + txHash`:
the explorer base URL of `networkConfig` when it is given and not empty, else the
configured one, else the literal default; then a slash; then the hash, with
`null` and `undefined` written out as JavaScript writes them. -/
theorem explorer_link_text (rt : Runtime) (errs : TypeErrors) (cfg : Payments) (rpc : RawRpc)
    (req : RawRequest) (v : Verdict) (h : verifyRaw rt errs cfg rpc req = .ok v) :
    v.explorerUrl =
      optOr (req.networkConfig.bind fun nc => nc.explorerBaseUrl)
          (strOr cfg.explorerBaseUrl "https://pharos-testnet.socialscan.io/tx".toList)
        ++ ['/'] ++ hashText req.signature := by
  rw [(verifyRaw_verdict h).2, hashText_eq]
  rfl

/-- Witness for C13: the links of an accepted payment, of a request with a base
URL of its own, and of requests whose hash is `null` or absent. -/
theorem explorer_link_text_witness :
    (∃ v, verifyRaw sampleRuntime sampleTypeErrors samplePayments
        (rpcFoundAt 0 sampleTx "0x1".toList).toRaw (sampleRequest "1.0".toList).toRaw = .ok v ∧
      v.code = "ok".toList ∧
      v.explorerUrl = "https://pharos-testnet.socialscan.io/tx/0xabc".toList) ∧
    (∃ v, verifyRaw sampleRuntime sampleTypeErrors samplePayments
        (rpcFoundAt 0 sampleTx "0x1".toList).toRaw explorerOverrideRequest = .ok v ∧
      v.code = "ok".toList ∧
      v.explorerUrl = "https://explorer.example/tx/0xabc".toList) ∧
    (∃ v, verifyRaw sampleRuntime sampleTypeErrors samplePayments
        (rpcFoundAt 0 sampleTx "0x1".toList).toRaw nullHashRequest = .ok v ∧
      v.code = "missing_tx_hash".toList ∧
      v.explorerUrl = "https://pharos-testnet.socialscan.io/tx/null".toList) ∧
    (∃ v, verifyRaw sampleRuntime sampleTypeErrors samplePayments
        (rpcFoundAt 0 sampleTx "0x1".toList).toRaw absentHashRequest = .ok v ∧
      v.code = "missing_tx_hash".toList ∧
      v.explorerUrl = "https://pharos-testnet.socialscan.io/tx/undefined".toList) :=
  ⟨⟨_, rfl, rfl,
     (explorer_link_text sampleRuntime sampleTypeErrors samplePayments
       (rpcFoundAt 0 sampleTx "0x1".toList).toRaw (sampleRequest "1.0".toList).toRaw _ rfl).trans
       (by decide)⟩,
   ⟨_, rfl, rfl,
     (explorer_link_text sampleRuntime sampleTypeErrors samplePayments
       (rpcFoundAt 0 sampleTx "0x1".toList).toRaw explorerOverrideRequest _ rfl).trans
       (by decide)⟩,
   ⟨_, rfl, rfl,
     (explorer_link_text sampleRuntime sampleTypeErrors samplePayments
       (rpcFoundAt 0 sampleTx "0x1".toList).toRaw nullHashRequest _ rfl).trans
       (by decide)⟩,
   ⟨_, rfl, rfl,
     (explorer_link_text sampleRuntime sampleTypeErrors samplePayments
       (rpcFoundAt 0 sampleTx "0x1".toList).toRaw absentHashRequest _ rfl).trans
       (by decide)⟩⟩

end Pharos
